import Mathlib

/-!
# Faucet scripts: a shallow embedding

The four scripts of the repository (`get-eth-balance.js`, `get-eth-info.js`,
`zama-fauct.js`, `zama-usdc-token-balance.js`) are embedded as pure functions
over an explicit environment (`World`) that answers every request the scripts
send to the outside (RPC node, file system, web3 library helpers).  Every
function returns its JavaScript result together with the list of effects it
performed, in order.  Console output is not an effect of the model.  The
environment is static: the same request gets the same answer throughout a run.
-/

namespace Faucet

/-! ## JavaScript string primitives -/

/-- ECMAScript `WhiteSpace` and `LineTerminator` code points: exactly the
characters that `String.prototype.trim` removes. -/
def isJsWhiteSpace (c : Char) : Bool :=
  let n := c.toNat
  n == 0x09 || n == 0x0A || n == 0x0B || n == 0x0C || n == 0x0D || n == 0x20 ||
  n == 0xA0 || n == 0x1680 || (0x2000 ≤ n && n ≤ 0x200A) || n == 0x2028 ||
  n == 0x2029 || n == 0x202F || n == 0x205F || n == 0x3000 || n == 0xFEFF

/-- Characters of `s.trim()`: leading and trailing white space removed. -/
def trimChars (l : List Char) : List Char :=
  ((l.dropWhile isJsWhiteSpace).reverse.dropWhile isJsWhiteSpace).reverse

/-- JavaScript `s.trim()`. -/
def jsTrim (s : String) : String := String.mk (trimChars s.data)

/-- Characters of the pieces of `s.split('\n')`: a string with `k` line feeds
has `k + 1` pieces, the empty string has the single piece `""`. -/
def splitChars : List Char → List (List Char)
  | [] => [[]]
  | c :: cs =>
    if c = Char.ofNat 10 then [] :: splitChars cs
    else
      match splitChars cs with
      | [] => [[c]]
      | piece :: rest => (c :: piece) :: rest

/-- JavaScript `s.split('\n')`. -/
def jsSplitNewline (s : String) : List String := (splitChars s.data).map String.mk

/-- Number of UTF-16 code units of a list of characters. -/
def utf16Length (l : List Char) : Nat :=
  (l.map (fun c => if c.toNat < 0x10000 then 1 else 2)).sum

/-- JavaScript `s.length`: the number of UTF-16 code units. -/
def jsLength (s : String) : Nat := utf16Length s.data

/-- Characters of `s.replace('0x', '')`: the first occurrence of `0x` removed. -/
def removeFirst0x : List Char → List Char
  | [] => []
  | c :: cs =>
    match cs with
    | [] => [c]
    | c2 :: rest =>
      if c = Char.ofNat 48 ∧ c2 = Char.ofNat 120 then rest else c :: removeFirst0x cs

/-- JavaScript `s.toLowerCase()` on the ASCII range; characters outside ASCII
are left as they are (addresses and call data are ASCII). -/
def jsToLowerCase (l : List Char) : List Char := l.map Char.toLower

/-- JavaScript `s.padStart(64, '0')` on the characters of `s`. -/
def padStart64 (l : List Char) : List Char :=
  List.replicate (64 - utf16Length l) (Char.ofNat 48) ++ l

/-- JavaScript truthiness of a string result that may be missing: a missing
result and the empty string are falsy. -/
def isTruthy (result : Option String) : Bool :=
  match result with
  | some r => r != ""
  | none => false

/-- Value of one hexadecimal digit, `none` for any other character. -/
def hexDigitValue (c : Char) : Option Nat :=
  let n := c.toNat
  if 48 ≤ n ∧ n ≤ 57 then some (n - 48)
  else if 97 ≤ n ∧ n ≤ 102 then some (n - 87)
  else if 65 ≤ n ∧ n ≤ 70 then some (n - 55)
  else none

/-- Value of one digit in the given radix (2, 8, 10 or 16). -/
def digitValue (radix : Nat) (c : Char) : Option Nat :=
  match hexDigitValue c with
  | some v => if v < radix then some v else none
  | none => none

/-- Value of a run of digits, most significant first, starting from `acc`;
`none` when a character is not a digit of the radix. -/
def digitsValue (radix : Nat) : List Char → Nat → Option Nat
  | [], acc => some acc
  | c :: cs, acc =>
    match digitValue radix c with
    | some v => digitsValue radix cs (radix * acc + v)
    | none => none

/-- A non-empty run of digits of the radix, read as a number. -/
def numeral (radix : Nat) (l : List Char) : Option Nat :=
  match l with
  | [] => none
  | _ :: _ => digitsValue radix l 0

/-- JavaScript `BigInt(s)` for a string (`StringToBigInt`): surrounding white
space is ignored, the empty string is `0n`, `0x`, `0o` and `0b` introduce a
hexadecimal, octal or binary numeral, anything else is a decimal numeral with
an optional sign; `none` when `BigInt` raises a `SyntaxError`. -/
def jsBigInt (s : String) : Option Int :=
  match trimChars s.data with
  | [] => some 0
  | c :: cs =>
    let isZero : Bool := c = Char.ofNat 48
    match cs with
    | [] => (numeral 10 [c]).map Int.ofNat
    | c2 :: rest =>
      if isZero ∧ (c2 = Char.ofNat 120 ∨ c2 = Char.ofNat 88) then (numeral 16 rest).map Int.ofNat
      else if isZero ∧ (c2 = Char.ofNat 111 ∨ c2 = Char.ofNat 79) then (numeral 8 rest).map Int.ofNat
      else if isZero ∧ (c2 = Char.ofNat 98 ∨ c2 = Char.ofNat 66) then (numeral 2 rest).map Int.ofNat
      else if c = Char.ofNat 45 then (numeral 10 cs).map (fun v => - Int.ofNat v)
      else if c = Char.ofNat 43 then (numeral 10 cs).map Int.ofNat
      else (numeral 10 (c :: cs)).map Int.ofNat

/-! ## JavaScript numbers

A finite non-negative double is kept as a pair `mant * 2 ^ exp`.  Rounding is
round-to-nearest, ties-to-even, on 53 bits.  The exponent is not bounded: the
model has neither subnormal numbers nor overflow to `Infinity` (no amount of
wei or gas that the scripts handle comes near `2 ^ ±1022`). -/

/-- A finite, non-negative double `mant * 2 ^ exp`. -/
structure Dbl where
  mant : Nat
  exp : Int
deriving DecidableEq, Repr

/-- Number of binary digits of `n`, with fuel. -/
def bitLenAux : Nat → Nat → Nat
  | 0, _ => 0
  | fuel + 1, n => if n = 0 then 0 else bitLenAux fuel (n / 2) + 1

/-- Number of binary digits of `n` (`0` for `0`). -/
def bitLen (n : Nat) : Nat := bitLenAux n n

/-- Numerator of `(n / d) / 2 ^ s` as a fraction of naturals. -/
def scaleNum (n : Nat) (s : Int) : Nat := n * 2 ^ (-s).toNat

/-- Denominator of `(n / d) / 2 ^ s` as a fraction of naturals. -/
def scaleDen (d : Nat) (s : Int) : Nat := d * 2 ^ s.toNat

/-- The binade of `n / d` (for `n, d > 0`): the `e` with `2 ^ e ≤ n / d < 2 ^ (e + 1)`. -/
def binade (n d : Nat) : Int :=
  let e : Int := (bitLen n : Int) - (bitLen d : Int)
  if scaleDen d e ≤ scaleNum n e then e else e - 1

/-- Nearest integer to `num / den`, ties to the even one. -/
def roundHalfEven (num den : Nat) : Nat :=
  let q := num / den
  let r := num % den
  if 2 * r < den then q
  else if den < 2 * r then q + 1
  else if q % 2 = 0 then q else q + 1

/-- The double nearest to the rational `n / d` (`d > 0`). -/
def roundRat (n d : Nat) : Dbl :=
  if n = 0 then ⟨0, 0⟩
  else
    let s : Int := binade n d - 52
    let m := roundHalfEven (scaleNum n s) (scaleDen d s)
    if m = 2 ^ 53 then ⟨2 ^ 52, s + 1⟩ else ⟨m, s⟩

namespace Dbl

/-- The double `0`. -/
def zero : Dbl := ⟨0, 0⟩

/-- JavaScript `a < b` on finite non-negative doubles. -/
def lt (a b : Dbl) : Bool :=
  let e := min a.exp b.exp
  decide (a.mant * 2 ^ (a.exp - e).toNat < b.mant * 2 ^ (b.exp - e).toNat)

/-- The double nearest to the dyadic number `m * 2 ^ e`. -/
def roundDyadic (m : Nat) (e : Int) : Dbl := roundRat (m * 2 ^ e.toNat) (2 ^ (-e).toNat)

/-- JavaScript `a + b`. -/
def add (a b : Dbl) : Dbl :=
  let e := min a.exp b.exp
  roundDyadic (a.mant * 2 ^ (a.exp - e).toNat + b.mant * 2 ^ (b.exp - e).toNat) e

/-- JavaScript `a * b`. -/
def mul (a b : Dbl) : Dbl := roundDyadic (a.mant * b.mant) (a.exp + b.exp)

/-- JavaScript `Math.ceil(a)`, as the integer it denotes. -/
def ceil (a : Dbl) : Nat :=
  if 0 ≤ a.exp then a.mant * 2 ^ a.exp.toNat
  else (a.mant + 2 ^ (-a.exp).toNat - 1) / 2 ^ (-a.exp).toNat

/-- JavaScript `Number(n)` for a non-negative integer `n`. -/
def ofNat (n : Nat) : Dbl := roundRat n 1

/-- The rational number that a double denotes. -/
def toRat (x : Dbl) : ℚ := (x.mant : ℚ) * (2 : ℚ) ^ x.exp

end Dbl

/-- The number literal `0.001`. -/
def lit_0_001 : Dbl := roundRat 1 1000

/-- The number literal `1.05`. -/
def lit_1_05 : Dbl := roundRat 105 100

/-- `parseFloat(web3.utils.fromWei(wei, 'ether'))`: `fromWei` writes the exact
decimal expansion of `wei / 10 ^ 18` and `parseFloat` reads it back as the
nearest double. -/
def parseFloatEther (wei : Nat) : Dbl := roundRat wei (10 ^ 18)

/-- A JavaScript number: `NaN`, an infinity, or a signed finite double. -/
inductive JsNumber where
  | nan
  | inf (negative : Bool)
  | finite (negative : Bool) (abs : Dbl)
deriving DecidableEq, Repr

namespace JsNumber

/-- The number `0`. -/
def zero : JsNumber := .finite false Dbl.zero

/-- The number denoted by a non-negative integer literal. -/
def ofNat (n : Nat) : JsNumber := .finite false (Dbl.ofNat n)

/-- JavaScript `x > 0`. -/
def gtZero : JsNumber → Bool
  | .nan => false
  | .inf negative => !negative
  | .finite negative abs => !negative && Dbl.lt Dbl.zero abs

/-- JavaScript `x + y`. -/
def add : JsNumber → JsNumber → JsNumber
  | .nan, _ => .nan
  | _, .nan => .nan
  | .inf n1, .inf n2 => if n1 = n2 then .inf n1 else .nan
  | .inf n1, .finite _ _ => .inf n1
  | .finite _ _, .inf n2 => .inf n2
  | .finite n1 a, .finite n2 b =>
    if n1 = n2 then .finite n1 (Dbl.add a b)
    else
      let e := min a.exp b.exp
      let x := a.mant * 2 ^ (a.exp - e).toNat
      let y := b.mant * 2 ^ (b.exp - e).toNat
      if y ≤ x then .finite (n1 && decide (y < x)) (Dbl.roundDyadic (x - y) e)
      else .finite n2 (Dbl.roundDyadic (y - x) e)

end JsNumber

/-- JavaScript `parseInt(s, 16)`: leading white space is skipped, then an
optional sign, then an optional `0x` or `0X`, then the longest run of
hexadecimal digits is read; `NaN` when that run is empty. -/
def jsParseInt16 (s : String) : JsNumber :=
  let l := s.data.dropWhile isJsWhiteSpace
  let negative : Bool := l.head? = some (Char.ofNat 45)
  let l1 := if l.head? = some (Char.ofNat 45) ∨ l.head? = some (Char.ofNat 43) then l.tail else l
  let l2 :=
    match l1 with
    | c :: c2 :: rest =>
      if c = Char.ofNat 48 ∧ (c2 = Char.ofNat 120 ∨ c2 = Char.ofNat 88) then rest else l1
    | _ => l1
  let digits := l2.takeWhile (fun c => (hexDigitValue c).isSome)
  match numeral 16 digits with
  | some v => .finite negative (Dbl.ofNat v)
  | none => .nan

/-! ## The environment and the effects -/

/-- A transaction record as the scripts build it before signing. -/
structure Transaction where
  fromAddress : String
  toAddress : String
  value : Int
  gas : Nat
  gasPrice : Nat
  nonce : Nat
  data : Option String
deriving DecidableEq, Repr

/-- The fields of a transaction receipt that the scripts read. -/
structure Receipt where
  transactionHash : String
  gasUsed : Nat
  blockNumber : Nat
deriving DecidableEq, Repr

/-- Everything outside the scripts.  A request that raises (or, for the
block-height probe, does not answer within the 5 second timeout) is `none`.
Requests sent through a connection take the endpoint URL of that connection as
their first argument. -/
structure World where
  /-- The request `eth.getBlockNumber()` raced against the 5 s timeout. -/
  getBlockNumber : String → Option Nat
  /-- The request `eth.getChainId()`. -/
  getChainId : String → Option Nat
  /-- The request `eth.getGasPrice()`, in wei. -/
  getGasPrice : String → Option Nat
  /-- The request `eth.getBalance(address)`, in wei. -/
  getBalance : String → String → Option Nat
  /-- The request `eth.getTransactionCount(address, 'pending')`. -/
  getTransactionCount : String → String → Option Nat
  /-- The request `eth.getTransactionCount(address)`, at the default block. -/
  getTransactionCountLatest : String → String → Option Nat
  /-- The request `eth.estimateGas` with fields from, to, value, data. -/
  estimateGas : String → String → String → Int → Option String → Option Nat
  /-- The request `eth.call` with fields to, data; the inner `none` is a missing result. -/
  call : String → String → String → Option (Option String)
  /-- The library call `eth.accounts.signTransaction(tx, key)`: the raw transaction. -/
  signTransaction : Transaction → String → Option String
  /-- The request `eth.sendSignedTransaction(raw)`, awaited until the receipt. -/
  sendSignedTransaction : String → String → Option Receipt
  /-- The library call `eth.accounts.privateKeyToAccount(key).address`. -/
  privateKeyToAccount : String → Option String
  /-- The library call `utils.isAddress`. -/
  isAddress : String → Bool
  /-- The library call `utils.hexToAscii`. -/
  hexToAscii : String → Option String
  /-- The call `fs.readFileSync(path, 'utf8')`. -/
  readFileSync : String → Option String
  /-- The expression `parseFloat(x.toString()) / Math.pow(10, decimals)` of the
  JavaScript engine (`Math.pow` is implementation-approximated). -/
  divPow10 : Int → JsNumber → JsNumber

/-- What a script does to the outside, in the order it does it.  The two
`enter...` constructors are not requests: they mark the entry into
`transferETH` and `interactWithContract` with the arguments of the call. -/
inductive Effect where
  | getBlockNumber (endpoint : String)
  | getChainId (endpoint : String)
  | getGasPrice (web3 : String)
  | getBalance (web3 address : String)
  | getTransactionCount (web3 address : String)
  | getTransactionCountLatest (web3 address : String)
  | estimateGas (web3 fromAddress toAddress : String) (value : Int) (data : Option String)
  | call (web3 toAddress data : String)
  | signTransaction (tx : Transaction) (privateKey : String)
  | sendSignedTransaction (web3 raw : String)
  | privateKeyToAccount (privateKey : String)
  | readFileSync (path : String)
  | setTimeout (ms : Nat)
  | enterTransferETH (privateKey fromAddress toAddress : String) (amount : Int)
  | enterInteractWithContract (privateKey fromAddress : String)
deriving DecidableEq, Repr

/-- A finished computation: its result and the effects it performed. -/
structure Run (α : Type) where
  value : α
  effects : List Effect

namespace Run

/-- A computation without effects. -/
def ret {α : Type} (a : α) : Run α := ⟨a, []⟩

/-- Sequencing: the effects of the first computation, then those of the second. -/
def andThen {α β : Type} (x : Run α) (f : α → Run β) : Run β :=
  ⟨(f x.value).value, x.effects ++ (f x.value).effects⟩

/-- One effect. -/
def emit (e : Effect) : Run Unit := ⟨(), [e]⟩

instance : Monad Run where
  pure := ret
  bind := andThen

end Run

/-- The value `web3.utils.toWei('20', 'gwei')`. -/
def toWei20Gwei : Nat := 20000000000

/-! ## get-eth-balance.js -/

namespace GetEthBalance

/-- The constant `rpcEndpoints`. -/
def rpcEndpoints : List String :=
  ["https://ethereum.blockpi.network/v1/rpc/public",
   "https://eth-mainnet.g.alchemy.com/v2/demo",
   "https://rpc.ankr.com/eth"]

/-- The constant `TARGET_ADDRESS`. -/
def TARGET_ADDRESS : String := "0x220511f4fd6d898125f79aa8d4cb91bffe9df6db"

/-- `initializeWeb3` over the endpoint list: `some endpoint` when it returns
`true` after setting the global `web3` to that connection, `none` when it
returns `false`. -/
def initializeWeb3 (w : World) : List String → Run (Option String)
  | [] => pure none
  | endpoint :: rest => do
    Run.emit (.getBlockNumber endpoint)
    match w.getBlockNumber endpoint with
    | some _ => pure (some endpoint)
    | none => initializeWeb3 w rest

/-- `getCurrentGasPrice`. -/
def getCurrentGasPrice (w : World) (web3 : String) : Run Nat := do
  Run.emit (.getGasPrice web3)
  match w.getGasPrice web3 with
  | some gasPrice => pure gasPrice
  | none => pure toWei20Gwei

/-- Result of `estimateTransferGas`. -/
structure GasEstimate where
  gasLimit : Nat
  totalGasCost : Nat
deriving DecidableEq, Repr

/-- `estimateTransferGas`; the global `currentGasPrice` is passed explicitly. -/
def estimateTransferGas (w : World) (web3 : String) (currentGasPrice : Nat)
    (fromAddress toAddress : String) (amount : Int) : Run GasEstimate := do
  Run.emit (.estimateGas web3 fromAddress toAddress amount none)
  match w.estimateGas web3 fromAddress toAddress amount none with
  | some gasLimit =>
    let totalGasCost := gasLimit * currentGasPrice
    pure ⟨gasLimit, totalGasCost⟩
  | none =>
    let gasLimit := 21000
    let totalGasCost := gasLimit * currentGasPrice
    pure ⟨gasLimit, totalGasCost⟩

/-- `getAddressFromPrivateKey`: `none` is `null`. -/
def getAddressFromPrivateKey (w : World) (privateKey : String) : Run (Option String) := do
  Run.emit (.privateKeyToAccount privateKey)
  match w.privateKeyToAccount privateKey with
  | some address => pure (some address)
  | none => pure none

/-- Result of `getETHBalance`: `balanceEth` is the decimal string that
`fromWei` writes for `balanceEthWei` wei (`'0'` in the failure case). -/
structure Balance where
  balanceWei : Nat
  balanceEthWei : Nat
deriving DecidableEq, Repr

/-- `getETHBalance`. -/
def getETHBalance (w : World) (web3 address : String) : Run Balance := do
  Run.emit (.getBalance web3 address)
  match w.getBalance web3 address with
  | some balanceWei => pure ⟨balanceWei, balanceWei⟩
  | none => pure ⟨0, 0⟩

/-- `transferETH`: `none` is `null`. -/
def transferETH (w : World) (web3 : String) (currentGasPrice : Nat)
    (privateKey fromAddress toAddress : String) (amount : Int) : Run (Option Receipt) := do
  Run.emit (.enterTransferETH privateKey fromAddress toAddress amount)
  Run.emit (.getTransactionCount web3 fromAddress)
  match w.getTransactionCount web3 fromAddress with
  | none => pure none
  | some nonce =>
    let est ← estimateTransferGas w web3 currentGasPrice fromAddress toAddress amount
    let transaction : Transaction :=
      ⟨fromAddress, toAddress, amount, est.gasLimit, currentGasPrice, nonce, none⟩
    Run.emit (.signTransaction transaction privateKey)
    match w.signTransaction transaction privateKey with
    | none => pure none
    | some rawTransaction =>
      Run.emit (.sendSignedTransaction web3 rawTransaction)
      match w.sendSignedTransaction web3 rawTransaction with
      | none => pure none
      | some receipt => pure (some receipt)

/-- `readPrivateKeys`. -/
def readPrivateKeys (w : World) (filePath : String) : Run (List String) := do
  Run.emit (.readFileSync filePath)
  match w.readFileSync filePath with
  | some content =>
    let lines := (jsSplitNewline content).filter (fun line => jsTrim line != "")
    let privateKeys := lines.map (fun line => jsTrim line)
    pure privateKeys
  | none => pure []

/-- The counters that `main` prints in its summary. -/
structure Summary where
  totalBalance : Dbl
  validAddresses : Nat
  successfulTransfers : Nat
  totalTransferred : Dbl
deriving DecidableEq, Repr

/-- The part of one loop iteration of `main` that follows a positive balance. -/
def sweep (w : World) (web3 : String) (currentGasPrice : Nat) (s : Summary)
    (privateKey address : String) (bal : Balance) : Run Summary := do
  let balanceNum := parseFloatEther bal.balanceEthWei
  let s1 : Summary := { s with totalBalance := Dbl.add s.totalBalance balanceNum }
  let est ← estimateTransferGas w web3 currentGasPrice address TARGET_ADDRESS 0
  let gasCostEth := parseFloatEther est.totalGasCost
  if Dbl.lt gasCostEth balanceNum then
    let transferAmount : Int := (bal.balanceWei : Int) - (est.totalGasCost : Int)
    if 0 < transferAmount then do
      let receipt ← transferETH w web3 currentGasPrice privateKey address TARGET_ADDRESS
        transferAmount
      match receipt with
      | some _ =>
        pure { s1 with
          successfulTransfers := s1.successfulTransfers + 1
          totalTransferred :=
            Dbl.add s1.totalTransferred (parseFloatEther transferAmount.toNat) }
      | none => pure s1
    else pure s1
  else pure s1

/-- One iteration of the loop of `main`. -/
def processKey (w : World) (web3 : String) (currentGasPrice : Nat) (s : Summary)
    (privateKey : String) : Run Summary := do
  let address ← getAddressFromPrivateKey w privateKey
  match address with
  | none => pure s
  | some address =>
    if address = "" then pure s
    else do
      let bal ← getETHBalance w web3 address
      let balanceNum := parseFloatEther bal.balanceEthWei
      let s1 ←
        if Dbl.lt Dbl.zero balanceNum then sweep w web3 currentGasPrice s privateKey address bal
        else pure s
      let s2 : Summary := { s1 with validAddresses := s1.validAddresses + 1 }
      Run.emit (.setTimeout 500)
      pure s2

/-- The loop of `main` over the private keys. -/
def processKeys (w : World) (web3 : String) (currentGasPrice : Nat) :
    Summary → List String → Run Summary
  | s, [] => pure s
  | s, privateKey :: rest => do
    let s1 ← processKey w web3 currentGasPrice s privateKey
    processKeys w web3 currentGasPrice s1 rest

/-- `main` with the endpoint list as a parameter; `none` when it returns before
the loop. -/
def main (w : World) (endpoints : List String) : Run (Option Summary) := do
  let connected ← initializeWeb3 w endpoints
  match connected with
  | none => pure none
  | some web3 =>
    let currentGasPrice ← getCurrentGasPrice w web3
    let privateKeys ← readPrivateKeys w "evm_private.txt"
    if privateKeys.length = 0 then pure none
    else do
      let s ← processKeys w web3 currentGasPrice ⟨Dbl.zero, 0, 0, Dbl.zero⟩ privateKeys
      pure (some s)

end GetEthBalance

/-! ## zama-fauct.js -/

namespace ZamaFauct

/-- The constant `sepoliaRpcEndpoints`. -/
def sepoliaRpcEndpoints : List String :=
  ["https://eth-sepolia.g.alchemy.com/v2/demo",
   "https://rpc.sepolia.org",
   "https://ethereum-sepolia.blockpi.network/v1/rpc/public"]

/-- The constant `CONTRACT_ADDRESS`. -/
def CONTRACT_ADDRESS : String := "0x3edf60dd017ace33a0220f78741b5581c385a1ba"

/-- The constant `FUNCTION_SELECTOR`. -/
def FUNCTION_SELECTOR : String := "0x6a627842"

/-- `generateFunctionData`: `none` when it raises on an address that
`isAddress` rejects. -/
def generateFunctionData (w : World) (address : String) : Option String :=
  if !w.isAddress address then none
  else
    let cleanAddress := jsToLowerCase (removeFirst0x address.data)
    let paddedAddress := String.mk ("000000000000000000000000".data ++ cleanAddress)
    let functionData := FUNCTION_SELECTOR ++ paddedAddress
    some functionData

/-- `initializeWeb3` over the endpoint list: `some endpoint` when it returns
`true` with that connection, `none` when it returns `false`.  The test
`Number(chainId) !== 11155111` is the test on the integer: an integer other
than 11155111 never converts to the double 11155111. -/
def initializeWeb3 (w : World) : List String → Run (Option String)
  | [] => pure none
  | endpoint :: rest => do
    Run.emit (.getBlockNumber endpoint)
    match w.getBlockNumber endpoint with
    | none => initializeWeb3 w rest
    | some _ =>
      Run.emit (.getChainId endpoint)
      match w.getChainId endpoint with
      | none => initializeWeb3 w rest
      | some chainId =>
        if chainId ≠ 11155111 then initializeWeb3 w rest
        else pure (some endpoint)

/-- `getAddressFromPrivateKey`: `none` is `null`. -/
def getAddressFromPrivateKey (w : World) (privateKey : String) : Run (Option String) := do
  Run.emit (.privateKeyToAccount privateKey)
  match w.privateKeyToAccount privateKey with
  | some address => pure (some address)
  | none => pure none

/-- Result of `getETHBalance`. -/
structure Balance where
  balanceWei : Nat
  balanceEth : Dbl
deriving DecidableEq, Repr

/-- `getETHBalance`. -/
def getETHBalance (w : World) (web3 address : String) : Run Balance := do
  Run.emit (.getBalance web3 address)
  match w.getBalance web3 address with
  | some balanceWei => pure ⟨balanceWei, parseFloatEther balanceWei⟩
  | none => pure ⟨0, Dbl.zero⟩

/-- `getCurrentGasPrice`. -/
def getCurrentGasPrice (w : World) (web3 : String) : Run Nat := do
  Run.emit (.getGasPrice web3)
  match w.getGasPrice web3 with
  | some gasPrice => pure gasPrice
  | none => pure toWei20Gwei

/-- `estimateContractGas`: the gas limit, an integer. -/
def estimateContractGas (w : World) (web3 fromAddress : String) : Run Nat :=
  match generateFunctionData w fromAddress with
  | none => pure 100000
  | some functionData => do
    Run.emit (.estimateGas web3 fromAddress CONTRACT_ADDRESS 0 (some functionData))
    match w.estimateGas web3 fromAddress CONTRACT_ADDRESS 0 (some functionData) with
    | some estimatedGas =>
      let gasLimit := Dbl.ceil (Dbl.mul (Dbl.ofNat estimatedGas) lit_1_05)
      pure gasLimit
    | none =>
      let defaultGasLimit := 100000
      pure defaultGasLimit

/-- `interactWithContract`: `none` is `null`. -/
def interactWithContract (w : World) (web3 privateKey fromAddress : String) :
    Run (Option Receipt) := do
  Run.emit (.enterInteractWithContract privateKey fromAddress)
  match generateFunctionData w fromAddress with
  | none => pure none
  | some functionData =>
    Run.emit (.getTransactionCount web3 fromAddress)
    match w.getTransactionCount web3 fromAddress with
    | none => pure none
    | some nonce =>
      let gasPrice ← getCurrentGasPrice w web3
      let gasLimit ← estimateContractGas w web3 fromAddress
      let estimatedFee := gasLimit * gasPrice
      let estimatedFeeEth := parseFloatEther estimatedFee
      let bal ← getETHBalance w web3 fromAddress
      if Dbl.lt bal.balanceEth estimatedFeeEth then pure none
      else do
        let transaction : Transaction :=
          ⟨fromAddress, CONTRACT_ADDRESS, 0, gasLimit, gasPrice, nonce, some functionData⟩
        Run.emit (.signTransaction transaction privateKey)
        match w.signTransaction transaction privateKey with
        | none => pure none
        | some rawTransaction =>
          Run.emit (.sendSignedTransaction web3 rawTransaction)
          match w.sendSignedTransaction web3 rawTransaction with
          | none => pure none
          | some receipt => pure (some receipt)

/-- `readPrivateKeys`. -/
def readPrivateKeys (w : World) (filePath : String) : Run (List String) := do
  Run.emit (.readFileSync filePath)
  match w.readFileSync filePath with
  | some content =>
    let lines := (jsSplitNewline content).filter (fun line => jsTrim line != "")
    let privateKeys := lines.map (fun line => jsTrim line)
    pure privateKeys
  | none => pure []

/-- The counters that `main` prints in its summary. -/
structure Summary where
  successfulInteractions : Nat
  totalGasUsed : Dbl
  totalFeeSpent : Dbl
deriving DecidableEq, Repr

/-- Iteration `i` of the loop of `main` over `total` private keys. -/
def processKey (w : World) (web3 : String) (total i : Nat) (s : Summary)
    (privateKey : String) : Run Summary := do
  let address ← getAddressFromPrivateKey w privateKey
  match address with
  | none => pure s
  | some address =>
    if address = "" then pure s
    else do
      let bal ← getETHBalance w web3 address
      if Dbl.lt bal.balanceEth lit_0_001 then pure s
      else if jsLength address ≠ 42 then pure s
      else do
        let receipt ← interactWithContract w web3 privateKey address
        let s1 ←
          match receipt with
          | some receipt => do
            let gasPrice ← getCurrentGasPrice w web3
            let actualFee := receipt.gasUsed * gasPrice
            let actualFeeEth := parseFloatEther actualFee
            pure (⟨s.successfulInteractions + 1,
              Dbl.add s.totalGasUsed (Dbl.ofNat receipt.gasUsed),
              Dbl.add s.totalFeeSpent actualFeeEth⟩ : Summary)
          | none => pure s
        if i < total - 1 then do
          Run.emit (.setTimeout 2000)
          pure s1
        else pure s1

/-- The loop of `main`, from iteration `i` on. -/
def processKeys (w : World) (web3 : String) (total : Nat) :
    Nat → Summary → List String → Run Summary
  | _, s, [] => pure s
  | i, s, privateKey :: rest => do
    let s1 ← processKey w web3 total i s privateKey
    processKeys w web3 total (i + 1) s1 rest

/-- `main` with the endpoint list as a parameter; `none` when it returns before
the loop. -/
def main (w : World) (endpoints : List String) : Run (Option Summary) := do
  let connected ← initializeWeb3 w endpoints
  match connected with
  | none => pure none
  | some web3 =>
    let privateKeys ← readPrivateKeys w "evm_private.txt"
    if privateKeys.length = 0 then pure none
    else do
      let s ← processKeys w web3 privateKeys.length 0 ⟨0, Dbl.zero, Dbl.zero⟩ privateKeys
      pure (some s)

end ZamaFauct

/-! ## zama-usdc-token-balance.js -/

namespace ZamaUsdcTokenBalance

/-- The constant `sepoliaRpcEndpoints`. -/
def sepoliaRpcEndpoints : List String :=
  ["https://sepolia.infura.io/v3/0baf7b768440432a9ec455077c65384a",
   "https://eth-sepolia.g.alchemy.com/v2/demo",
   "https://rpc.sepolia.org",
   "https://ethereum-sepolia.blockpi.network/v1/rpc/public"]

/-- The constant `TOKEN_CONTRACT`. -/
def TOKEN_CONTRACT : String := "0x3edf60dd017ace33a0220f78741b5581c385a1ba"

/-- `initializeWeb3` over the endpoint list, as in `zama-fauct.js`. -/
def initializeWeb3 (w : World) : List String → Run (Option String)
  | [] => pure none
  | endpoint :: rest => do
    Run.emit (.getBlockNumber endpoint)
    match w.getBlockNumber endpoint with
    | none => initializeWeb3 w rest
    | some _ =>
      Run.emit (.getChainId endpoint)
      match w.getChainId endpoint with
      | none => initializeWeb3 w rest
      | some chainId =>
        if chainId ≠ 11155111 then initializeWeb3 w rest
        else pure (some endpoint)

/-- `getAddressFromPrivateKey`: `none` is `null`. -/
def getAddressFromPrivateKey (w : World) (privateKey : String) : Run (Option String) := do
  Run.emit (.privateKeyToAccount privateKey)
  match w.privateKeyToAccount privateKey with
  | some address => pure (some address)
  | none => pure none

/-- `getETHBalance`: the balance in ether, as a double. -/
def getETHBalance (w : World) (web3 address : String) : Run Dbl := do
  Run.emit (.getBalance web3 address)
  match w.getBalance web3 address with
  | some balanceWei => pure (parseFloatEther balanceWei)
  | none => pure Dbl.zero

/-- Result of `getTokenInfo`. -/
structure TokenInfo where
  name : String
  symbol : String
  decimals : JsNumber
deriving DecidableEq, Repr

/-- The expression `web3.utils.hexToAscii(result).replace(/\0/g, '')`, `none`
when `hexToAscii` raises. -/
def asciiWithoutNul (w : World) (result : String) : Option String :=
  match w.hexToAscii result with
  | some text => some (String.mk (text.data.filter (fun c => c != Char.ofNat 0)))
  | none => none

/-- `getTokenInfo`. -/
def getTokenInfo (w : World) (web3 contractAddress : String) : Run TokenInfo := do
  let nameData := "0x06fdde03"
  Run.emit (.call web3 contractAddress nameData)
  match w.call web3 contractAddress nameData with
  | none => pure ⟨"Unknown Token", "UNK", JsNumber.ofNat 18⟩
  | some nameResult =>
    let symbolData := "0x95d89b41"
    Run.emit (.call web3 contractAddress symbolData)
    match w.call web3 contractAddress symbolData with
    | none => pure ⟨"Unknown Token", "UNK", JsNumber.ofNat 18⟩
    | some symbolResult =>
      let decimalsData := "0x313ce567"
      Run.emit (.call web3 contractAddress decimalsData)
      match w.call web3 contractAddress decimalsData with
      | none => pure ⟨"Unknown Token", "UNK", JsNumber.ofNat 18⟩
      | some decimalsResult =>
        let name :=
          if isTruthy nameResult ∧ nameResult ≠ some "0x" then
            ((nameResult.bind (asciiWithoutNul w)).getD "Unknown")
          else "Unknown"
        let symbol :=
          if isTruthy symbolResult ∧ symbolResult ≠ some "0x" then
            ((symbolResult.bind (asciiWithoutNul w)).getD "UNK")
          else "UNK"
        let decimals :=
          if isTruthy decimalsResult ∧ decimalsResult ≠ some "0x" then
            jsParseInt16 (decimalsResult.getD "")
          else JsNumber.ofNat 18
        pure ⟨name, symbol, decimals⟩

/-- Result of `getTokenBalance`. -/
structure TokenBalance where
  raw : String
  formatted : JsNumber
deriving DecidableEq, Repr

/-- The call data that `getTokenBalance` builds: `functionSelector + addressParam`. -/
def balanceOfCallData (holderAddress : String) : String :=
  let functionSelector := "0x70a08231"
  let addressParam := String.mk (padStart64 (jsToLowerCase (removeFirst0x holderAddress.data)))
  functionSelector ++ addressParam

/-- `getTokenBalance`. -/
def getTokenBalance (w : World) (web3 contractAddress holderAddress : String)
    (decimals : JsNumber) : Run TokenBalance := do
  let callData := balanceOfCallData holderAddress
  Run.emit (.call web3 contractAddress callData)
  match w.call web3 contractAddress callData with
  | none => pure ⟨"0", JsNumber.zero⟩
  | some result =>
    if isTruthy result ∧ result ≠ some "0x" then
      match jsBigInt (result.getD "") with
      | some balanceWei => pure ⟨toString balanceWei, w.divPow10 balanceWei decimals⟩
      | none => pure ⟨"0", JsNumber.zero⟩
    else pure ⟨"0", JsNumber.zero⟩

/-- `readPrivateKeys`. -/
def readPrivateKeys (w : World) (filePath : String) : Run (List String) := do
  Run.emit (.readFileSync filePath)
  match w.readFileSync filePath with
  | some content =>
    let lines := (jsSplitNewline content).filter (fun line => jsTrim line != "")
    pure (lines.map (fun line => jsTrim line))
  | none => pure []

/-- The accumulators that `main` prints in its summary. -/
structure Summary where
  totalTokenBalance : JsNumber
  totalETHBalance : Dbl
  addressesWithTokens : Nat
  addressesWithoutTokens : List String
  privateKeysWithoutTokens : List String
deriving DecidableEq, Repr

/-- Iteration `i` of the loop of `main` over `total` private keys. -/
def processKey (w : World) (web3 : String) (tokenInfo : TokenInfo) (total i : Nat)
    (s : Summary) (privateKey : String) : Run Summary := do
  let address ← getAddressFromPrivateKey w privateKey
  match address with
  | none => pure s
  | some address =>
    if address = "" then pure s
    else do
      let ethBalance ← getETHBalance w web3 address
      let s1 : Summary := { s with totalETHBalance := Dbl.add s.totalETHBalance ethBalance }
      let tokenBalance ← getTokenBalance w web3 TOKEN_CONTRACT address tokenInfo.decimals
      let s2 : Summary :=
        if tokenBalance.formatted.gtZero then
          { s1 with addressesWithTokens := s1.addressesWithTokens + 1 }
        else
          { s1 with
            addressesWithoutTokens := s1.addressesWithoutTokens ++ [address]
            privateKeysWithoutTokens := s1.privateKeysWithoutTokens ++ [privateKey] }
      let s3 : Summary :=
        { s2 with totalTokenBalance := JsNumber.add s2.totalTokenBalance tokenBalance.formatted }
      if i < total - 1 then do
        Run.emit (.setTimeout 500)
        pure s3
      else pure s3

/-- The loop of `main`, from iteration `i` on. -/
def processKeys (w : World) (web3 : String) (tokenInfo : TokenInfo) (total : Nat) :
    Nat → Summary → List String → Run Summary
  | _, s, [] => pure s
  | i, s, privateKey :: rest => do
    let s1 ← processKey w web3 tokenInfo total i s privateKey
    processKeys w web3 tokenInfo total (i + 1) s1 rest

/-- `main` with the endpoint list as a parameter; `none` when it returns before
the loop. -/
def main (w : World) (endpoints : List String) : Run (Option Summary) := do
  let connected ← initializeWeb3 w endpoints
  match connected with
  | none => pure none
  | some web3 =>
    let tokenInfo ← getTokenInfo w web3 TOKEN_CONTRACT
    let privateKeys ← readPrivateKeys w "evm_private.txt"
    if privateKeys.length = 0 then pure none
    else do
      let s ← processKeys w web3 tokenInfo privateKeys.length 0
        ⟨JsNumber.zero, Dbl.zero, 0, [], []⟩ privateKeys
      pure (some s)

end ZamaUsdcTokenBalance

/-! ## get-eth-info.js -/

namespace GetEthInfo

/-- The endpoint of the module-level connection `web3`. -/
def web3 : String := "https://mainnet.infura.io/v3/0baf7b768440432a9ec455077c65384a"

/-- `readAddressesFromFile`: the non-blank pieces are returned as they are
(`main` trims each one when it uses it). -/
def readAddressesFromFile (w : World) (filename : String) : Run (List String) := do
  Run.emit (.readFileSync filename)
  match w.readFileSync filename with
  | some data => pure ((jsSplitNewline data).filter (fun line => jsTrim line != ""))
  | none => pure []

/-- `getBalance`: the balance in ether, as a double. -/
def getBalance (w : World) (address : String) : Run Dbl := do
  Run.emit (.getBalance web3 address)
  match w.getBalance web3 address with
  | some balance => pure (parseFloatEther balance)
  | none => pure Dbl.zero

/-- `getTransactionCount`: the count as a double. -/
def getTransactionCount (w : World) (address : String) : Run Dbl := do
  Run.emit (.getTransactionCountLatest web3 address)
  match w.getTransactionCountLatest web3 address with
  | some txCount => pure (Dbl.ofNat txCount)
  | none => pure Dbl.zero

/-- Iteration `i` of the loop of `main` over `total` addresses.  The two
requests of `Promise.all` are sent in the order of the array, the balance
request first; neither call raises, so the `catch` of the loop body is dead. -/
def processAddress (w : World) (total i : Nat) (entry : String) : Run Unit := do
  let address := jsTrim entry
  if !w.isAddress address then pure ()
  else do
    let _balance ← getBalance w address
    let _txCount ← getTransactionCount w address
    if i < total - 1 then Run.emit (.setTimeout 100)
    else pure ()

/-- The loop of `main`, from iteration `i` on. -/
def processAddresses (w : World) (total : Nat) : Nat → List String → Run Unit
  | _, [] => pure ()
  | i, entry :: rest => do
    processAddress w total i entry
    processAddresses w total (i + 1) rest

/-- `main`. -/
def main (w : World) : Run Unit := do
  let addresses ← readAddressesFromFile w "EVM.txt"
  if addresses.length = 0 then pure ()
  else processAddresses w addresses.length 0 addresses

end GetEthInfo

/-! ## The loader as the specification words it -/

namespace Spec

/-- A line is blank when it is empty or holds white space only. -/
def isBlank (line : List Char) : Bool := line.all isJsWhiteSpace

/-- The string `t` is `line` trimmed of surrounding white space: `line` is `t`
between two runs of white space, and `t` neither starts nor ends with white
space. -/
def IsTrimOf (t line : List Char) : Prop :=
  (∃ pre post : List Char, line = pre ++ t ++ post ∧
      (∀ c ∈ pre, isJsWhiteSpace c = true) ∧ (∀ c ∈ post, isJsWhiteSpace c = true)) ∧
  (∀ c, t.head? = some c → isJsWhiteSpace c = false) ∧
  (∀ c, t.getLast? = some c → isJsWhiteSpace c = false)

/-- The list `lines` is the list of lines of `content`: joining the lines with
line feeds gives the content back, and no line holds a line feed. -/
def IsLinesOf (lines : List (List Char)) (content : List Char) : Prop :=
  List.intercalate [Char.ofNat 10] lines = content ∧ ∀ l ∈ lines, Char.ofNat 10 ∉ l

/-- The loader in the words of the specification: split on line boundaries,
discard the empty and white-space-only lines, trim each remaining line. -/
def loadCredentials (content : String) : List String :=
  ((splitChars content.data).filter (fun l => !isBlank l)).map (fun l => String.mk (trimChars l))

/-- The unsigned integer that a run of hexadecimal digits denotes, most
significant digit first. -/
def hexWordValue (ds : List Char) : Nat :=
  Nat.ofDigits 16 ((ds.map (fun c => (hexDigitValue c).getD 0)).reverse)

/-- The balance in wei that the sweep script reads for an address. -/
def sweepBalance (w : World) (web3 address : String) : Nat :=
  (GetEthBalance.getETHBalance w web3 address).value.balanceWei

/-- The gas cost in wei that the sweep script estimates for an address: the
`totalGasCost` of the estimate requested with value `'0'`. -/
def sweepGasCost (w : World) (web3 : String) (currentGasPrice : Nat) (address : String) : Nat :=
  (GetEthBalance.estimateTransferGas w web3 currentGasPrice address
    GetEthBalance.TARGET_ADDRESS 0).value.totalGasCost

/-- What the sweep script guarantees of an effect: a call of `transferETH` and
a signed transaction go to the target address and carry exactly the balance
minus the estimated gas cost, which is positive; a submitted raw transaction is
the signature of such a transaction. -/
def SweepEffectOk (w : World) (web3 : String) (currentGasPrice : Nat) : Effect → Prop
  | .enterTransferETH _ fromAddress toAddress amount =>
    toAddress = GetEthBalance.TARGET_ADDRESS ∧
    amount = (sweepBalance w web3 fromAddress : Int)
      - (sweepGasCost w web3 currentGasPrice fromAddress : Int) ∧
    0 < amount
  | .signTransaction tx _ =>
    tx.toAddress = GetEthBalance.TARGET_ADDRESS ∧
    tx.value = (sweepBalance w web3 tx.fromAddress : Int)
      - (sweepGasCost w web3 currentGasPrice tx.fromAddress : Int) ∧
    0 < tx.value
  | .sendSignedTransaction _ raw =>
    ∃ tx privateKey, w.signTransaction tx privateKey = some raw ∧
      tx.toAddress = GetEthBalance.TARGET_ADDRESS ∧
      tx.value = (sweepBalance w web3 tx.fromAddress : Int)
        - (sweepGasCost w web3 currentGasPrice tx.fromAddress : Int) ∧
      0 < tx.value
  | _ => True

/-- What the faucet script guarantees of an effect: `interactWithContract` is
entered only for an address whose balance request answered at least
`10 ^ 15` wei (0.001 ETH). -/
def FaucetEffectOk (w : World) (web3 : String) : Effect → Prop
  | .enterInteractWithContract _ fromAddress =>
    ∃ b, w.getBalance web3 fromAddress = some b ∧ 1000000000000000 ≤ b
  | _ => True

end Spec

/-- The entry into `transferETH`. -/
def Effect.isEnterTransferETH : Effect → Bool
  | .enterTransferETH _ _ _ _ => true
  | _ => false

/-- The delay `setTimeout`. -/
def Effect.isSetTimeout : Effect → Bool
  | .setTimeout _ => true
  | _ => false

/-! ## Concrete environments -/

/-- An environment in which every request raises. -/
def deadWorld : World where
  getBlockNumber := fun _ => none
  getChainId := fun _ => none
  getGasPrice := fun _ => none
  getBalance := fun _ _ => none
  getTransactionCount := fun _ _ => none
  getTransactionCountLatest := fun _ _ => none
  estimateGas := fun _ _ _ _ _ => none
  call := fun _ _ _ => none
  signTransaction := fun _ _ => none
  sendSignedTransaction := fun _ _ => none
  privateKeyToAccount := fun _ => none
  isAddress := fun _ => false
  hexToAscii := fun _ => none
  readFileSync := fun _ => none
  divPow10 := fun _ _ => .nan

/-- The endpoint `x` is down, `a` answers on chain 1 and every other endpoint
answers on Sepolia; nothing else answers. -/
def probeWorld : World :=
  { deadWorld with
    getBlockNumber := fun e => if e = "x" then none else some 7
    getChainId := fun e => if e = "a" then some 1 else some 11155111 }

/-- The credential files hold two entries with surrounding white space and a
blank line between them; nothing else answers. -/
def paddedFileWorld : World :=
  { deadWorld with readFileSync := fun _ => some "  0xab \n\n0xcd\t\n" }

/-- A token contract answers: name `USDC`, an empty symbol, 6 decimals, and a
balance of one million units for every holder. -/
def tokenWorld : World :=
  { deadWorld with
    call := fun _ _ data =>
      if data = "0x06fdde03" then some (some "0x55534443")
      else if data = "0x95d89b41" then some (some "0x")
      else if data = "0x313ce567" then some (some "0x06")
      else some (some "0x0f4240")
    hexToAscii := fun s => if s = "0x55534443" then some "USDC" else none }

/-- As `tokenWorld`, but the `symbol()` request raises. -/
def symbolFailsWorld : World :=
  { tokenWorld with
    call := fun _ _ data =>
      if data = "0x06fdde03" then some (some "0x55534443")
      else if data = "0x95d89b41" then none
      else some (some "0x06") }

/-- Two keys: `K1` derives `A1`, which is empty, and `K2` derives `A2`, which
holds 5 ether; the gas price is 40 gwei and every estimate is 25000 gas, so the
estimated gas cost is 0.001 ether.  Signing and submitting succeed. -/
def sweepWorld : World :=
  { deadWorld with
    getBlockNumber := fun _ => some 7
    getGasPrice := fun _ => some 40000000000
    readFileSync := fun _ => some "K1\nK2\n"
    privateKeyToAccount := fun k =>
      if k = "K1" then some "A1" else if k = "K2" then some "A2" else none
    getBalance := fun _ a => if a = "A2" then some 5000000000000000000 else some 0
    estimateGas := fun _ _ _ _ _ => some 25000
    getTransactionCount := fun _ _ => some 0
    signTransaction := fun tx _ => some ("signed:" ++ tx.fromAddress)
    sendSignedTransaction := fun _ _ => some ⟨"0xhash", 21000, 1⟩ }

/-- One key `K` that derives `A`, which holds 10 wei; the gas price is 1 wei
and every estimate is 12 gas, so the estimated gas cost is 12 wei. -/
def dustWorld : World :=
  { sweepWorld with
    getGasPrice := fun _ => some 1
    readFileSync := fun _ => some "K\n"
    privateKeyToAccount := fun k => if k = "K" then some "A" else none
    getBalance := fun _ _ => some 10
    estimateGas := fun _ _ _ _ _ => some 12 }

/-- One key `K` whose address holds exactly 0.001 ETH on Sepolia. -/
def thresholdWorld : World :=
  { deadWorld with
    getBlockNumber := fun _ => some 7
    getChainId := fun _ => some 11155111
    readFileSync := fun _ => some "K\n"
    privateKeyToAccount := fun k =>
      if k = "K" then some "0x220511f4fd6d898125f79aa8d4cb91bffe9df6db" else none
    getBalance := fun _ _ => some 1000000000000000
    isAddress := fun _ => true }

/-! ## The transactions of the sweep script -/

namespace Spec

/-- The gas limit of the zero-value probe for an address (`L0`): what
`estimateTransferGas` returns for the value `'0'`. -/
def probeGasLimit (w : World) (web3 : String) (currentGasPrice : Nat) (address : String) : Nat :=
  (GetEthBalance.estimateTransferGas w web3 currentGasPrice address
    GetEthBalance.TARGET_ADDRESS 0).value.gasLimit

/-- The gas limit of the estimate for the real amount (`L1`): what
`estimateTransferGas` returns inside `transferETH`. -/
def realGasLimit (w : World) (web3 : String) (currentGasPrice : Nat) (address : String)
    (amount : Int) : Nat :=
  (GetEthBalance.estimateTransferGas w web3 currentGasPrice address
    GetEthBalance.TARGET_ADDRESS amount).value.gasLimit

/-- The fields of a transaction of the sweep script: the value is the balance
minus the cost of the zero-value probe, the gas is the estimate for the real
amount, the gas price is the current gas price. -/
def SweepTxFields (w : World) (web3 : String) (currentGasPrice : Nat) (tx : Transaction) : Prop :=
  tx.value = (sweepBalance w web3 tx.fromAddress : Int)
    - (probeGasLimit w web3 currentGasPrice tx.fromAddress : Int) * (currentGasPrice : Int) ∧
  tx.gas = realGasLimit w web3 currentGasPrice tx.fromAddress tx.value ∧
  tx.gasPrice = currentGasPrice

/-- What the sweep script guarantees of the transactions it signs and submits. -/
def SweepTxOk (w : World) (web3 : String) (currentGasPrice : Nat) : Effect → Prop
  | .signTransaction tx _ => SweepTxFields w web3 currentGasPrice tx
  | .sendSignedTransaction _ raw =>
    ∃ tx privateKey, w.signTransaction tx privateKey = some raw ∧
      SweepTxFields w web3 currentGasPrice tx
  | _ => True

end Spec

/-! ## Further concrete environments -/

/-- An environment whose address check accepts everything. -/
def acceptingWorld : World := { deadWorld with isAddress := fun _ => true }

/-- Every address is accepted and every gas estimate is 21000. -/
def marginWorld : World :=
  { acceptingWorld with estimateGas := fun _ _ _ _ _ => some 21000 }

/-- Every address is accepted and every gas estimate is `2 ^ 50 + 17`. -/
def hugeGasWorld : World :=
  { acceptingWorld with estimateGas := fun _ _ _ _ _ => some 1125899906842641 }

/-- As `sweepWorld`, but every balance request raises. -/
def noBalanceWorld : World :=
  { sweepWorld with getBalance := fun _ _ => none }

/-- The key file holds a malformed key `bad` before the key `K1`. -/
def skipWorld : World :=
  { sweepWorld with readFileSync := fun _ => some "bad\nK1\n" }

/-- Two keys on Sepolia whose addresses hold nothing. -/
def poorWorld : World :=
  { thresholdWorld with
    readFileSync := fun _ => some "K\nK\n"
    getBalance := fun _ _ => some 0 }

/-- The address file holds two entries that the address check rejects. -/
def rejectingWorld : World :=
  { deadWorld with readFileSync := fun _ => some "x\ny\n" }

/-- The address file holds the two entries `a` and `b`, which the address check
accepts. -/
def twoAddressWorld : World :=
  { acceptingWorld with readFileSync := fun _ => some "a\nb\n" }

/-- An environment whose address check accepts `0x` followed by 40 lower-case
hexadecimal digits and nothing else.  As `isAddress` of web3 does, it rejects
`0x220511F4fd6d898125f79aa8d4cb91bffe9df6db`, a mixed-case address whose
EIP-55 checksum is wrong. -/
def checksumWorld : World :=
  { deadWorld with
    isAddress := fun address =>
      match address.data with
      | c0 :: c1 :: ds =>
        c0 == Char.ofNat 48 && c1 == Char.ofNat 120 && ds.length == 40 &&
          ds.all (fun c => (hexDigitValue c).isSome && c.toLower == c)
      | _ => false }

/-- The gas price is 0, the zero-value probe estimates 21000 gas and the
estimate for a real amount 30000; the key `K` derives `A`, which holds 5 wei. -/
def freeGasWorld : World :=
  { sweepWorld with
    getGasPrice := fun _ => some 0
    readFileSync := fun _ => some "K\n"
    privateKeyToAccount := fun k => if k = "K" then some "A" else none
    getBalance := fun _ _ => some 5
    estimateGas := fun _ _ _ value _ => if value = 0 then some 21000 else some 30000 }

/-- The gas price is 1 wei, the zero-value probe estimates 21000 gas and the
estimate for a real amount 30000; the key `K` derives `A`, which holds 50000
wei. -/
def stateGasWorld : World :=
  { freeGasWorld with
    getGasPrice := fun _ => some 1
    getBalance := fun _ _ => some 50000 }

/-! # Proofs -/

namespace Run

@[simp] theorem value_pure {α : Type} (a : α) : (pure a : Run α).value = a := rfl

@[simp] theorem effects_pure {α : Type} (a : α) : (pure a : Run α).effects = [] := rfl

@[simp] theorem value_bind {α β : Type} (x : Run α) (f : α → Run β) :
    (x >>= f).value = (f x.value).value := rfl

@[simp] theorem effects_bind {α β : Type} (x : Run α) (f : α → Run β) :
    (x >>= f).effects = x.effects ++ (f x.value).effects := rfl

@[simp] theorem value_emit (e : Effect) : (emit e).value = () := rfl

@[simp] theorem effects_emit (e : Effect) : (emit e).effects = [e] := rfl

theorem ext {α : Type} {x y : Run α} (hv : x.value = y.value) (he : x.effects = y.effects) :
    x = y := by
  cases x; cases y; simp_all

end Run

/-! ## Endpoint selection -/

/-- An endpoint list splits at a valid position into what is before, the
element, and what is after. -/
theorem split_at_index {α : Type} (l : List α) (N : Nat) (e : α) (h : l[N]? = some e) :
    l = l.take N ++ e :: l.drop (N + 1) ∧ l.take (N + 1) = l.take N ++ [e] := by
  obtain ⟨hlt, he⟩ := List.getElem?_eq_some.mp h
  constructor
  · conv_lhs => rw [← List.take_append_drop N l]
    rw [List.drop_eq_getElem_cons hlt, he]
  · rw [List.take_succ, h]; rfl

/-- Every element of `l.take N` sits at a position below `N`. -/
theorem mem_take_index {α : Type} (l : List α) (N : Nat) (x : α) (hx : x ∈ l.take N) :
    ∃ i, i < N ∧ l[i]? = some x := by
  obtain ⟨i, hi, hget⟩ := List.getElem_of_mem hx
  have hlen : i < N ∧ i < l.length := by
    rw [List.length_take] at hi; omega
  refine ⟨i, hlen.1, ?_⟩
  rw [List.getElem_take] at hget
  rw [List.getElem?_eq_getElem hlen.2, hget]

theorem sweep_initializeWeb3_skip (w : World) (pre rest : List String)
    (hpre : ∀ x ∈ pre, w.getBlockNumber x = none) :
    (GetEthBalance.initializeWeb3 w (pre ++ rest)).value
        = (GetEthBalance.initializeWeb3 w rest).value ∧
    (GetEthBalance.initializeWeb3 w (pre ++ rest)).effects
        = pre.map Effect.getBlockNumber ++ (GetEthBalance.initializeWeb3 w rest).effects := by
  induction pre with
  | nil => simp
  | cons x xs ih =>
    have hx : w.getBlockNumber x = none := hpre x (by simp)
    have ih2 := ih (fun y hy => hpre y (by simp [hy]))
    simp [GetEthBalance.initializeWeb3, hx, ih2.1, ih2.2]

theorem fauct_initializeWeb3_skip (w : World) (pre rest : List String)
    (hpre : ∀ x ∈ pre, w.getBlockNumber x = none) :
    (ZamaFauct.initializeWeb3 w (pre ++ rest)).value
        = (ZamaFauct.initializeWeb3 w rest).value ∧
    (ZamaFauct.initializeWeb3 w (pre ++ rest)).effects
        = pre.map Effect.getBlockNumber ++ (ZamaFauct.initializeWeb3 w rest).effects := by
  induction pre with
  | nil => simp
  | cons x xs ih =>
    have hx : w.getBlockNumber x = none := hpre x (by simp)
    have ih2 := ih (fun y hy => hpre y (by simp [hy]))
    simp [ZamaFauct.initializeWeb3, hx, ih2.1, ih2.2]

theorem usdc_initializeWeb3_skip (w : World) (pre rest : List String)
    (hpre : ∀ x ∈ pre, w.getBlockNumber x = none) :
    (ZamaUsdcTokenBalance.initializeWeb3 w (pre ++ rest)).value
        = (ZamaUsdcTokenBalance.initializeWeb3 w rest).value ∧
    (ZamaUsdcTokenBalance.initializeWeb3 w (pre ++ rest)).effects
        = pre.map Effect.getBlockNumber ++
          (ZamaUsdcTokenBalance.initializeWeb3 w rest).effects := by
  induction pre with
  | nil => simp
  | cons x xs ih =>
    have hx : w.getBlockNumber x = none := hpre x (by simp)
    have ih2 := ih (fun y hy => hpre y (by simp [hy]))
    simp [ZamaUsdcTokenBalance.initializeWeb3, hx, ih2.1, ih2.2]

/-- C1, as stated, fails for the Sepolia scripts: with no failing endpoint in
front (`N = 0`), the first endpoint `a` answers the block-height probe, yet
`initializeWeb3` of `zama-fauct.js` and of `zama-usdc-token-balance.js` does not
select it (it reports chain 1) and goes on to probe the endpoint `b` after it. -/
theorem c1_wrong_chain_endpoint_not_selected :
    probeWorld.getBlockNumber "a" = some 7 ∧
    (ZamaFauct.initializeWeb3 probeWorld ["a", "b"]).value ≠ some "a" ∧
    Effect.getBlockNumber "b" ∈ (ZamaFauct.initializeWeb3 probeWorld ["a", "b"]).effects ∧
    (ZamaUsdcTokenBalance.initializeWeb3 probeWorld ["a", "b"]).value ≠ some "a" ∧
    Effect.getBlockNumber "b" ∈
      (ZamaUsdcTokenBalance.initializeWeb3 probeWorld ["a", "b"]).effects := by
  decide

/-- C1 (amended): if the block-height probe of the first `N` endpoints fails and
the probe of endpoint `N + 1` answers, then `initializeWeb3` of
`get-eth-balance.js` returns `true` with endpoint `N + 1` as the connection and
probes exactly the first `N + 1` endpoints; `initializeWeb3` of the two Sepolia
scripts does the same provided endpoint `N + 1` also reports chain ID 11155111
(its effects are the `N + 1` probes and the one chain-ID request). -/
theorem initializeWeb3_selects_first_responding (w : World) (endpoints : List String)
    (N : Nat) (e : String) (b : Nat)
    (hN : endpoints[N]? = some e)
    (hfail : ∀ i, i < N → ∀ x, endpoints[i]? = some x → w.getBlockNumber x = none)
    (hok : w.getBlockNumber e = some b) :
    ((GetEthBalance.initializeWeb3 w endpoints).value = some e ∧
      (GetEthBalance.initializeWeb3 w endpoints).effects
        = (endpoints.take (N + 1)).map Effect.getBlockNumber) ∧
    (w.getChainId e = some 11155111 →
      ((ZamaFauct.initializeWeb3 w endpoints).value = some e ∧
        (ZamaFauct.initializeWeb3 w endpoints).effects
          = (endpoints.take (N + 1)).map Effect.getBlockNumber ++ [Effect.getChainId e]) ∧
      ((ZamaUsdcTokenBalance.initializeWeb3 w endpoints).value = some e ∧
        (ZamaUsdcTokenBalance.initializeWeb3 w endpoints).effects
          = (endpoints.take (N + 1)).map Effect.getBlockNumber ++ [Effect.getChainId e])) := by
  obtain ⟨hsplit, htake⟩ := split_at_index endpoints N e hN
  have hpre : ∀ x ∈ endpoints.take N, w.getBlockNumber x = none := by
    intro x hx
    obtain ⟨i, hi, hget⟩ := mem_take_index endpoints N x hx
    exact hfail i hi x hget
  refine ⟨?_, fun hchain => ⟨?_, ?_⟩⟩
  · have h := sweep_initializeWeb3_skip w _ (e :: endpoints.drop (N + 1)) hpre
    rw [← hsplit] at h
    rw [h.1, h.2, htake]
    simp [GetEthBalance.initializeWeb3, hok]
  · have h := fauct_initializeWeb3_skip w _ (e :: endpoints.drop (N + 1)) hpre
    rw [← hsplit] at h
    rw [h.1, h.2, htake]
    simp [ZamaFauct.initializeWeb3, hok, hchain]
  · have h := usdc_initializeWeb3_skip w _ (e :: endpoints.drop (N + 1)) hpre
    rw [← hsplit] at h
    rw [h.1, h.2, htake]
    simp [ZamaUsdcTokenBalance.initializeWeb3, hok, hchain]

/-- C1 (amended) at a concrete input: the endpoint `x` is down, `b` answers on Sepolia. -/
theorem initializeWeb3_selects_first_responding_witness :
    ((GetEthBalance.initializeWeb3 probeWorld ["x", "b", "a"]).value = some "b" ∧
      (GetEthBalance.initializeWeb3 probeWorld ["x", "b", "a"]).effects
        = [Effect.getBlockNumber "x", Effect.getBlockNumber "b"]) ∧
    (ZamaFauct.initializeWeb3 probeWorld ["x", "b", "a"]).value = some "b" ∧
    (ZamaFauct.initializeWeb3 probeWorld ["x", "b", "a"]).effects
        = [Effect.getBlockNumber "x", Effect.getBlockNumber "b", Effect.getChainId "b"] := by
  have h := initializeWeb3_selects_first_responding probeWorld ["x", "b", "a"] 1 "b" 7
    (by decide)
    (by
      intro i hi x hx
      have hi0 : i = 0 := by omega
      subst hi0
      have hx2 : x = "x" := by simpa using hx.symm
      subst hx2
      decide)
    (by decide)
  exact ⟨h.1, (h.2 (by decide)).1⟩

/-! ## Abort when no endpoint answers -/

theorem sweep_initializeWeb3_all_fail (w : World) (endpoints : List String)
    (hall : ∀ e ∈ endpoints, w.getBlockNumber e = none) :
    GetEthBalance.initializeWeb3 w endpoints = ⟨none, endpoints.map Effect.getBlockNumber⟩ := by
  have h := sweep_initializeWeb3_skip w endpoints [] hall
  simp only [List.append_nil] at h
  exact Run.ext (by rw [h.1]; rfl) (by rw [h.2]; simp [GetEthBalance.initializeWeb3])

theorem fauct_initializeWeb3_all_fail (w : World) (endpoints : List String)
    (hall : ∀ e ∈ endpoints, w.getBlockNumber e = none) :
    ZamaFauct.initializeWeb3 w endpoints = ⟨none, endpoints.map Effect.getBlockNumber⟩ := by
  have h := fauct_initializeWeb3_skip w endpoints [] hall
  simp only [List.append_nil] at h
  exact Run.ext (by rw [h.1]; rfl) (by rw [h.2]; simp [ZamaFauct.initializeWeb3])

theorem usdc_initializeWeb3_all_fail (w : World) (endpoints : List String)
    (hall : ∀ e ∈ endpoints, w.getBlockNumber e = none) :
    ZamaUsdcTokenBalance.initializeWeb3 w endpoints
      = ⟨none, endpoints.map Effect.getBlockNumber⟩ := by
  have h := usdc_initializeWeb3_skip w endpoints [] hall
  simp only [List.append_nil] at h
  exact Run.ext (by rw [h.1]; rfl) (by rw [h.2]; simp [ZamaUsdcTokenBalance.initializeWeb3])

/-- C2: when every block-height probe fails, `initializeWeb3` returns `false`
in each of the three scripts, `main` returns before its loop, and the only
effects of the whole run are the probes themselves, one per endpoint in list
order: the credential file is not read, no address is derived, and no balance,
gas, call or transaction request is made. -/
theorem main_aborts_when_all_probes_fail (w : World) (endpoints : List String)
    (hall : ∀ e ∈ endpoints, w.getBlockNumber e = none) :
    ((GetEthBalance.initializeWeb3 w endpoints).value = none ∧
      (GetEthBalance.main w endpoints).value = none ∧
      (GetEthBalance.main w endpoints).effects = endpoints.map Effect.getBlockNumber) ∧
    ((ZamaFauct.initializeWeb3 w endpoints).value = none ∧
      (ZamaFauct.main w endpoints).value = none ∧
      (ZamaFauct.main w endpoints).effects = endpoints.map Effect.getBlockNumber) ∧
    ((ZamaUsdcTokenBalance.initializeWeb3 w endpoints).value = none ∧
      (ZamaUsdcTokenBalance.main w endpoints).value = none ∧
      (ZamaUsdcTokenBalance.main w endpoints).effects
        = endpoints.map Effect.getBlockNumber) := by
  have h1 := sweep_initializeWeb3_all_fail w endpoints hall
  have h2 := fauct_initializeWeb3_all_fail w endpoints hall
  have h3 := usdc_initializeWeb3_all_fail w endpoints hall
  refine ⟨?_, ?_, ?_⟩
  · simp [GetEthBalance.main, h1]
  · simp [ZamaFauct.main, h2]
  · simp [ZamaUsdcTokenBalance.main, h3]

/-- C2 at a concrete input: the three endpoints of `get-eth-balance.js`, all down. -/
theorem main_aborts_when_all_probes_fail_witness :
    (GetEthBalance.main deadWorld GetEthBalance.rpcEndpoints).value = none ∧
    (GetEthBalance.main deadWorld GetEthBalance.rpcEndpoints).effects
      = GetEthBalance.rpcEndpoints.map Effect.getBlockNumber :=
  (main_aborts_when_all_probes_fail deadWorld GetEthBalance.rpcEndpoints
    (fun _ _ => rfl)).1.2

/-! ## Credential loaders -/

theorem trimChars_isTrimOf (l : List Char) : Spec.IsTrimOf (trimChars l) l := by
  have hm : l = l.takeWhile isJsWhiteSpace ++ l.dropWhile isJsWhiteSpace :=
    (List.takeWhile_append_dropWhile isJsWhiteSpace l).symm
  have hr : (l.dropWhile isJsWhiteSpace)
      = trimChars l ++ ((l.dropWhile isJsWhiteSpace).reverse.takeWhile isJsWhiteSpace).reverse := by
    have h := List.takeWhile_append_dropWhile isJsWhiteSpace (l.dropWhile isJsWhiteSpace).reverse
    have h2 := congrArg List.reverse h
    rw [List.reverse_append, List.reverse_reverse] at h2
    exact h2.symm
  refine ⟨⟨l.takeWhile isJsWhiteSpace,
    ((l.dropWhile isJsWhiteSpace).reverse.takeWhile isJsWhiteSpace).reverse, ?_, ?_, ?_⟩, ?_, ?_⟩
  · rw [List.append_assoc, ← hr]; exact hm
  · intro c hc
    exact (List.mem_takeWhile_imp hc)
  · intro c hc
    exact (List.mem_takeWhile_imp (List.mem_reverse.mp hc))
  · intro c hc
    have hhead : (l.dropWhile isJsWhiteSpace).head? = some c := by
      rw [hr]
      cases ht : trimChars l with
      | nil => rw [ht] at hc; simp at hc
      | cons a as => rw [ht] at hc; simpa using hc
    have := List.head?_dropWhile_not isJsWhiteSpace l
    rw [hhead] at this
    simpa using this
  · intro c hc
    unfold trimChars at hc
    rw [List.getLast?_reverse] at hc
    have := List.head?_dropWhile_not isJsWhiteSpace (l.dropWhile isJsWhiteSpace).reverse
    rw [hc] at this
    simpa using this

theorem trimChars_eq_nil_iff (l : List Char) : trimChars l = [] ↔ Spec.isBlank l = true := by
  unfold Spec.isBlank
  constructor
  · intro h
    obtain ⟨⟨pre, post, hl, hpre, hpost⟩, -, -⟩ := trimChars_isTrimOf l
    rw [h] at hl
    rw [hl]
    simp only [List.append_nil, List.all_append, Bool.and_eq_true, List.all_eq_true]
    exact ⟨hpre, hpost⟩
  · intro h
    have hd : l.dropWhile isJsWhiteSpace = [] := by
      rw [List.dropWhile_eq_nil_iff]
      exact List.all_eq_true.mp h
    simp [trimChars, hd]

theorem splitChars_ne_nil (l : List Char) : splitChars l ≠ [] := by
  cases l with
  | nil => simp [splitChars]
  | cons c cs =>
    unfold splitChars
    split
    · simp
    · split <;> simp

theorem splitChars_isLinesOf (l : List Char) : Spec.IsLinesOf (splitChars l) l := by
  induction l with
  | nil => simp [Spec.IsLinesOf, splitChars, List.intercalate]
  | cons c cs ih =>
    obtain ⟨hj, hn⟩ := ih
    unfold splitChars
    by_cases hc : c = Char.ofNat 10
    · rw [if_pos hc]
      constructor
      · cases hs : splitChars cs with
        | nil => exact absurd hs (splitChars_ne_nil cs)
        | cons p ps =>
          rw [hs] at hj
          simp only [List.intercalate, List.intersperse, List.flatten] at hj ⊢
          simp [hc, hj]
      · intro piece hp
        rcases List.mem_cons.mp hp with h | h
        · simp [h]
        · exact hn piece h
    · rw [if_neg hc]
      cases hs : splitChars cs with
      | nil => exact absurd hs (splitChars_ne_nil cs)
      | cons p ps =>
        rw [hs] at hj hn
        constructor
        · cases ps with
          | nil =>
            simp only [List.intercalate, List.intersperse, List.flatten] at hj ⊢
            simp at hj ⊢
            exact hj
          | cons p2 ps2 =>
            simp only [List.intercalate, List.intersperse, List.flatten] at hj ⊢
            simp at hj ⊢
            exact hj
        · intro piece hp
          rcases List.mem_cons.mp hp with h | h
          · rw [h]
            intro hmem
            rcases List.mem_cons.mp hmem with h1 | h1
            · exact hc h1.symm
            · exact hn p (by simp) h1
          · exact hn piece (by simp [h])

theorem nonblank_test (l : List Char) :
    (jsTrim (String.mk l) != "") = !Spec.isBlank l := by
  have h := trimChars_eq_nil_iff l
  have hmk : (String.mk (trimChars l) = "") ↔ trimChars l = [] := by
    constructor
    · intro h1
      have := congrArg String.data h1
      simpa using this
    · intro h1; rw [h1]
  unfold jsTrim
  by_cases hb : Spec.isBlank l = true
  · have := h.mpr hb
    simp [hb, this]
  · have hne : ¬ trimChars l = [] := fun h1 => hb (h.mp h1)
    have hne2 : ¬ String.mk (trimChars l) = "" := fun h1 => hne (hmk.mp h1)
    simp [hb, hne2]

theorem filter_nonblank (content : String) :
    (jsSplitNewline content).filter (fun line => jsTrim line != "")
      = ((splitChars content.data).filter (fun l => !Spec.isBlank l)).map String.mk := by
  unfold jsSplitNewline
  rw [List.filter_map]
  congr 1
  apply List.filter_congr
  intro l _
  simp only [Function.comp]
  exact nonblank_test l

theorem loader_eq_spec (content : String) :
    ((jsSplitNewline content).filter (fun line => jsTrim line != "")).map (fun line => jsTrim line)
      = Spec.loadCredentials content := by
  rw [filter_nonblank, List.map_map]
  rfl

theorem loadCredentials_trimmed (content : String) :
    List.Forall₂ (fun line key => Spec.IsTrimOf key.data line)
      ((splitChars content.data).filter (fun l => !Spec.isBlank l))
      (Spec.loadCredentials content) := by
  unfold Spec.loadCredentials
  rw [List.forall₂_map_right_iff]
  apply List.forall₂_same.mpr
  intro l _
  exact trimChars_isTrimOf l

/-- C3, as stated, fails for `readAddressesFromFile` of `get-eth-info.js`: it
returns the non-blank lines with their surrounding white space, not trimmed
(the three `readPrivateKeys` return the trimmed lines). -/
theorem c3_readAddressesFromFile_not_trimmed :
    (GetEthInfo.readAddressesFromFile paddedFileWorld "EVM.txt").value = ["  0xab ", "0xcd\t"] ∧
    (GetEthBalance.readPrivateKeys paddedFileWorld "evm_private.txt").value = ["0xab", "0xcd"] ∧
    (GetEthInfo.readAddressesFromFile paddedFileWorld "EVM.txt").value ≠ ["0xab", "0xcd"] := by
  decide

/-- C3 (amended): for every file content, `readPrivateKeys` of the three
key-based scripts returns exactly the lines of the content that are not empty
or white-space-only, each trimmed of surrounding white space, in file order;
`readAddressesFromFile` of `get-eth-info.js` returns the same lines in the same
order but untrimmed (trimming them gives the same list); in both cases the
length is the number of such lines. -/
theorem credential_loaders_return_nonblank_lines (w : World) (path content : String)
    (hread : w.readFileSync path = some content) :
    Spec.IsLinesOf (splitChars content.data) content.data ∧
    (GetEthBalance.readPrivateKeys w path).value = Spec.loadCredentials content ∧
    (ZamaFauct.readPrivateKeys w path).value = Spec.loadCredentials content ∧
    (ZamaUsdcTokenBalance.readPrivateKeys w path).value = Spec.loadCredentials content ∧
    List.Forall₂ (fun line key => Spec.IsTrimOf key.data line)
      ((splitChars content.data).filter (fun l => !Spec.isBlank l))
      (Spec.loadCredentials content) ∧
    (Spec.loadCredentials content).length
      = (splitChars content.data).countP (fun l => !Spec.isBlank l) ∧
    (GetEthInfo.readAddressesFromFile w path).value
      = ((splitChars content.data).filter (fun l => !Spec.isBlank l)).map String.mk ∧
    (GetEthInfo.readAddressesFromFile w path).value.map jsTrim = Spec.loadCredentials content ∧
    (GetEthInfo.readAddressesFromFile w path).value.length
      = (splitChars content.data).countP (fun l => !Spec.isBlank l) := by
  have hinfo : (GetEthInfo.readAddressesFromFile w path).value
      = ((splitChars content.data).filter (fun l => !Spec.isBlank l)).map String.mk := by
    simp [GetEthInfo.readAddressesFromFile, hread, filter_nonblank]
  refine ⟨splitChars_isLinesOf _, ?_, ?_, ?_, loadCredentials_trimmed content, ?_, hinfo, ?_, ?_⟩
  · simp only [GetEthBalance.readPrivateKeys, hread, Run.value_bind, Run.value_pure]
    exact loader_eq_spec content
  · simp only [ZamaFauct.readPrivateKeys, hread, Run.value_bind, Run.value_pure]
    exact loader_eq_spec content
  · simp only [ZamaUsdcTokenBalance.readPrivateKeys, hread, Run.value_bind, Run.value_pure]
    exact loader_eq_spec content
  · simp [Spec.loadCredentials, List.countP_eq_length_filter]
  · rw [hinfo, List.map_map]
    rfl
  · rw [hinfo]
    simp [List.countP_eq_length_filter]

/-- C3 (amended) at a concrete input: two padded entries around a blank line. -/
theorem credential_loaders_return_nonblank_lines_witness :
    paddedFileWorld.readFileSync "evm_private.txt" = some "  0xab \n\n0xcd\t\n" ∧
    (GetEthBalance.readPrivateKeys paddedFileWorld "evm_private.txt").value
      = Spec.loadCredentials "  0xab \n\n0xcd\t\n" ∧
    (Spec.loadCredentials "  0xab \n\n0xcd\t\n").length
      = (splitChars "  0xab \n\n0xcd\t\n".data).countP (fun l => !Spec.isBlank l) :=
  have h := credential_loaders_return_nonblank_lines paddedFileWorld "evm_private.txt"
    "  0xab \n\n0xcd\t\n" rfl
  ⟨rfl, h.2.1, h.2.2.2.2.2.1⟩

/-! ## Sweep: transfer amount -/

theorem transferETH_effects_ok (w : World) (web3 : String) (p : Nat)
    (privateKey address : String) (amount : Int)
    (hamt : amount = (Spec.sweepBalance w web3 address : Int)
      - (Spec.sweepGasCost w web3 p address : Int))
    (hpos : 0 < amount) :
    ∀ ev ∈ (GetEthBalance.transferETH w web3 p privateKey address
      GetEthBalance.TARGET_ADDRESS amount).effects, Spec.SweepEffectOk w web3 p ev := by
  unfold GetEthBalance.transferETH GetEthBalance.estimateTransferGas
  simp only [Run.effects_bind, Run.effects_emit, Run.value_bind]
  split
  · simp [Spec.SweepEffectOk, ← hamt, hpos]
  · split <;>
      simp only [Run.effects_bind, Run.effects_emit, Run.value_bind, Run.value_pure,
        Run.effects_pure] <;>
      split <;>
      simp only [Run.effects_bind, Run.effects_emit, Run.value_bind, Run.value_pure,
        Run.effects_pure] <;>
      (try split) <;>
      simp [Spec.SweepEffectOk, ← hamt, hpos] <;>
      exact ⟨_, ⟨_, by assumption⟩, by rfl, by exact hamt, by exact hpos⟩

theorem estimateTransferGas_effects (w : World) (web3 : String) (p : Nat)
    (fromAddress toAddress : String) (amount : Int) :
    (GetEthBalance.estimateTransferGas w web3 p fromAddress toAddress amount).effects
      = [Effect.estimateGas web3 fromAddress toAddress amount none] := by
  unfold GetEthBalance.estimateTransferGas
  simp only [Run.effects_bind, Run.effects_emit]
  split <;> simp

theorem sweep_effects_ok (w : World) (web3 : String) (p : Nat) (s : GetEthBalance.Summary)
    (privateKey address : String) :
    ∀ ev ∈ (GetEthBalance.sweep w web3 p s privateKey address
      (GetEthBalance.getETHBalance w web3 address).value).effects,
      Spec.SweepEffectOk w web3 p ev := by
  unfold GetEthBalance.sweep
  simp only [Run.effects_bind, Run.value_bind, estimateTransferGas_effects]
  rw [List.forall_mem_append]
  constructor
  · simp [Spec.SweepEffectOk]
  · split
    · split
      · rename_i hpos
        simp only [Run.effects_bind, Run.value_bind]
        rw [List.forall_mem_append]
        constructor
        · exact transferETH_effects_ok w web3 p privateKey address _ rfl hpos
        · split <;> simp
      · simp
    · simp

theorem sweep_getETHBalance_effects (w : World) (web3 address : String) :
    (GetEthBalance.getETHBalance w web3 address).effects = [Effect.getBalance web3 address] := by
  unfold GetEthBalance.getETHBalance
  simp only [Run.effects_bind, Run.effects_emit]
  split <;> simp

theorem sweep_processKey_effects_ok (w : World) (web3 : String) (p : Nat)
    (s : GetEthBalance.Summary) (privateKey : String) :
    ∀ ev ∈ (GetEthBalance.processKey w web3 p s privateKey).effects,
      Spec.SweepEffectOk w web3 p ev := by
  cases hk : w.privateKeyToAccount privateKey with
  | none =>
    simp [GetEthBalance.processKey, GetEthBalance.getAddressFromPrivateKey, hk,
      Spec.SweepEffectOk]
  | some address =>
    by_cases ha : address = ""
    · simp [GetEthBalance.processKey, GetEthBalance.getAddressFromPrivateKey, hk, ha,
        Spec.SweepEffectOk]
    · by_cases hlt : Dbl.lt Dbl.zero (parseFloatEther
          (GetEthBalance.getETHBalance w web3 address).value.balanceEthWei) = true
      · have hsw := sweep_effects_ok w web3 p s privateKey address
        simp only [GetEthBalance.processKey, GetEthBalance.getAddressFromPrivateKey, hk, ha,
          hlt, Run.effects_bind, Run.value_bind, Run.effects_emit, Run.effects_pure,
          Run.value_pure, sweep_getETHBalance_effects, if_true, if_false,
          List.forall_mem_append, List.forall_mem_cons, List.append_nil]
        refine ⟨by simp [Spec.SweepEffectOk], by simp [Spec.SweepEffectOk], hsw, ?_⟩
        simp [Spec.SweepEffectOk]
      · simp [GetEthBalance.processKey, GetEthBalance.getAddressFromPrivateKey, hk, ha,
          hlt, sweep_getETHBalance_effects, Spec.SweepEffectOk]

theorem sweep_processKeys_effects_ok (w : World) (web3 : String) (p : Nat)
    (privateKeys : List String) :
    ∀ (s : GetEthBalance.Summary),
      ∀ ev ∈ (GetEthBalance.processKeys w web3 p s privateKeys).effects,
        Spec.SweepEffectOk w web3 p ev := by
  induction privateKeys with
  | nil => intro s; simp [GetEthBalance.processKeys]
  | cons k ks ih =>
    intro s
    simp only [GetEthBalance.processKeys, Run.effects_bind, Run.value_bind,
      List.forall_mem_append]
    exact ⟨sweep_processKey_effects_ok w web3 p s k, ih _⟩

theorem sweep_initializeWeb3_probes_only (w : World) (endpoints : List String) :
    ∀ ev ∈ (GetEthBalance.initializeWeb3 w endpoints).effects,
      ∃ e, ev = Effect.getBlockNumber e := by
  induction endpoints with
  | nil => simp [GetEthBalance.initializeWeb3]
  | cons e es ih =>
    simp only [GetEthBalance.initializeWeb3, Run.effects_bind, Run.effects_emit,
      List.forall_mem_append, List.forall_mem_cons]
    refine ⟨⟨⟨e, rfl⟩, by simp⟩, ?_⟩
    split
    · simp
    · exact ih

theorem sweep_main_effects_ok (w : World) (endpoints : List String) (web3 : String)
    (hconn : (GetEthBalance.initializeWeb3 w endpoints).value = some web3) :
    ∀ ev ∈ (GetEthBalance.main w endpoints).effects,
      Spec.SweepEffectOk w web3 (GetEthBalance.getCurrentGasPrice w web3).value ev := by
  have hinit : ∀ ev ∈ (GetEthBalance.initializeWeb3 w endpoints).effects,
      Spec.SweepEffectOk w web3 (GetEthBalance.getCurrentGasPrice w web3).value ev := by
    intro ev hev
    obtain ⟨e, rfl⟩ := sweep_initializeWeb3_probes_only w endpoints ev hev
    simp [Spec.SweepEffectOk]
  have hgas : (GetEthBalance.getCurrentGasPrice w web3).effects = [Effect.getGasPrice web3] := by
    unfold GetEthBalance.getCurrentGasPrice
    simp only [Run.effects_bind, Run.effects_emit]
    split <;> simp
  have hread : (GetEthBalance.readPrivateKeys w "evm_private.txt").effects
      = [Effect.readFileSync "evm_private.txt"] := by
    unfold GetEthBalance.readPrivateKeys
    simp only [Run.effects_bind, Run.effects_emit]
    split <;> simp
  simp only [GetEthBalance.main, Run.effects_bind, Run.value_bind, hconn, hgas, hread,
    List.forall_mem_append, List.forall_mem_cons]
  refine ⟨hinit, ⟨by simp [Spec.SweepEffectOk], by simp⟩,
    ⟨by simp [Spec.SweepEffectOk], by simp⟩, ?_⟩
  split
  · simp
  · simp only [Run.effects_bind, Run.value_bind, Run.effects_pure, List.append_nil]
    exact sweep_processKeys_effects_ok w web3 _ _ _

/-- C4: in a run of the sweep script, `transferETH` is entered only for a
wallet whose balance `b` exceeds the estimated gas cost `g = gasLimit *
gasPrice` of the zero-value estimate, and the amount passed is exactly `b - g`;
the same holds for the value of every signed transaction, and every submitted
raw transaction is the signature of such a transaction.  In particular, for a
wallet with `b = 10` and `g = 12`, `transferETH` is not called and no
transaction from it is signed or submitted. -/
theorem sweep_transfers_balance_minus_gas (w : World) (endpoints : List String) (web3 : String)
    (hconn : (GetEthBalance.initializeWeb3 w endpoints).value = some web3) :
    (∀ privateKey fromAddress toAddress amount,
      Effect.enterTransferETH privateKey fromAddress toAddress amount
          ∈ (GetEthBalance.main w endpoints).effects →
        toAddress = GetEthBalance.TARGET_ADDRESS ∧
        amount = (Spec.sweepBalance w web3 fromAddress : Int)
          - (Spec.sweepGasCost w web3 (GetEthBalance.getCurrentGasPrice w web3).value
              fromAddress : Int) ∧
        (0 : Int) < (Spec.sweepBalance w web3 fromAddress : Int)
          - (Spec.sweepGasCost w web3 (GetEthBalance.getCurrentGasPrice w web3).value
              fromAddress : Int)) ∧
    (∀ tx privateKey,
      Effect.signTransaction tx privateKey ∈ (GetEthBalance.main w endpoints).effects →
        tx.value = (Spec.sweepBalance w web3 tx.fromAddress : Int)
          - (Spec.sweepGasCost w web3 (GetEthBalance.getCurrentGasPrice w web3).value
              tx.fromAddress : Int) ∧
        0 < tx.value) ∧
    (∀ connection raw,
      Effect.sendSignedTransaction connection raw ∈ (GetEthBalance.main w endpoints).effects →
        ∃ tx privateKey, w.signTransaction tx privateKey = some raw ∧
          tx.value = (Spec.sweepBalance w web3 tx.fromAddress : Int)
            - (Spec.sweepGasCost w web3 (GetEthBalance.getCurrentGasPrice w web3).value
                tx.fromAddress : Int) ∧
          0 < tx.value) ∧
    (∀ address, Spec.sweepBalance w web3 address = 10 →
      Spec.sweepGasCost w web3 (GetEthBalance.getCurrentGasPrice w web3).value address = 12 →
      (∀ privateKey toAddress amount,
        Effect.enterTransferETH privateKey address toAddress amount
          ∉ (GetEthBalance.main w endpoints).effects) ∧
      (∀ tx privateKey,
        Effect.signTransaction tx privateKey ∈ (GetEthBalance.main w endpoints).effects →
          tx.fromAddress ≠ address) ∧
      (∀ connection raw,
        Effect.sendSignedTransaction connection raw ∈ (GetEthBalance.main w endpoints).effects →
          ∃ tx privateKey, w.signTransaction tx privateKey = some raw ∧
            tx.fromAddress ≠ address)) := by
  have hok := sweep_main_effects_ok w endpoints web3 hconn
  have h1 : ∀ privateKey fromAddress toAddress amount,
      Effect.enterTransferETH privateKey fromAddress toAddress amount
          ∈ (GetEthBalance.main w endpoints).effects →
        toAddress = GetEthBalance.TARGET_ADDRESS ∧
        amount = (Spec.sweepBalance w web3 fromAddress : Int)
          - (Spec.sweepGasCost w web3 (GetEthBalance.getCurrentGasPrice w web3).value
              fromAddress : Int) ∧
        (0 : Int) < (Spec.sweepBalance w web3 fromAddress : Int)
          - (Spec.sweepGasCost w web3 (GetEthBalance.getCurrentGasPrice w web3).value
              fromAddress : Int) := by
    intro privateKey fromAddress toAddress amount hmem
    have h := hok _ hmem
    simp only [Spec.SweepEffectOk] at h
    exact ⟨h.1, h.2.1, by rw [← h.2.1]; exact h.2.2⟩
  have h2 : ∀ tx privateKey,
      Effect.signTransaction tx privateKey ∈ (GetEthBalance.main w endpoints).effects →
        tx.value = (Spec.sweepBalance w web3 tx.fromAddress : Int)
          - (Spec.sweepGasCost w web3 (GetEthBalance.getCurrentGasPrice w web3).value
              tx.fromAddress : Int) ∧
        0 < tx.value := by
    intro tx privateKey hmem
    have h := hok _ hmem
    simp only [Spec.SweepEffectOk] at h
    exact ⟨h.2.1, h.2.2⟩
  have h3 : ∀ connection raw,
      Effect.sendSignedTransaction connection raw ∈ (GetEthBalance.main w endpoints).effects →
        ∃ tx privateKey, w.signTransaction tx privateKey = some raw ∧
          tx.value = (Spec.sweepBalance w web3 tx.fromAddress : Int)
            - (Spec.sweepGasCost w web3 (GetEthBalance.getCurrentGasPrice w web3).value
                tx.fromAddress : Int) ∧
          0 < tx.value := by
    intro connection raw hmem
    have h := hok _ hmem
    simp only [Spec.SweepEffectOk] at h
    obtain ⟨tx, key, hs, -, hv, hp⟩ := h
    exact ⟨tx, key, hs, hv, hp⟩
  refine ⟨h1, h2, h3, ?_⟩
  intro address hb hg
  refine ⟨?_, ?_, ?_⟩
  · intro privateKey toAddress amount hmem
    have h := (h1 _ _ _ _ hmem).2.2
    rw [hb, hg] at h
    omega
  · intro tx privateKey hmem heq
    have h := h2 _ _ hmem
    rw [heq, hb, hg] at h
    omega
  · intro connection raw hmem
    obtain ⟨tx, key, hs, hv, hp⟩ := h3 _ _ hmem
    refine ⟨tx, key, hs, ?_⟩
    intro heq
    rw [heq, hb, hg] at hv
    omega

set_option maxRecDepth 8000 in
/-- C4 at concrete inputs: in `sweepWorld` the transfer from `A2` carries the
balance minus the gas cost; in `dustWorld` (balance 10 wei, gas cost 12 wei) no
transfer from `A` is entered. -/
theorem sweep_transfers_balance_minus_gas_witness :
    (GetEthBalance.TARGET_ADDRESS = GetEthBalance.TARGET_ADDRESS ∧
      (4999000000000000000 : Int) = (Spec.sweepBalance sweepWorld "rpc" "A2" : Int)
        - (Spec.sweepGasCost sweepWorld "rpc"
            (GetEthBalance.getCurrentGasPrice sweepWorld "rpc").value "A2" : Int) ∧
      (0 : Int) < (Spec.sweepBalance sweepWorld "rpc" "A2" : Int)
        - (Spec.sweepGasCost sweepWorld "rpc"
            (GetEthBalance.getCurrentGasPrice sweepWorld "rpc").value "A2" : Int)) ∧
    Spec.sweepBalance dustWorld "rpc" "A" = 10 ∧
    Spec.sweepGasCost dustWorld "rpc" (GetEthBalance.getCurrentGasPrice dustWorld "rpc").value
      "A" = 12 ∧
    Effect.enterTransferETH "K" "A" GetEthBalance.TARGET_ADDRESS (-2)
      ∉ (GetEthBalance.main dustWorld ["rpc"]).effects :=
  ⟨(sweep_transfers_balance_minus_gas sweepWorld ["rpc"] "rpc" (by decide)).1
      "K2" "A2" GetEthBalance.TARGET_ADDRESS 4999000000000000000 (by decide),
    by decide, by decide,
    ((sweep_transfers_balance_minus_gas dustWorld ["rpc"] "rpc" (by decide)).2.2.2 "A"
      (by decide) (by decide)).1 "K" GetEthBalance.TARGET_ADDRESS (-2)⟩

/-! ## Sweep: the two-key example -/

theorem transferETH_enter_once (w : World) (web3 : String) (p : Nat)
    (privateKey fromAddress toAddress : String) (amount : Int) :
    (GetEthBalance.transferETH w web3 p privateKey fromAddress toAddress amount).effects.filter
        Effect.isEnterTransferETH
      = [Effect.enterTransferETH privateKey fromAddress toAddress amount] := by
  unfold GetEthBalance.transferETH GetEthBalance.estimateTransferGas
  simp only [Run.effects_bind, Run.effects_emit, Run.value_bind]
  split
  · simp [Effect.isEnterTransferETH]
  · split <;>
      simp only [Run.effects_bind, Run.effects_emit, Run.value_bind, Run.value_pure,
        Run.effects_pure] <;>
      split <;>
      simp only [Run.effects_bind, Run.effects_emit, Run.value_bind, Run.value_pure,
        Run.effects_pure] <;>
      (try split) <;>
      simp [Effect.isEnterTransferETH]

theorem sweep_initializeWeb3_no_enter (w : World) (endpoints : List String) :
    (GetEthBalance.initializeWeb3 w endpoints).effects.filter Effect.isEnterTransferETH = [] := by
  rw [List.filter_eq_nil_iff]
  intro ev hev
  obtain ⟨e, rfl⟩ := sweep_initializeWeb3_probes_only w endpoints ev hev
  simp [Effect.isEnterTransferETH]

theorem sweep_two_keys_general (w : World) (endpoints : List String)
    (web3 K1 K2 A1 A2 : String) (b g : Nat)
    (hconn : (GetEthBalance.initializeWeb3 w endpoints).value = some web3)
    (hkeys : (GetEthBalance.readPrivateKeys w "evm_private.txt").value = [K1, K2])
    (hA1 : w.privateKeyToAccount K1 = some A1) (hA2 : w.privateKeyToAccount K2 = some A2)
    (hne1 : A1 ≠ "") (hne2 : A2 ≠ "")
    (hb1 : w.getBalance web3 A1 = some 0)
    (hb2 : w.getBalance web3 A2 = some b)
    (hg : Spec.sweepGasCost w web3 (GetEthBalance.getCurrentGasPrice w web3).value A2 = g)
    (hf2 : Dbl.lt Dbl.zero (parseFloatEther b) = true)
    (hf3 : Dbl.lt (parseFloatEther g) (parseFloatEther b) = true)
    (hpos : (0 : Int) < (b : Int) - (g : Int)) :
    (GetEthBalance.main w endpoints).effects.filter Effect.isEnterTransferETH
      = [Effect.enterTransferETH K2 A2 GetEthBalance.TARGET_ADDRESS ((b : Int) - (g : Int))] ∧
    ∃ s, (GetEthBalance.main w endpoints).value = some s ∧ s.validAddresses = 2 ∧
      s.totalBalance = Dbl.add Dbl.zero (parseFloatEther b) := by
  have hf1 : Dbl.lt Dbl.zero (parseFloatEther 0) = false := by decide
  have hgas : (GetEthBalance.getCurrentGasPrice w web3).effects = [Effect.getGasPrice web3] := by
    unfold GetEthBalance.getCurrentGasPrice
    simp only [Run.effects_bind, Run.effects_emit]
    split <;> simp
  have hread : (GetEthBalance.readPrivateKeys w "evm_private.txt").effects
      = [Effect.readFileSync "evm_private.txt"] := by
    unfold GetEthBalance.readPrivateKeys
    simp only [Run.effects_bind, Run.effects_emit]
    split <;> simp
  have hbal1 : GetEthBalance.getETHBalance w web3 A1 = ⟨⟨0, 0⟩, [Effect.getBalance web3 A1]⟩ := by
    apply Run.ext <;> simp [GetEthBalance.getETHBalance, hb1]
  have hbal2 : GetEthBalance.getETHBalance w web3 A2
      = ⟨⟨b, b⟩, [Effect.getBalance web3 A2]⟩ := by
    apply Run.ext <;> simp [GetEthBalance.getETHBalance, hb2]
  unfold Spec.sweepGasCost at hg
  have hlt : g < b := by omega
  constructor
  · simp only [GetEthBalance.main, hconn, hkeys, Run.effects_bind, Run.value_bind, hgas, hread,
      List.filter_append, sweep_initializeWeb3_no_enter]
    simp [GetEthBalance.processKeys, GetEthBalance.processKey,
      GetEthBalance.getAddressFromPrivateKey, hA1, hA2, hne1, hne2, hbal1, hbal2, hf1, hf2,
      GetEthBalance.sweep, hg, hf3, estimateTransferGas_effects, hlt,
      transferETH_enter_once, Effect.isEnterTransferETH]
    intro a ha
    split at ha <;> simp at ha
  · simp only [GetEthBalance.main, hconn, hkeys, Run.value_bind]
    simp [GetEthBalance.processKeys, GetEthBalance.processKey,
      GetEthBalance.getAddressFromPrivateKey, hA1, hA2, hne1, hne2, hbal1, hbal2, hf1, hf2,
      GetEthBalance.sweep, hg, hf3, hlt]
    split <;> simp

/-- C5 (amended): for the key list `[K1, K2]` where `K1` derives `A1` with
balance 0 and `K2` derives `A2` with balance 5 ETH and the estimated gas cost
for `A2` is 0.001 ETH, the run enters `transferETH` exactly once, for
4999000000000000000 wei from `A2` to the target address (so not for `A1`), and
the summary reports 2 valid addresses and a total balance of 5 ETH. -/
theorem sweep_two_keys_example (w : World) (endpoints : List String)
    (web3 K1 K2 A1 A2 : String)
    (hconn : (GetEthBalance.initializeWeb3 w endpoints).value = some web3)
    (hkeys : (GetEthBalance.readPrivateKeys w "evm_private.txt").value = [K1, K2])
    (hA1 : w.privateKeyToAccount K1 = some A1) (hA2 : w.privateKeyToAccount K2 = some A2)
    (hne1 : A1 ≠ "") (hne2 : A2 ≠ "")
    (hb1 : w.getBalance web3 A1 = some 0)
    (hb2 : w.getBalance web3 A2 = some 5000000000000000000)
    (hg : Spec.sweepGasCost w web3 (GetEthBalance.getCurrentGasPrice w web3).value A2
      = 1000000000000000) :
    (GetEthBalance.main w endpoints).effects.filter Effect.isEnterTransferETH
      = [Effect.enterTransferETH K2 A2 GetEthBalance.TARGET_ADDRESS 4999000000000000000] ∧
    ∃ s, (GetEthBalance.main w endpoints).value = some s ∧ s.validAddresses = 2 ∧
      s.totalBalance = Dbl.ofNat 5 := by
  have h := sweep_two_keys_general w endpoints web3 K1 K2 A1 A2 5000000000000000000
    1000000000000000 hconn hkeys hA1 hA2 hne1 hne2 hb1 hb2 hg (by decide) (by decide)
    (by norm_num)
  have hamt : ((5000000000000000000 : Nat) : Int) - ((1000000000000000 : Nat) : Int)
      = 4999000000000000000 := by norm_num
  have hsum : Dbl.add Dbl.zero (parseFloatEther 5000000000000000000) = Dbl.ofNat 5 := by decide
  rw [hamt, hsum] at h
  exact h

/-- C5, as stated, fails in its last part: in the scenario of the claim (`K1`
derives `A1` with balance 0, `K2` derives `A2` with balance 5 ETH, gas cost
0.001 ETH) the summary counter `validAddresses` is 2, not 1: it counts every
key whose address was derived, whatever the balance, and the summary has no
counter of non-zero balances. -/
theorem c5_summary_counts_both_addresses :
    (GetEthBalance.readPrivateKeys sweepWorld "evm_private.txt").value = ["K1", "K2"] ∧
    Spec.sweepBalance sweepWorld "rpc" "A1" = 0 ∧
    Spec.sweepBalance sweepWorld "rpc" "A2" = 5000000000000000000 ∧
    Spec.sweepGasCost sweepWorld "rpc" (GetEthBalance.getCurrentGasPrice sweepWorld "rpc").value
      "A2" = 1000000000000000 ∧
    (GetEthBalance.main sweepWorld ["rpc"]).value.map (fun s => s.validAddresses) = some 2 :=
  ⟨by decide, by decide, by decide, by decide, by decide⟩

/-- C5 (amended) at a concrete input: the two keys of `sweepWorld`. -/
theorem sweep_two_keys_example_witness :
    (GetEthBalance.main sweepWorld ["rpc"]).effects.filter Effect.isEnterTransferETH
      = [Effect.enterTransferETH "K2" "A2" GetEthBalance.TARGET_ADDRESS 4999000000000000000] :=
  (sweep_two_keys_example sweepWorld ["rpc"] "rpc" "K1" "K2" "A1" "A2" (by decide) (by decide)
    (by decide) (by decide) (by decide) (by decide) (by decide) (by decide) (by decide)).1

/-! ## Rounding to a double is monotone -/

theorem bitLenAux_zero (fuel : Nat) : bitLenAux fuel 0 = 0 := by
  cases fuel <;> simp [bitLenAux]

theorem bitLenAux_spec : ∀ (fuel n : Nat), n ≤ fuel → 0 < n →
    0 < bitLenAux fuel n ∧ 2 ^ (bitLenAux fuel n - 1) ≤ n ∧ n < 2 ^ bitLenAux fuel n := by
  intro fuel
  induction fuel with
  | zero => intro n h1 h2; omega
  | succ f ih =>
    intro n hle hpos
    have hne : n ≠ 0 := by omega
    simp only [bitLenAux, hne, if_false]
    by_cases h0 : n / 2 = 0
    · have hn1 : n = 1 := by omega
      rw [h0, bitLenAux_zero]
      subst hn1
      simp
    · have hpos2 : 0 < n / 2 := by omega
      have hle2 : n / 2 ≤ f := by omega
      obtain ⟨hk, hlo, hhi⟩ := ih (n / 2) hle2 hpos2
      refine ⟨by omega, ?_, ?_⟩
      · have h2 : bitLenAux f (n / 2) + 1 - 1 = (bitLenAux f (n / 2) - 1) + 1 := by omega
        rw [h2, pow_succ]
        omega
      · rw [pow_succ]
        omega

theorem bitLen_spec (n : Nat) (hpos : 0 < n) :
    0 < bitLen n ∧ 2 ^ (bitLen n - 1) ≤ n ∧ n < 2 ^ bitLen n :=
  bitLenAux_spec n n (le_refl n) hpos

theorem two_zpow_toNat (s : Int) :
    (2 : ℚ) ^ s.toNat / (2 : ℚ) ^ (-s).toNat = (2 : ℚ) ^ s := by
  rcases le_total 0 s with h | h
  · have h1 : (-s).toNat = 0 := by omega
    have h2 : (s.toNat : Int) = s := Int.toNat_of_nonneg h
    rw [h1, pow_zero, div_one, ← zpow_natCast, h2]
  · have h1 : s.toNat = 0 := by omega
    have h2 : ((-s).toNat : Int) = -s := Int.toNat_of_nonneg (by omega)
    rw [h1, pow_zero, one_div, ← zpow_natCast, h2, zpow_neg, inv_inv]

theorem scale_ratio (n d : Nat) (s : Int) (hd : 0 < d) :
    (scaleNum n s : ℚ) / (scaleDen d s : ℚ) = ((n : ℚ) / (d : ℚ)) / (2 : ℚ) ^ s := by
  have hd' : (d : ℚ) ≠ 0 := by exact_mod_cast hd.ne'
  have h2 := two_zpow_toNat s
  have hp1 : (2 : ℚ) ^ s.toNat ≠ 0 := by positivity
  have hp2 : (2 : ℚ) ^ (-s).toNat ≠ 0 := by positivity
  have hp3 : (2 : ℚ) ^ s ≠ 0 := by positivity
  unfold scaleNum scaleDen
  push_cast
  rw [← h2]
  field_simp

theorem scaleDen_pos (d : Nat) (s : Int) (hd : 0 < d) : 0 < scaleDen d s := by
  unfold scaleDen
  positivity

theorem scale_le_iff (n d : Nat) (s : Int) (k : Nat) (hd : 0 < d) :
    k * scaleDen d s ≤ scaleNum n s ↔ (k : ℚ) * (2 : ℚ) ^ s ≤ (n : ℚ) / (d : ℚ) := by
  have hden : (0 : ℚ) < (scaleDen d s : ℚ) := by exact_mod_cast scaleDen_pos d s hd
  have hp : (0 : ℚ) < (2 : ℚ) ^ s := by positivity
  have hr := scale_ratio n d s hd
  constructor
  · intro h
    have h1 : (k : ℚ) * (scaleDen d s : ℚ) ≤ (scaleNum n s : ℚ) := by exact_mod_cast h
    have h2 : (k : ℚ) ≤ (scaleNum n s : ℚ) / (scaleDen d s : ℚ) := (le_div_iff₀ hden).mpr h1
    rw [hr] at h2
    exact (le_div_iff₀ hp).mp h2
  · intro h
    have h2 : (k : ℚ) ≤ ((n : ℚ) / (d : ℚ)) / (2 : ℚ) ^ s := (le_div_iff₀ hp).mpr h
    rw [← hr] at h2
    have h1 := (le_div_iff₀ hden).mp h2
    exact_mod_cast h1

theorem scale_lt_iff (n d : Nat) (s : Int) (k : Nat) (hd : 0 < d) :
    scaleNum n s < k * scaleDen d s ↔ (n : ℚ) / (d : ℚ) < (k : ℚ) * (2 : ℚ) ^ s := by
  rw [← not_le, ← not_le, scale_le_iff n d s k hd]

theorem binade_spec (n d : Nat) (hn : 0 < n) (hd : 0 < d) :
    (2 : ℚ) ^ binade n d ≤ (n : ℚ) / (d : ℚ) ∧ (n : ℚ) / (d : ℚ) < (2 : ℚ) ^ (binade n d + 1) := by
  obtain ⟨ha, halo, hahi⟩ := bitLen_spec n hn
  obtain ⟨hb, hblo, hbhi⟩ := bitLen_spec d hd
  have hdq : (0 : ℚ) < (d : ℚ) := by exact_mod_cast hd
  have halo' : (2 : ℚ) ^ ((bitLen n : ℤ) - 1) ≤ (n : ℚ) := by
    have h : ((bitLen n : ℤ) - 1) = ((bitLen n - 1 : ℕ) : ℤ) := by omega
    rw [h, zpow_natCast]
    exact_mod_cast halo
  have hahi' : (n : ℚ) < (2 : ℚ) ^ (bitLen n : ℤ) := by
    rw [zpow_natCast]
    exact_mod_cast hahi
  have hblo' : (2 : ℚ) ^ ((bitLen d : ℤ) - 1) ≤ (d : ℚ) := by
    have h : ((bitLen d : ℤ) - 1) = ((bitLen d - 1 : ℕ) : ℤ) := by omega
    rw [h, zpow_natCast]
    exact_mod_cast hblo
  have hbhi' : (d : ℚ) < (2 : ℚ) ^ (bitLen d : ℤ) := by
    rw [zpow_natCast]
    exact_mod_cast hbhi
  have h2 : (2 : ℚ) ≠ 0 := by norm_num
  -- upper bound: n / d < 2 ^ (a - b + 1)
  have hup : (n : ℚ) / (d : ℚ) < (2 : ℚ) ^ ((bitLen n : ℤ) - (bitLen d : ℤ) + 1) := by
    rw [div_lt_iff₀ hdq]
    calc (n : ℚ) < (2 : ℚ) ^ (bitLen n : ℤ) := hahi'
      _ = (2 : ℚ) ^ ((bitLen n : ℤ) - (bitLen d : ℤ) + 1) * (2 : ℚ) ^ ((bitLen d : ℤ) - 1) := by
          rw [← zpow_add₀ h2]; congr 1; ring
      _ ≤ (2 : ℚ) ^ ((bitLen n : ℤ) - (bitLen d : ℤ) + 1) * (d : ℚ) := by
          apply mul_le_mul_of_nonneg_left hblo'; positivity
  -- lower bound: 2 ^ (a - b - 1) ≤ n / d
  have hlow : (2 : ℚ) ^ ((bitLen n : ℤ) - (bitLen d : ℤ) - 1) ≤ (n : ℚ) / (d : ℚ) := by
    rw [le_div_iff₀ hdq]
    calc (2 : ℚ) ^ ((bitLen n : ℤ) - (bitLen d : ℤ) - 1) * (d : ℚ)
        ≤ (2 : ℚ) ^ ((bitLen n : ℤ) - (bitLen d : ℤ) - 1) * (2 : ℚ) ^ (bitLen d : ℤ) := by
          apply mul_le_mul_of_nonneg_left hbhi'.le; positivity
      _ = (2 : ℚ) ^ ((bitLen n : ℤ) - 1) := by
          rw [← zpow_add₀ h2]; congr 1; ring
      _ ≤ (n : ℚ) := halo'
  unfold binade
  simp only
  split
  · rename_i hc
    have hc' := (scale_le_iff n d _ 1 hd).mp (by simpa using hc)
    simp only [Nat.cast_one, one_mul] at hc'
    exact ⟨hc', hup⟩
  · rename_i hc
    have hc' : (n : ℚ) / (d : ℚ) < (2 : ℚ) ^ ((bitLen n : ℤ) - (bitLen d : ℤ)) := by
      have := (scale_lt_iff n d ((bitLen n : ℤ) - (bitLen d : ℤ)) 1 hd).mp (by simpa using hc)
      simpa using this
    refine ⟨hlow, ?_⟩
    have : (bitLen n : ℤ) - (bitLen d : ℤ) - 1 + 1 = (bitLen n : ℤ) - (bitLen d : ℤ) := by ring
    rw [this]
    exact hc'

theorem roundHalfEven_bounds (num den : Nat) :
    num / den ≤ roundHalfEven num den ∧ roundHalfEven num den ≤ num / den + 1 := by
  unfold roundHalfEven
  simp only
  split
  · omega
  · split
    · omega
    · split <;> omega

theorem div_le_div_of_cross (num1 den1 num2 den2 : Nat) (h1 : 0 < den1) (h2 : 0 < den2)
    (h : num1 * den2 ≤ num2 * den1) : num1 / den1 ≤ num2 / den2 := by
  rw [Nat.le_div_iff_mul_le h2]
  have hq : num1 / den1 * den1 ≤ num1 := Nat.div_mul_le_self num1 den1
  have h3 : num1 / den1 * den2 * den1 ≤ num2 * den1 := by
    calc num1 / den1 * den2 * den1 = num1 / den1 * den1 * den2 := by ring
      _ ≤ num1 * den2 := Nat.mul_le_mul_right den2 hq
      _ ≤ num2 * den1 := h
  exact Nat.le_of_mul_le_mul_right h3 h1

theorem roundHalfEven_mono (num1 den1 num2 den2 : Nat) (h1 : 0 < den1) (h2 : 0 < den2)
    (h : num1 * den2 ≤ num2 * den1) : roundHalfEven num1 den1 ≤ roundHalfEven num2 den2 := by
  have hq := div_le_div_of_cross num1 den1 num2 den2 h1 h2 h
  obtain ⟨hb1, hb1'⟩ := roundHalfEven_bounds num1 den1
  obtain ⟨hb2, hb2'⟩ := roundHalfEven_bounds num2 den2
  rcases Nat.lt_or_ge (num1 / den1) (num2 / den2) with hlt | hge
  · omega
  · have heq : num1 / den1 = num2 / den2 := by omega
    have e1 : den1 * (num1 / den1) + num1 % den1 = num1 := Nat.div_add_mod num1 den1
    have e2 : den2 * (num2 / den2) + num2 % den2 = num2 := Nat.div_add_mod num2 den2
    have hr : num1 % den1 * den2 ≤ num2 % den2 * den1 := by
      have h' : (den1 * (num1 / den1) + num1 % den1) * den2
          ≤ (den2 * (num2 / den2) + num2 % den2) * den1 := by rw [e1, e2]; exact h
      rw [heq] at h'
      have : den1 * (num2 / den2) * den2 = den2 * (num2 / den2) * den1 := by ring
      rw [add_mul, add_mul, this] at h'
      omega
    have key1 : den1 < 2 * (num1 % den1) → den2 < 2 * (num2 % den2) := by
      intro hB
      by_contra hcon
      have hcon' : 2 * (num2 % den2) ≤ den2 := by omega
      have ha : 2 * (num2 % den2) * den1 ≤ den2 * den1 := Nat.mul_le_mul_right den1 hcon'
      have hb : den1 * den2 < 2 * (num1 % den1) * den2 := Nat.mul_lt_mul_of_pos_right hB h2
      have hc : 2 * (num1 % den1) * den2 ≤ 2 * (num2 % den2) * den1 := by
        calc 2 * (num1 % den1) * den2 = 2 * (num1 % den1 * den2) := by ring
          _ ≤ 2 * (num2 % den2 * den1) := Nat.mul_le_mul_left 2 hr
          _ = 2 * (num2 % den2) * den1 := by ring
      have hd : den2 * den1 = den1 * den2 := Nat.mul_comm _ _
      omega
    have key2 : den1 ≤ 2 * (num1 % den1) → den2 ≤ 2 * (num2 % den2) := by
      intro hB
      by_contra hcon
      have hcon' : 2 * (num2 % den2) < den2 := by omega
      have ha : 2 * (num2 % den2) * den1 < den2 * den1 := Nat.mul_lt_mul_of_pos_right hcon' h1
      have hb : den1 * den2 ≤ 2 * (num1 % den1) * den2 := Nat.mul_le_mul_right den2 hB
      have hc : 2 * (num1 % den1) * den2 ≤ 2 * (num2 % den2) * den1 := by
        calc 2 * (num1 % den1) * den2 = 2 * (num1 % den1 * den2) := by ring
          _ ≤ 2 * (num2 % den2 * den1) := Nat.mul_le_mul_left 2 hr
          _ = 2 * (num2 % den2) * den1 := by ring
      have hd : den2 * den1 = den1 * den2 := Nat.mul_comm _ _
      omega
    unfold roundHalfEven
    simp only
    rw [heq]
    by_cases hA1 : 2 * (num1 % den1) < den1
    · rw [if_pos hA1]
      split
      · omega
      · split
        · omega
        · split <;> omega
    · rw [if_neg hA1]
      have hA2 : ¬ 2 * (num2 % den2) < den2 := by
        have := key2 (by omega)
        omega
      rw [if_neg hA2]
      by_cases hB1 : den1 < 2 * (num1 % den1)
      · rw [if_pos hB1, if_pos (key1 hB1)]
      · rw [if_neg hB1]
        by_cases hB2 : den2 < 2 * (num2 % den2)
        · rw [if_pos hB2]
          split <;> omega
        · rw [if_neg hB2]

theorem roundRat_toRat (n d : Nat) (hn : 0 < n) :
    (roundRat n d).toRat
      = (roundHalfEven (scaleNum n (binade n d - 52)) (scaleDen d (binade n d - 52)) : ℚ)
        * (2 : ℚ) ^ (binade n d - 52) := by
  have hne : n ≠ 0 := by omega
  have h2 : (2 : ℚ) ≠ 0 := by norm_num
  unfold roundRat
  simp only [hne, if_false]
  split
  · rename_i hm
    rw [hm]
    simp only [Dbl.toRat]
    rw [zpow_add_one₀ h2]
    push_cast
    ring
  · rfl

theorem roundRat_zero (d : Nat) : (roundRat 0 d).toRat = 0 := by
  simp [roundRat, Dbl.toRat]

theorem toRat_nonneg (x : Dbl) : 0 ≤ x.toRat := by
  unfold Dbl.toRat
  positivity

theorem mantissa_bounds (n d : Nat) (hn : 0 < n) (hd : 0 < d) :
    2 ^ 52 ≤ roundHalfEven (scaleNum n (binade n d - 52)) (scaleDen d (binade n d - 52)) ∧
    roundHalfEven (scaleNum n (binade n d - 52)) (scaleDen d (binade n d - 52)) ≤ 2 ^ 53 := by
  obtain ⟨hlo, hhi⟩ := binade_spec n d hn hd
  obtain ⟨hb, hb'⟩ := roundHalfEven_bounds (scaleNum n (binade n d - 52))
    (scaleDen d (binade n d - 52))
  have hden := scaleDen_pos d (binade n d - 52) hd
  have h2 : (2 : ℚ) ≠ 0 := by norm_num
  have h52 : (((2 ^ 52 : ℕ) : ℚ)) * (2 : ℚ) ^ (binade n d - 52) = (2 : ℚ) ^ binade n d := by
    have hc : (((2 ^ 52 : ℕ) : ℚ)) = (2 : ℚ) ^ (52 : ℤ) := by norm_num
    rw [hc, ← zpow_add₀ h2]
    congr 1
    ring
  have h53 : (((2 ^ 53 : ℕ) : ℚ)) * (2 : ℚ) ^ (binade n d - 52) = (2 : ℚ) ^ (binade n d + 1) := by
    have hc : (((2 ^ 53 : ℕ) : ℚ)) = (2 : ℚ) ^ (53 : ℤ) := by norm_num
    rw [hc, ← zpow_add₀ h2]
    congr 1
    ring
  have hq1 : 2 ^ 52 ≤ scaleNum n (binade n d - 52) / scaleDen d (binade n d - 52) := by
    rw [Nat.le_div_iff_mul_le hden]
    rw [scale_le_iff n d _ _ hd, h52]
    exact hlo
  have hq2 : scaleNum n (binade n d - 52) / scaleDen d (binade n d - 52) < 2 ^ 53 := by
    rw [Nat.div_lt_iff_lt_mul hden]
    rw [scale_lt_iff n d _ _ hd, h53]
    exact hhi
  omega

theorem roundRat_mono (n1 d1 n2 d2 : Nat) (hd1 : 0 < d1) (hd2 : 0 < d2)
    (h : n1 * d2 ≤ n2 * d1) : (roundRat n1 d1).toRat ≤ (roundRat n2 d2).toRat := by
  rcases Nat.eq_zero_or_pos n1 with h0 | hn1
  · rw [h0, roundRat_zero]
    exact toRat_nonneg _
  · have hn2 : 0 < n2 := by
      by_contra hcon
      have : n2 = 0 := by omega
      rw [this] at h
      have : 0 < n1 * d2 := Nat.mul_pos hn1 hd2
      omega
    have h2 : (2 : ℚ) ≠ 0 := by norm_num
    have hd1q : (0 : ℚ) < (d1 : ℚ) := by exact_mod_cast hd1
    have hd2q : (0 : ℚ) < (d2 : ℚ) := by exact_mod_cast hd2
    have hy : (n1 : ℚ) / (d1 : ℚ) ≤ (n2 : ℚ) / (d2 : ℚ) := by
      rw [div_le_div_iff₀ hd1q hd2q]
      exact_mod_cast h
    obtain ⟨hlo1, hhi1⟩ := binade_spec n1 d1 hn1 hd1
    obtain ⟨hlo2, hhi2⟩ := binade_spec n2 d2 hn2 hd2
    have he : binade n1 d1 ≤ binade n2 d2 := by
      have hlt : (2 : ℚ) ^ binade n1 d1 < (2 : ℚ) ^ (binade n2 d2 + 1) :=
        lt_of_le_of_lt (le_trans hlo1 hy) hhi2
      have := (zpow_lt_zpow_iff_right₀ (by norm_num : (1 : ℚ) < 2)).mp hlt
      omega
    rw [roundRat_toRat n1 d1 hn1, roundRat_toRat n2 d2 hn2]
    obtain ⟨hm1lo, hm1hi⟩ := mantissa_bounds n1 d1 hn1 hd1
    obtain ⟨hm2lo, hm2hi⟩ := mantissa_bounds n2 d2 hn2 hd2
    rcases eq_or_lt_of_le he with heq | hlt
    · rw [heq]
      apply mul_le_mul_of_nonneg_right _ (by positivity)
      have hm := roundHalfEven_mono (scaleNum n1 (binade n2 d2 - 52))
        (scaleDen d1 (binade n2 d2 - 52)) (scaleNum n2 (binade n2 d2 - 52))
        (scaleDen d2 (binade n2 d2 - 52)) (scaleDen_pos _ _ hd1) (scaleDen_pos _ _ hd2)
        (by
          unfold scaleNum scaleDen
          calc n1 * 2 ^ (-(binade n2 d2 - 52)).toNat * (d2 * 2 ^ (binade n2 d2 - 52).toNat)
              = n1 * d2 * (2 ^ (-(binade n2 d2 - 52)).toNat * 2 ^ (binade n2 d2 - 52).toNat) := by
                ring
            _ ≤ n2 * d1 * (2 ^ (-(binade n2 d2 - 52)).toNat * 2 ^ (binade n2 d2 - 52).toNat) :=
                Nat.mul_le_mul_right _ h
            _ = n2 * 2 ^ (-(binade n2 d2 - 52)).toNat * (d1 * 2 ^ (binade n2 d2 - 52).toNat) := by
                ring)
      rw [heq] at *
      exact_mod_cast hm
    · have hA : ((roundHalfEven (scaleNum n1 (binade n1 d1 - 52))
          (scaleDen d1 (binade n1 d1 - 52)) : ℕ) : ℚ) * (2 : ℚ) ^ (binade n1 d1 - 52)
          ≤ (2 : ℚ) ^ (binade n1 d1 + 1) := by
        have hc : ((roundHalfEven (scaleNum n1 (binade n1 d1 - 52))
            (scaleDen d1 (binade n1 d1 - 52)) : ℕ) : ℚ) ≤ (2 : ℚ) ^ (53 : ℕ) := by
          exact_mod_cast hm1hi
        calc _ ≤ (2 : ℚ) ^ (53 : ℕ) * (2 : ℚ) ^ (binade n1 d1 - 52) :=
              mul_le_mul_of_nonneg_right hc (by positivity)
          _ = (2 : ℚ) ^ (binade n1 d1 + 1) := by
              rw [← zpow_natCast, ← zpow_add₀ h2]; congr 1; norm_num; ring
      have hB : (2 : ℚ) ^ binade n2 d2
          ≤ ((roundHalfEven (scaleNum n2 (binade n2 d2 - 52))
            (scaleDen d2 (binade n2 d2 - 52)) : ℕ) : ℚ) * (2 : ℚ) ^ (binade n2 d2 - 52) := by
        have hc : (2 : ℚ) ^ (52 : ℕ) ≤ ((roundHalfEven (scaleNum n2 (binade n2 d2 - 52))
            (scaleDen d2 (binade n2 d2 - 52)) : ℕ) : ℚ) := by
          exact_mod_cast hm2lo
        calc (2 : ℚ) ^ binade n2 d2 = (2 : ℚ) ^ (52 : ℕ) * (2 : ℚ) ^ (binade n2 d2 - 52) := by
              rw [← zpow_natCast, ← zpow_add₀ h2]; congr 1; norm_num
          _ ≤ _ := mul_le_mul_of_nonneg_right hc (by positivity)
      have hC : (2 : ℚ) ^ (binade n1 d1 + 1) ≤ (2 : ℚ) ^ binade n2 d2 :=
        zpow_le_zpow_right₀ (by norm_num) (by omega)
      exact le_trans hA (le_trans hC hB)

theorem dbl_lt_iff (a b : Dbl) : Dbl.lt a b = true ↔ a.toRat < b.toRat := by
  have h2 : (2 : ℚ) ≠ 0 := by norm_num
  have key : ∀ (x : Dbl) (e : Int), e ≤ x.exp →
      x.toRat = ((x.mant * 2 ^ (x.exp - e).toNat : ℕ) : ℚ) * (2 : ℚ) ^ e := by
    intro x e he
    unfold Dbl.toRat
    push_cast
    have h1 : (((x.exp - e).toNat : ℕ) : ℤ) = x.exp - e := Int.toNat_of_nonneg (by omega)
    rw [← zpow_natCast, h1, mul_assoc, ← zpow_add₀ h2]
    congr 2
    ring
  unfold Dbl.lt
  simp only [decide_eq_true_eq]
  rw [key a (min a.exp b.exp) (min_le_left _ _), key b (min a.exp b.exp) (min_le_right _ _)]
  have hp : (0 : ℚ) < (2 : ℚ) ^ (min a.exp b.exp) := by positivity
  rw [mul_lt_mul_right hp]
  exact Nat.cast_lt.symm

/-- A balance below 0.001 ether reads as a double below the literal `0.001`. -/
theorem parseFloatEther_lt_threshold (x : Nat) (hx : x < 1000000000000000) :
    Dbl.lt (parseFloatEther x) lit_0_001 = true := by
  have hmono : (parseFloatEther x).toRat ≤ (parseFloatEther 999999999999999).toRat := by
    unfold parseFloatEther
    apply roundRat_mono _ _ _ _ (by norm_num) (by norm_num)
    apply Nat.mul_le_mul_right
    omega
  have hedge : Dbl.lt (parseFloatEther 999999999999999) lit_0_001 = true := by decide
  rw [dbl_lt_iff] at hedge ⊢
  exact lt_of_le_of_lt hmono hedge

/-! ## Faucet: the balance threshold -/

theorem fauct_getCurrentGasPrice_effects (w : World) (web3 : String) :
    (ZamaFauct.getCurrentGasPrice w web3).effects = [Effect.getGasPrice web3] := by
  unfold ZamaFauct.getCurrentGasPrice
  simp only [Run.effects_bind, Run.effects_emit]
  split <;> simp

theorem fauct_getETHBalance_effects (w : World) (web3 address : String) :
    (ZamaFauct.getETHBalance w web3 address).effects = [Effect.getBalance web3 address] := by
  unfold ZamaFauct.getETHBalance
  simp only [Run.effects_bind, Run.effects_emit]
  split <;> simp

theorem fauct_estimateContractGas_effects_ok (w : World) (web3 fromAddress : String) :
    ∀ ev ∈ (ZamaFauct.estimateContractGas w web3 fromAddress).effects,
      Spec.FaucetEffectOk w web3 ev := by
  unfold ZamaFauct.estimateContractGas
  split
  · simp
  · simp only [Run.effects_bind, Run.effects_emit]
    split <;> simp [Spec.FaucetEffectOk]

theorem interactWithContract_effects_ok (w : World) (web3 privateKey fromAddress : String)
    (hb : ∃ b, w.getBalance web3 fromAddress = some b ∧ 1000000000000000 ≤ b) :
    ∀ ev ∈ (ZamaFauct.interactWithContract w web3 privateKey fromAddress).effects,
      Spec.FaucetEffectOk w web3 ev := by
  have hest := fauct_estimateContractGas_effects_ok w web3 fromAddress
  unfold ZamaFauct.interactWithContract
  simp only [Run.effects_bind, Run.effects_emit, Run.value_bind]
  split
  · simp [Spec.FaucetEffectOk, hb]
  · split
    · simp [Spec.FaucetEffectOk, hb]
    · simp only [Run.effects_bind, Run.effects_emit, Run.value_bind,
        fauct_getCurrentGasPrice_effects, fauct_getETHBalance_effects,
        List.forall_mem_append, List.forall_mem_cons]
      refine ⟨by simp [Spec.FaucetEffectOk, hb], by simp [Spec.FaucetEffectOk],
        ⟨by simp [Spec.FaucetEffectOk], by simp⟩, hest, ⟨by simp [Spec.FaucetEffectOk], by simp⟩,
        ?_⟩
      split
      · simp
      · simp only [Run.effects_bind, Run.effects_emit, Run.value_bind]
        split
        · simp [Spec.FaucetEffectOk]
        · simp only [Run.effects_bind, Run.effects_emit, Run.value_bind]
          split <;> simp [Spec.FaucetEffectOk]

theorem fauct_balance_guard (w : World) (web3 address : String)
    (hlt : ¬ Dbl.lt (ZamaFauct.getETHBalance w web3 address).value.balanceEth lit_0_001 = true) :
    ∃ b, w.getBalance web3 address = some b ∧ 1000000000000000 ≤ b := by
  cases hbal : w.getBalance web3 address with
  | none =>
    have hz : Dbl.lt Dbl.zero lit_0_001 = true := by decide
    simp [ZamaFauct.getETHBalance, hbal, hz] at hlt
  | some b =>
    refine ⟨b, rfl, ?_⟩
    by_contra hcon
    have := parseFloatEther_lt_threshold b (by omega)
    simp [ZamaFauct.getETHBalance, hbal, this] at hlt

theorem fauct_processKey_effects_ok (w : World) (web3 : String) (total i : Nat)
    (s : ZamaFauct.Summary) (privateKey : String) :
    ∀ ev ∈ (ZamaFauct.processKey w web3 total i s privateKey).effects,
      Spec.FaucetEffectOk w web3 ev := by
  cases hk : w.privateKeyToAccount privateKey with
  | none =>
    simp [ZamaFauct.processKey, ZamaFauct.getAddressFromPrivateKey, hk, Spec.FaucetEffectOk]
  | some address =>
    by_cases ha : address = ""
    · simp [ZamaFauct.processKey, ZamaFauct.getAddressFromPrivateKey, hk, ha,
        Spec.FaucetEffectOk]
    · by_cases hlt : Dbl.lt (ZamaFauct.getETHBalance w web3 address).value.balanceEth
          lit_0_001 = true
      · simp [ZamaFauct.processKey, ZamaFauct.getAddressFromPrivateKey, hk, ha, hlt,
          fauct_getETHBalance_effects, Spec.FaucetEffectOk]
      · by_cases hlen : jsLength address = 42
        · have hb := fauct_balance_guard w web3 address hlt
          have hint := interactWithContract_effects_ok w web3 privateKey address hb
          simp only [ZamaFauct.processKey, ZamaFauct.getAddressFromPrivateKey, hk, ha, hlt, hlen,
            Run.effects_bind, Run.value_bind, Run.effects_emit, Run.effects_pure,
            Run.value_pure, fauct_getETHBalance_effects, if_true, if_false, ne_eq,
            not_true_eq_false, Bool.false_eq_true, List.forall_mem_append,
            List.forall_mem_cons, List.append_nil]
          refine ⟨by simp [Spec.FaucetEffectOk], by simp [Spec.FaucetEffectOk], hint, ?_⟩
          split
          · simp only [Run.effects_bind, Run.value_bind, fauct_getCurrentGasPrice_effects]
            split <;> simp [Spec.FaucetEffectOk]
          · simp only [Run.effects_bind, Run.value_bind, Run.effects_pure]
            split <;> simp [Spec.FaucetEffectOk]
        · simp [ZamaFauct.processKey, ZamaFauct.getAddressFromPrivateKey, hk, ha, hlt, hlen,
            fauct_getETHBalance_effects, Spec.FaucetEffectOk]

theorem fauct_processKeys_effects_ok (w : World) (web3 : String) (total : Nat)
    (privateKeys : List String) :
    ∀ (i : Nat) (s : ZamaFauct.Summary),
      ∀ ev ∈ (ZamaFauct.processKeys w web3 total i s privateKeys).effects,
        Spec.FaucetEffectOk w web3 ev := by
  induction privateKeys with
  | nil => intro i s; simp [ZamaFauct.processKeys]
  | cons k ks ih =>
    intro i s
    simp only [ZamaFauct.processKeys, Run.effects_bind, Run.value_bind,
      List.forall_mem_append]
    exact ⟨fauct_processKey_effects_ok w web3 total i s k, ih _ _⟩

theorem fauct_initializeWeb3_probes_only (w : World) (endpoints : List String) :
    ∀ ev ∈ (ZamaFauct.initializeWeb3 w endpoints).effects,
      (∃ e, ev = Effect.getBlockNumber e) ∨ (∃ e, ev = Effect.getChainId e) := by
  induction endpoints with
  | nil => simp [ZamaFauct.initializeWeb3]
  | cons e es ih =>
    simp only [ZamaFauct.initializeWeb3, Run.effects_bind, Run.effects_emit,
      List.forall_mem_append, List.forall_mem_cons]
    refine ⟨⟨Or.inl ⟨e, rfl⟩, by simp⟩, ?_⟩
    split
    · exact ih
    · simp only [Run.effects_bind, Run.effects_emit, List.forall_mem_append,
        List.forall_mem_cons]
      refine ⟨⟨Or.inr ⟨e, rfl⟩, by simp⟩, ?_⟩
      split
      · exact ih
      · split
        · exact ih
        · simp

theorem fauct_readPrivateKeys_effects (w : World) (path : String) :
    (ZamaFauct.readPrivateKeys w path).effects = [Effect.readFileSync path] := by
  unfold ZamaFauct.readPrivateKeys
  simp only [Run.effects_bind, Run.effects_emit]
  split <;> simp

theorem fauct_main_effects_ok (w : World) (endpoints : List String) (web3 : String)
    (hconn : (ZamaFauct.initializeWeb3 w endpoints).value = some web3) :
    ∀ ev ∈ (ZamaFauct.main w endpoints).effects, Spec.FaucetEffectOk w web3 ev := by
  have hinit : ∀ ev ∈ (ZamaFauct.initializeWeb3 w endpoints).effects,
      Spec.FaucetEffectOk w web3 ev := by
    intro ev hev
    rcases fauct_initializeWeb3_probes_only w endpoints ev hev with ⟨e, rfl⟩ | ⟨e, rfl⟩ <;>
      simp [Spec.FaucetEffectOk]
  simp only [ZamaFauct.main, Run.effects_bind, Run.value_bind, hconn,
    fauct_readPrivateKeys_effects, List.forall_mem_append, List.forall_mem_cons]
  refine ⟨hinit, ⟨by simp [Spec.FaucetEffectOk], by simp⟩, ?_⟩
  split
  · simp
  · simp only [Run.effects_bind, Run.value_bind, Run.effects_pure, List.append_nil]
    exact fauct_processKeys_effects_ok w web3 _ _ _ _

theorem fauct_processKey_enters (w : World) (web3 : String) (total i : Nat)
    (s : ZamaFauct.Summary) (privateKey address : String)
    (hk : w.privateKeyToAccount privateKey = some address) (hlen : jsLength address = 42)
    (hbal : w.getBalance web3 address = some 1000000000000000) :
    Effect.enterInteractWithContract privateKey address
      ∈ (ZamaFauct.processKey w web3 total i s privateKey).effects := by
  have ha : address ≠ "" := by
    intro h
    rw [h] at hlen
    have h0 : jsLength "" = 0 := rfl
    omega
  have hedge : Dbl.lt (parseFloatEther 1000000000000000) lit_0_001 = false := by decide
  have hb : ZamaFauct.getETHBalance w web3 address
      = ⟨⟨1000000000000000, parseFloatEther 1000000000000000⟩,
          [Effect.getBalance web3 address]⟩ := by
    apply Run.ext
    · simp only [ZamaFauct.getETHBalance, hbal, Run.value_bind, Run.value_pure]
    · simp only [ZamaFauct.getETHBalance, hbal, Run.effects_bind, Run.effects_emit,
        Run.effects_pure, List.append_nil]
  have hfirst : Effect.enterInteractWithContract privateKey address
      ∈ (ZamaFauct.interactWithContract w web3 privateKey address).effects := by
    unfold ZamaFauct.interactWithContract
    simp only [Run.effects_bind, Run.effects_emit]
    exact List.mem_append_left _ (List.mem_singleton.mpr rfl)
  simp only [ZamaFauct.processKey, ZamaFauct.getAddressFromPrivateKey, hk, ha,
    Run.effects_bind, Run.value_bind, Run.effects_emit, Run.effects_pure, Run.value_pure,
    if_false]
  rw [hb]
  have hne : ¬ (jsLength address ≠ 42) := by omega
  rw [if_neg (by rw [hedge]; exact Bool.false_ne_true), if_neg hne]
  apply List.mem_append_right
  apply List.mem_append_right
  simp only [Run.effects_bind]
  exact List.mem_append_left _ hfirst

theorem fauct_processKeys_includes (w : World) (web3 : String) (total : Nat) (ev : Effect)
    (privateKey : String)
    (hev : ∀ i s, ev ∈ (ZamaFauct.processKey w web3 total i s privateKey).effects)
    (privateKeys : List String) (hmem : privateKey ∈ privateKeys) :
    ∀ (i : Nat) (s : ZamaFauct.Summary),
      ev ∈ (ZamaFauct.processKeys w web3 total i s privateKeys).effects := by
  induction privateKeys with
  | nil => simp at hmem
  | cons k ks ih =>
    intro i s
    simp only [ZamaFauct.processKeys, Run.effects_bind, Run.value_bind, List.mem_append]
    rcases List.mem_cons.mp hmem with h | h
    · left
      rw [← h]
      exact hev i s
    · right
      exact ih h _ _

/-- C6, as stated, fails at the threshold: a wallet whose balance is exactly
0.001 ETH (`10 ^ 15` wei) is not skipped, `interactWithContract` is called for
it (the guard skips only `balanceEth < 0.001`). -/
theorem c6_exact_threshold_not_skipped :
    thresholdWorld.getBalance "rpc" "0x220511f4fd6d898125f79aa8d4cb91bffe9df6db"
      = some 1000000000000000 ∧
    Effect.enterInteractWithContract "K" "0x220511f4fd6d898125f79aa8d4cb91bffe9df6db"
      ∈ (ZamaFauct.main thresholdWorld ["rpc"]).effects := by
  decide

/-- C6 (amended): in a run of the faucet script, `interactWithContract` is
called only for a wallet whose ETH balance is at least the fixed threshold
0.001 ETH (`10 ^ 15` wei); a wallet of the key file whose balance is exactly
0.001 ETH, with an address of 42 characters, is not skipped:
`interactWithContract` is called for it. -/
theorem faucet_interacts_at_or_above_threshold (w : World) (endpoints : List String)
    (web3 : String) (hconn : (ZamaFauct.initializeWeb3 w endpoints).value = some web3) :
    (∀ privateKey address,
      Effect.enterInteractWithContract privateKey address
          ∈ (ZamaFauct.main w endpoints).effects →
        ∃ b, w.getBalance web3 address = some b ∧ 1000000000000000 ≤ b) ∧
    (∀ privateKey address,
      privateKey ∈ (ZamaFauct.readPrivateKeys w "evm_private.txt").value →
      w.privateKeyToAccount privateKey = some address →
      jsLength address = 42 →
      w.getBalance web3 address = some 1000000000000000 →
        Effect.enterInteractWithContract privateKey address
          ∈ (ZamaFauct.main w endpoints).effects) := by
  constructor
  · intro privateKey address hmem
    have h := fauct_main_effects_ok w endpoints web3 hconn _ hmem
    simpa [Spec.FaucetEffectOk] using h
  · intro privateKey address hkey hk hlen hbal
    have hne : (ZamaFauct.readPrivateKeys w "evm_private.txt").value.length ≠ 0 := by
      intro h0
      rw [List.length_eq_zero] at h0
      rw [h0] at hkey
      simp at hkey
    simp only [ZamaFauct.main, Run.effects_bind, Run.value_bind, hconn, hne, if_false,
      Run.effects_pure, List.append_nil]
    apply List.mem_append_right
    apply List.mem_append_right
    exact fauct_processKeys_includes w web3 _ _ privateKey
      (fun i s => fauct_processKey_enters w web3 _ i s privateKey address hk hlen hbal)
      _ hkey _ _

set_option maxRecDepth 8000 in
/-- C6 (amended) at a concrete input: the wallet of `thresholdWorld`, which
holds exactly 0.001 ETH. -/
theorem faucet_interacts_at_or_above_threshold_witness :
    (∃ b, thresholdWorld.getBalance "rpc" "0x220511f4fd6d898125f79aa8d4cb91bffe9df6db" = some b ∧
      1000000000000000 ≤ b) ∧
    Effect.enterInteractWithContract "K" "0x220511f4fd6d898125f79aa8d4cb91bffe9df6db"
      ∈ (ZamaFauct.main thresholdWorld ["rpc"]).effects :=
  have h := faucet_interacts_at_or_above_threshold thresholdWorld ["rpc"] "rpc" (by decide)
  have hrun := h.2 "K" "0x220511f4fd6d898125f79aa8d4cb91bffe9df6db" (by decide) (by decide)
    (by decide) (by decide)
  ⟨h.1 "K" "0x220511f4fd6d898125f79aa8d4cb91bffe9df6db" hrun, hrun⟩

/-! ## Token metadata and token balance -/

theorem hexDigit_toNat_le (c : Char) (h : (hexDigitValue c).isSome = true) : c.toNat ≤ 102 := by
  unfold hexDigitValue at h
  simp only at h
  split at h
  · omega
  · split at h
    · omega
    · split at h
      · omega
      · simp at h

theorem hexDigit_toNat_ge (c : Char) (h : (hexDigitValue c).isSome = true) : 48 ≤ c.toNat := by
  unfold hexDigitValue at h
  simp only at h
  split at h
  · omega
  · split at h
    · omega
    · split at h
      · omega
      · simp at h

theorem hexDigit_not_whiteSpace (c : Char) (h : (hexDigitValue c).isSome = true) :
    isJsWhiteSpace c = false := by
  have h1 := hexDigit_toNat_ge c h
  have h2 := hexDigit_toNat_le c h
  unfold isJsWhiteSpace
  simp only [Bool.or_eq_false_iff, Bool.and_eq_false_iff, beq_eq_false_iff_ne, ne_eq,
    decide_eq_false_iff_not]
  omega

theorem hexDigitValue_lt (c : Char) (v : Nat) (h : hexDigitValue c = some v) : v < 16 := by
  unfold hexDigitValue at h
  simp only at h
  split at h
  · have := Option.some.inj h; omega
  · split at h
    · have := Option.some.inj h; omega
    · split at h
      · have := Option.some.inj h; omega
      · simp at h

theorem digitsValue_hex (ds : List Char) (hhex : ∀ c ∈ ds, (hexDigitValue c).isSome = true) :
    ∀ acc, digitsValue 16 ds acc = some (acc * 16 ^ ds.length + Spec.hexWordValue ds) := by
  induction ds with
  | nil => intro acc; simp [digitsValue, Spec.hexWordValue]
  | cons c cs ih =>
    intro acc
    obtain ⟨v, hv⟩ := Option.isSome_iff_exists.mp (hhex c (by simp))
    have hlt := hexDigitValue_lt c v hv
    have ih2 := ih (fun x hx => hhex x (by simp [hx])) (16 * acc + v)
    have hw : Spec.hexWordValue (c :: cs) = Spec.hexWordValue cs + 16 ^ cs.length * v := by
      simp [Spec.hexWordValue, Nat.ofDigits_append, hv]
    simp only [digitsValue, digitValue, hv, hlt, if_true, ih2, hw, List.length_cons]
    congr 1
    ring

theorem trimChars_of_clean (l : List Char)
    (hhead : ∀ c, l.head? = some c → isJsWhiteSpace c = false)
    (hlast : ∀ c, l.getLast? = some c → isJsWhiteSpace c = false) : trimChars l = l := by
  have h1 : l.dropWhile isJsWhiteSpace = l := by
    cases l with
    | nil => rfl
    | cons a as =>
      have := hhead a rfl
      simp [List.dropWhile_cons, this]
  unfold trimChars
  rw [h1]
  have h2 : l.reverse.dropWhile isJsWhiteSpace = l.reverse := by
    cases hr : l.reverse with
    | nil => rfl
    | cons a as =>
      have hl : l.getLast? = some a := by
        rw [← List.head?_reverse, hr]; rfl
      have := hlast a hl
      simp [List.dropWhile_cons, this]
  rw [h2, List.reverse_reverse]

theorem jsBigInt_hexWord (ds : List Char) (hne : ds ≠ [])
    (hhex : ∀ c ∈ ds, (hexDigitValue c).isSome = true) :
    jsBigInt ("0x" ++ String.mk ds) = some (Int.ofNat (Spec.hexWordValue ds)) := by
  have hdata : ("0x" ++ String.mk ds).data = Char.ofNat 48 :: Char.ofNat 120 :: ds := by
    simp
  have htrim : trimChars (Char.ofNat 48 :: Char.ofNat 120 :: ds)
      = Char.ofNat 48 :: Char.ofNat 120 :: ds := by
    apply trimChars_of_clean
    · intro c hc
      simp at hc
      subst hc
      decide
    · intro c hc
      have hmem : c ∈ ds := by
        have : (Char.ofNat 48 :: Char.ofNat 120 :: ds).getLast? = ds.getLast? := by
          cases ds with
          | nil => exact absurd rfl hne
          | cons a as => simp [List.getLast?_cons_cons]
        rw [this] at hc
        exact List.mem_of_getLast?_eq_some hc
      exact hexDigit_not_whiteSpace c (hhex c hmem)
  unfold jsBigInt
  rw [hdata, htrim]
  cases ds with
  | nil => exact absurd rfl hne
  | cons a as =>
    have hd := digitsValue_hex (a :: as) hhex 0
    simp [numeral, hd]

/-- C7, as stated, fails: the `name()` call returns non-empty data that parses
to `USDC`, the `symbol()` call raises, and `getTokenInfo` returns the name
`Unknown Token` (not the parsed name, and not the default `Unknown`) without
sending the `decimals()` request; when the `name()` call itself raises the name
is `Unknown Token` as well. -/
theorem c7_failed_call_discards_other_fields :
    symbolFailsWorld.call "rpc" "0xc" "0x06fdde03" = some (some "0x55534443") ∧
    ZamaUsdcTokenBalance.asciiWithoutNul symbolFailsWorld "0x55534443" = some "USDC" ∧
    symbolFailsWorld.call "rpc" "0xc" "0x95d89b41" = none ∧
    (ZamaUsdcTokenBalance.getTokenInfo symbolFailsWorld "rpc" "0xc").value.name
      = "Unknown Token" ∧
    (ZamaUsdcTokenBalance.getTokenInfo symbolFailsWorld "rpc" "0xc").effects
      = [Effect.call "rpc" "0xc" "0x06fdde03", Effect.call "rpc" "0xc" "0x95d89b41"] ∧
    (ZamaUsdcTokenBalance.getTokenInfo deadWorld "rpc" "0xc").value.name = "Unknown Token" := by
  decide

/-- C7 (amended): when the three `eth_call` requests all return, the fields
`name`, `symbol` and `decimals` are resolved independently, each from its own
result: a missing or empty (`''`, `0x`) result gives the default (`Unknown`,
`UNK`, 18), non-empty data gives the value parsed from it (`hexToAscii` without
NUL characters, the default when `hexToAscii` raises; `parseInt(·, 16)` for the
decimals).  When any of the three requests raises, `getTokenInfo` returns the
name `Unknown Token`, the symbol `UNK` and 18 decimals, whatever the other
requests returned; and the requests after a failed one are not sent: the
requests are `name()`, then `symbol()` if `name()` returned, then `decimals()`
if `symbol()` returned as well. -/
theorem getTokenInfo_fields (w : World) (web3 contractAddress : String) :
    (∀ r1 r2 r3 : Option String,
      w.call web3 contractAddress "0x06fdde03" = some r1 →
      w.call web3 contractAddress "0x95d89b41" = some r2 →
      w.call web3 contractAddress "0x313ce567" = some r3 →
      (((r1 = none ∨ r1 = some "" ∨ r1 = some "0x") →
          (ZamaUsdcTokenBalance.getTokenInfo w web3 contractAddress).value.name = "Unknown") ∧
        (∀ s, r1 = some s → s ≠ "" → s ≠ "0x" →
          (ZamaUsdcTokenBalance.getTokenInfo w web3 contractAddress).value.name
            = (ZamaUsdcTokenBalance.asciiWithoutNul w s).getD "Unknown")) ∧
      (((r2 = none ∨ r2 = some "" ∨ r2 = some "0x") →
          (ZamaUsdcTokenBalance.getTokenInfo w web3 contractAddress).value.symbol = "UNK") ∧
        (∀ s, r2 = some s → s ≠ "" → s ≠ "0x" →
          (ZamaUsdcTokenBalance.getTokenInfo w web3 contractAddress).value.symbol
            = (ZamaUsdcTokenBalance.asciiWithoutNul w s).getD "UNK")) ∧
      (((r3 = none ∨ r3 = some "" ∨ r3 = some "0x") →
          (ZamaUsdcTokenBalance.getTokenInfo w web3 contractAddress).value.decimals
            = JsNumber.ofNat 18) ∧
        (∀ s, r3 = some s → s ≠ "" → s ≠ "0x" →
          (ZamaUsdcTokenBalance.getTokenInfo w web3 contractAddress).value.decimals
            = jsParseInt16 s))) ∧
    ((w.call web3 contractAddress "0x06fdde03" = none ∨
      w.call web3 contractAddress "0x95d89b41" = none ∨
      w.call web3 contractAddress "0x313ce567" = none) →
      (ZamaUsdcTokenBalance.getTokenInfo w web3 contractAddress).value
        = ⟨"Unknown Token", "UNK", JsNumber.ofNat 18⟩) ∧
    (w.call web3 contractAddress "0x06fdde03" = none →
      (ZamaUsdcTokenBalance.getTokenInfo w web3 contractAddress).effects
        = [Effect.call web3 contractAddress "0x06fdde03"]) ∧
    (∀ r1 : Option String,
      w.call web3 contractAddress "0x06fdde03" = some r1 →
      w.call web3 contractAddress "0x95d89b41" = none →
      (ZamaUsdcTokenBalance.getTokenInfo w web3 contractAddress).effects
        = [Effect.call web3 contractAddress "0x06fdde03",
            Effect.call web3 contractAddress "0x95d89b41"]) ∧
    (∀ r1 r2 : Option String,
      w.call web3 contractAddress "0x06fdde03" = some r1 →
      w.call web3 contractAddress "0x95d89b41" = some r2 →
      (ZamaUsdcTokenBalance.getTokenInfo w web3 contractAddress).effects
        = [Effect.call web3 contractAddress "0x06fdde03",
            Effect.call web3 contractAddress "0x95d89b41",
            Effect.call web3 contractAddress "0x313ce567"]) := by
  refine ⟨?_, ?_, ?_, ?_, ?_⟩
  · intro r1 r2 r3 h1 h2 h3
    refine ⟨⟨?_, ?_⟩, ⟨?_, ?_⟩, ⟨?_, ?_⟩⟩
    · intro h
      rcases h with h | h | h <;>
        simp [ZamaUsdcTokenBalance.getTokenInfo, h1, h2, h3, h, isTruthy]
    · intro s hs hne1 hne2
      simp [ZamaUsdcTokenBalance.getTokenInfo, h1, h2, h3, hs, isTruthy, hne1, hne2]
    · intro h
      rcases h with h | h | h <;>
        simp [ZamaUsdcTokenBalance.getTokenInfo, h1, h2, h3, h, isTruthy]
    · intro s hs hne1 hne2
      simp [ZamaUsdcTokenBalance.getTokenInfo, h1, h2, h3, hs, isTruthy, hne1, hne2]
    · intro h
      rcases h with h | h | h <;>
        simp [ZamaUsdcTokenBalance.getTokenInfo, h1, h2, h3, h, isTruthy]
    · intro s hs hne1 hne2
      simp [ZamaUsdcTokenBalance.getTokenInfo, h1, h2, h3, hs, isTruthy, hne1, hne2]
  · intro h
    unfold ZamaUsdcTokenBalance.getTokenInfo
    simp only [Run.value_bind, Run.value_pure]
    rcases h with h | h | h
    · simp [h]
    · rw [h]
      split <;> simp
    · rw [h]
      split
      · simp
      · split <;> simp
  · intro h1
    simp [ZamaUsdcTokenBalance.getTokenInfo, h1]
  · intro r1 h1 h2
    simp [ZamaUsdcTokenBalance.getTokenInfo, h1, h2]
  · intro r1 r2 h1 h2
    unfold ZamaUsdcTokenBalance.getTokenInfo
    simp only [Run.effects_bind, Run.effects_emit, Run.value_bind, h1, h2]
    split <;> simp

/-- C7 (amended) at concrete inputs: all three requests return in `tokenWorld`,
the `symbol()` request raises in `symbolFailsWorld` and the `decimals()` request
is not sent. -/
theorem getTokenInfo_fields_witness :
    (ZamaUsdcTokenBalance.getTokenInfo tokenWorld "rpc" "0xc").value.name
      = (ZamaUsdcTokenBalance.asciiWithoutNul tokenWorld "0x55534443").getD "Unknown" ∧
    (ZamaUsdcTokenBalance.getTokenInfo tokenWorld "rpc" "0xc").value.symbol = "UNK" ∧
    (ZamaUsdcTokenBalance.getTokenInfo tokenWorld "rpc" "0xc").value.decimals
      = jsParseInt16 "0x06" ∧
    (ZamaUsdcTokenBalance.getTokenInfo symbolFailsWorld "rpc" "0xc").value
      = ⟨"Unknown Token", "UNK", JsNumber.ofNat 18⟩ ∧
    (ZamaUsdcTokenBalance.getTokenInfo symbolFailsWorld "rpc" "0xc").effects
      = [Effect.call "rpc" "0xc" "0x06fdde03", Effect.call "rpc" "0xc" "0x95d89b41"] :=
  have h := (getTokenInfo_fields tokenWorld "rpc" "0xc").1 (some "0x55534443") (some "0x")
    (some "0x06") (by decide) (by decide) (by decide)
  ⟨h.1.2 "0x55534443" rfl (by decide) (by decide),
    h.2.1.1 (Or.inr (Or.inr rfl)),
    h.2.2.2 "0x06" rfl (by decide) (by decide),
    (getTokenInfo_fields symbolFailsWorld "rpc" "0xc").2.1 (Or.inr (Or.inl (by decide))),
    (getTokenInfo_fields symbolFailsWorld "rpc" "0xc").2.2.2.1 (some "0x55534443")
      (by decide) (by decide)⟩

/-- C8: when the `eth_call` raises, or its result is missing, empty or `0x`,
`getTokenBalance` returns the zero balance (raw `'0'`, formatted `0`); when the
result is `0x` followed by a non-empty run of hexadecimal digits, `raw` is the
decimal string of the unsigned integer that the run denotes.  The function is
total: it returns in every case. -/
theorem getTokenBalance_zero_or_decimal (w : World) (web3 contractAddress holderAddress : String)
    (decimals : JsNumber) :
    ((w.call web3 contractAddress (ZamaUsdcTokenBalance.balanceOfCallData holderAddress) = none ∨
      w.call web3 contractAddress (ZamaUsdcTokenBalance.balanceOfCallData holderAddress)
        = some none ∨
      w.call web3 contractAddress (ZamaUsdcTokenBalance.balanceOfCallData holderAddress)
        = some (some "") ∨
      w.call web3 contractAddress (ZamaUsdcTokenBalance.balanceOfCallData holderAddress)
        = some (some "0x")) →
      (ZamaUsdcTokenBalance.getTokenBalance w web3 contractAddress holderAddress decimals).value
        = ⟨"0", JsNumber.zero⟩) ∧
    (∀ ds : List Char, ds ≠ [] → (∀ c ∈ ds, (hexDigitValue c).isSome = true) →
      w.call web3 contractAddress (ZamaUsdcTokenBalance.balanceOfCallData holderAddress)
        = some (some ("0x" ++ String.mk ds)) →
      (ZamaUsdcTokenBalance.getTokenBalance w web3 contractAddress holderAddress
        decimals).value.raw = toString (Spec.hexWordValue ds)) := by
  constructor
  · intro h
    rcases h with h | h | h | h <;>
      simp [ZamaUsdcTokenBalance.getTokenBalance, h, isTruthy]
  · intro ds hne hhex h
    have hbig := jsBigInt_hexWord ds hne hhex
    have hne2 : ¬ ("0x" ++ String.mk ds = "0x") := by
      intro heq
      have := congrArg String.data heq
      simp at this
      exact hne this
    have hne3 : ¬ ("0x" ++ String.mk ds = "") := by
      intro heq
      have := congrArg String.length heq
      simp at this
      exact hne this.2
    simp [ZamaUsdcTokenBalance.getTokenBalance, h, isTruthy, hne2, hne3, hbig]
    rfl

/-- C8 at concrete inputs: a dead node, and a node that answers `0x0f4240`. -/
theorem getTokenBalance_zero_or_decimal_witness :
    (ZamaUsdcTokenBalance.getTokenBalance deadWorld "rpc" "0xc" "0xa" (JsNumber.ofNat 18)).value
      = ⟨"0", JsNumber.zero⟩ ∧
    (ZamaUsdcTokenBalance.getTokenBalance tokenWorld "rpc" "0xc" "0xa"
      (JsNumber.ofNat 6)).value.raw = toString (Spec.hexWordValue "0f4240".data) ∧
    toString (Spec.hexWordValue "0f4240".data) = "1000000" :=
  ⟨(getTokenBalance_zero_or_decimal deadWorld "rpc" "0xc" "0xa" (JsNumber.ofNat 18)).1
      (Or.inl rfl),
    (getTokenBalance_zero_or_decimal tokenWorld "rpc" "0xc" "0xa" (JsNumber.ofNat 6)).2
      "0f4240".data (by decide) (by decide) (by decide),
    by decide⟩

/-! ## Call data of balanceOf -/

theorem toLower_small_table : ∀ n, n < 103 → (Char.ofNat n).toLower.toNat < 0x10000 := by
  decide

theorem toLower_toNat_small (c : Char) (h : (hexDigitValue c).isSome = true) :
    c.toLower.toNat < 0x10000 := by
  have h1 := toLower_small_table c.toNat (by have := hexDigit_toNat_le c h; omega)
  rwa [Char.ofNat_toNat] at h1

theorem utf16Length_lower_hex (ds : List Char) (h : ∀ c ∈ ds, (hexDigitValue c).isSome = true) :
    utf16Length (jsToLowerCase ds) = ds.length := by
  induction ds with
  | nil => rfl
  | cons c cs ih =>
    have hc := toLower_toNat_small c (h c (by simp))
    have ih2 := ih (fun x hx => h x (by simp [hx]))
    simp only [utf16Length, jsToLowerCase, List.map_cons, List.sum_cons, List.length_cons] at ih2 ⊢
    rw [if_pos hc, ih2]
    omega

theorem utf16Length_append (a b : List Char) :
    utf16Length (a ++ b) = utf16Length a + utf16Length b := by
  simp [utf16Length]

theorem getTokenBalance_effects (w : World) (web3 contractAddress holderAddress : String)
    (decimals : JsNumber) :
    (ZamaUsdcTokenBalance.getTokenBalance w web3 contractAddress holderAddress decimals).effects
      = [Effect.call web3 contractAddress
          (ZamaUsdcTokenBalance.balanceOfCallData holderAddress)] := by
  unfold ZamaUsdcTokenBalance.getTokenBalance
  simp only [Run.effects_bind, Run.effects_emit]
  split
  · simp
  · split
    · split <;> simp
    · simp

theorem removeFirst0x_address (ds : List Char) :
    removeFirst0x ("0x".data ++ ds) = ds := by
  show removeFirst0x (Char.ofNat 48 :: Char.ofNat 120 :: ds) = ds
  simp [removeFirst0x]

/-- C9: for every holder address `0x` followed by 40 hexadecimal digits, the
call data that `getTokenBalance` builds and sends is the selector `0x70a08231`
followed by 24 zero characters and the 40 digits in lower case: 74 characters
in all, 64 of them after the selector. -/
theorem balanceOf_calldata_layout (w : World) (web3 contractAddress : String)
    (decimals : JsNumber) (ds : List Char)
    (hlen : ds.length = 40) (hhex : ∀ c ∈ ds, (hexDigitValue c).isSome = true) :
    ZamaUsdcTokenBalance.balanceOfCallData ("0x" ++ String.mk ds)
      = "0x70a08231" ++ String.mk (List.replicate 24 (Char.ofNat 48) ++ ds.map Char.toLower) ∧
    (List.replicate 24 (Char.ofNat 48) ++ ds.map Char.toLower).length = 64 ∧
    (ZamaUsdcTokenBalance.balanceOfCallData ("0x" ++ String.mk ds)).length = 74 ∧
    jsLength (ZamaUsdcTokenBalance.balanceOfCallData ("0x" ++ String.mk ds)) = 74 ∧
    (ZamaUsdcTokenBalance.getTokenBalance w web3 contractAddress ("0x" ++ String.mk ds)
        decimals).effects
      = [Effect.call web3 contractAddress
          ("0x70a08231" ++
            String.mk (List.replicate 24 (Char.ofNat 48) ++ ds.map Char.toLower))] := by
  have hdata : ZamaUsdcTokenBalance.balanceOfCallData ("0x" ++ String.mk ds)
      = "0x70a08231" ++ String.mk (List.replicate 24 (Char.ofNat 48) ++ ds.map Char.toLower) := by
    unfold ZamaUsdcTokenBalance.balanceOfCallData padStart64
    have h1 : ("0x" ++ String.mk ds).data = "0x".data ++ ds := by simp
    rw [h1, removeFirst0x_address, utf16Length_lower_hex ds hhex, hlen]
    rfl
  refine ⟨hdata, by simp [hlen], ?_, ?_, ?_⟩
  · rw [hdata, String.length_append]
    have h10 : "0x70a08231".length = 10 := by decide
    rw [h10]
    show 10 + (List.replicate 24 (Char.ofNat 48) ++ ds.map Char.toLower).length = 74
    simp [hlen]
  · rw [hdata]
    unfold jsLength
    rw [String.data_append, utf16Length_append, utf16Length_append]
    have h10 : utf16Length "0x70a08231".data = 10 := by decide
    have h24 : utf16Length (List.replicate 24 (Char.ofNat 48)) = 24 := by decide
    have h40 := utf16Length_lower_hex ds hhex
    unfold jsToLowerCase at h40
    rw [h10, h24, h40, hlen]
  · rw [getTokenBalance_effects, hdata]

/-- C9 at a concrete input: the target address of the sweep script, its letters in
upper case. -/
theorem balanceOf_calldata_layout_witness :
    ZamaUsdcTokenBalance.balanceOfCallData
        ("0x" ++ String.mk "220511F4FD6D898125F79AA8D4CB91BFFE9DF6DB".data)
      = "0x70a08231" ++ String.mk (List.replicate 24 (Char.ofNat 48) ++
          "220511F4FD6D898125F79AA8D4CB91BFFE9DF6DB".data.map Char.toLower) ∧
    (ZamaUsdcTokenBalance.balanceOfCallData
        ("0x" ++ String.mk "220511F4FD6D898125F79AA8D4CB91BFFE9DF6DB".data)).length = 74 :=
  have h := balanceOf_calldata_layout deadWorld "rpc" "0xc" (JsNumber.ofNat 18)
    "220511F4FD6D898125F79AA8D4CB91BFFE9DF6DB".data (by decide) (by decide)
  ⟨h.1, h.2.2.1⟩

/-! ## Gas estimate of the sweep script -/

/-- C10: `estimateTransferGas` returns the limit `L` of a successful estimate
and 21000 when the estimate request raises, and in both cases `totalGasCost` is
exactly the product `gasLimit * currentGasPrice` of natural numbers. -/
theorem estimateTransferGas_limit_and_cost (w : World) (web3 : String) (currentGasPrice : Nat)
    (fromAddress toAddress : String) (amount : Int) :
    (GetEthBalance.estimateTransferGas w web3 currentGasPrice fromAddress toAddress
        amount).value.gasLimit
      = (w.estimateGas web3 fromAddress toAddress amount none).getD 21000 ∧
    (GetEthBalance.estimateTransferGas w web3 currentGasPrice fromAddress toAddress
        amount).value.totalGasCost
      = (GetEthBalance.estimateTransferGas w web3 currentGasPrice fromAddress toAddress
          amount).value.gasLimit * currentGasPrice := by
  unfold GetEthBalance.estimateTransferGas
  cases h : w.estimateGas web3 fromAddress toAddress amount none <;> simp

/-! ## The margin of the faucet gas estimate (C11) -/

theorem zpow_of_toNat (s : Int) (h : 0 ≤ s) : (2 : ℚ) ^ s = ((2 ^ s.toNat : ℕ) : ℚ) := by
  have h2 : (s.toNat : Int) = s := Int.toNat_of_nonneg h
  push_cast
  rw [← zpow_natCast, h2]

theorem zpow_of_neg_toNat (s : Int) (h : s ≤ 0) :
    (2 : ℚ) ^ s = 1 / ((2 ^ (-s).toNat : ℕ) : ℚ) := by
  have h2 : ((-s).toNat : Int) = -s := Int.toNat_of_nonneg (by omega)
  push_cast
  rw [← zpow_natCast, h2, zpow_neg, one_div, inv_inv]

theorem ceil_le_iff (a : Dbl) (k : Nat) : Dbl.ceil a ≤ k ↔ a.toRat ≤ (k : ℚ) := by
  unfold Dbl.ceil Dbl.toRat
  by_cases h : 0 ≤ a.exp
  · rw [if_pos h, zpow_of_toNat a.exp h]
    constructor
    · intro hle
      exact_mod_cast hle
    · intro hle
      exact_mod_cast hle
  · rw [if_neg h, zpow_of_neg_toNat a.exp (by omega)]
    have hP : 0 < 2 ^ (-a.exp).toNat := by positivity
    have hPq : (0 : ℚ) < ((2 ^ (-a.exp).toNat : ℕ) : ℚ) := by exact_mod_cast hP
    rw [Nat.div_le_iff_le_mul_add_pred hP, mul_one_div, div_le_iff₀ hPq]
    generalize 2 ^ (-a.exp).toNat = P at hP hPq
    constructor
    · intro hle
      have h1 : a.mant ≤ k * P := by
        have : P * k = k * P := Nat.mul_comm _ _
        omega
      exact_mod_cast h1
    · intro hle
      have h1 : a.mant ≤ k * P := by exact_mod_cast hle
      have : P * k = k * P := Nat.mul_comm _ _
      omega

theorem ceil_eq_of_bounds (a : Dbl) (c : Nat) (hle : a.toRat ≤ ((c + 1 : ℕ) : ℚ))
    (hgt : (c : ℚ) < a.toRat) : Dbl.ceil a = c + 1 := by
  have h1 : Dbl.ceil a ≤ c + 1 := (ceil_le_iff a (c + 1)).mpr hle
  have h2 : ¬ Dbl.ceil a ≤ c := fun h => absurd ((ceil_le_iff a c).mp h) (not_le.mpr hgt)
  omega

theorem roundHalfEven_le_of (num den C : Nat) (h : 2 * num < (2 * C + 1) * den) :
    roundHalfEven num den ≤ C := by
  have hden : 0 < den := by
    rcases Nat.eq_zero_or_pos den with h0 | h0
    · rw [h0] at h; simp at h
    · exact h0
  have e1 : den * (num / den) + num % den = num := Nat.div_add_mod num den
  have hr : num % den < den := Nat.mod_lt _ hden
  obtain ⟨hb, hb'⟩ := roundHalfEven_bounds num den
  rcases Nat.lt_or_ge (num / den) C with hlt | hge
  · omega
  · have hq : num / den = C := by
      by_contra hne
      have h3 : C + 1 ≤ num / den := by omega
      have h4 : den * (C + 1) ≤ den * (num / den) := Nat.mul_le_mul_left den h3
      have h5 : (2 * C + 1) * den = 2 * (den * C) + den := by ring
      have h6 : den * (C + 1) = den * C + den := by ring
      omega
    have h5 : (2 * C + 1) * den = 2 * (den * C) + den := by ring
    have h2r : 2 * (num % den) < den := by
      rw [hq] at e1
      omega
    unfold roundHalfEven
    simp only [h2r, if_true]
    omega

theorem roundHalfEven_ge_of (num den C : Nat) (hden : 0 < den)
    (h : (2 * C + 1) * den < 2 * num) : C + 1 ≤ roundHalfEven num den := by
  have e1 : den * (num / den) + num % den = num := Nat.div_add_mod num den
  have hr : num % den < den := Nat.mod_lt _ hden
  obtain ⟨hb, hb'⟩ := roundHalfEven_bounds num den
  have h5 : (2 * C + 1) * den = 2 * (den * C) + den := by ring
  rcases Nat.lt_or_ge C (num / den) with hlt | hge
  · omega
  · have hq : num / den = C := by
      by_contra hne
      have h3 : num / den + 1 ≤ C := by omega
      have h4 : den * (num / den + 1) ≤ den * C := Nat.mul_le_mul_left den h3
      have h6 : den * (num / den + 1) = den * (num / den) + den := by ring
      omega
    have h2r : den < 2 * (num % den) := by
      rw [hq] at e1
      omega
    have h2r' : ¬ 2 * (num % den) < den := by omega
    unfold roundHalfEven
    simp only [h2r, h2r', if_true, if_false]
    omega

theorem roundRat_congr (n1 d1 n2 d2 : Nat) (hd1 : 0 < d1) (hd2 : 0 < d2)
    (h : n1 * d2 = n2 * d1) : (roundRat n1 d1).toRat = (roundRat n2 d2).toRat :=
  le_antisymm (roundRat_mono n1 d1 n2 d2 hd1 hd2 h.le)
    (roundRat_mono n2 d2 n1 d1 hd2 hd1 h.ge)

theorem roundHalfEven_one (n : Nat) : roundHalfEven n 1 = n := by
  unfold roundHalfEven
  simp [Nat.mod_one]

theorem binade_lt_of_lt (n d : Nat) (hn : 0 < n) (hd : 0 < d) (k : Int)
    (h : (n : ℚ) / (d : ℚ) < (2 : ℚ) ^ k) : binade n d < k := by
  obtain ⟨hlo, _⟩ := binade_spec n d hn hd
  have hlt : (2 : ℚ) ^ binade n d < (2 : ℚ) ^ k := lt_of_le_of_lt hlo h
  exact (zpow_lt_zpow_iff_right₀ (by norm_num : (1 : ℚ) < 2)).mp hlt

theorem ofNat_toRat (e : Nat) (he : e < 2 ^ 53) : (Dbl.ofNat e).toRat = (e : ℚ) := by
  rcases Nat.eq_zero_or_pos e with h0 | hpos
  · rw [h0]
    simp [Dbl.ofNat, roundRat_zero]
  · unfold Dbl.ofNat
    rw [roundRat_toRat e 1 hpos]
    have hb : binade e 1 < 53 := by
      apply binade_lt_of_lt e 1 hpos Nat.one_pos
      have h : (e : ℚ) < (2 : ℚ) ^ (53 : ℕ) := by exact_mod_cast he
      rw [Nat.cast_one, div_one]
      exact_mod_cast h
    have hs : binade e 1 - 52 ≤ 0 := by omega
    have hs0 : (binade e 1 - 52).toNat = 0 := by omega
    have hden : scaleDen 1 (binade e 1 - 52) = 1 := by
      unfold scaleDen
      rw [hs0]
      rfl
    rw [hden, roundHalfEven_one, zpow_of_neg_toNat _ hs]
    unfold scaleNum
    have hP : ((2 ^ (-(binade e 1 - 52)).toNat : ℕ) : ℚ) ≠ 0 := by positivity
    push_cast
    push_cast at hP
    field_simp

theorem lit_1_05_toRat : lit_1_05.toRat = (4728779608739021 : ℚ) / (4503599627370496 : ℚ) := by
  have h : lit_1_05 = ⟨4728779608739021, -52⟩ := by decide
  rw [h]
  unfold Dbl.toRat
  norm_num

theorem mul_toRat (a b : Dbl) (n d : Nat) (hd : 0 < d)
    (h : a.toRat * b.toRat = (n : ℚ) / (d : ℚ)) :
    (Dbl.mul a b).toRat = (roundRat n d).toRat := by
  unfold Dbl.mul Dbl.roundDyadic
  apply roundRat_congr _ _ _ _ (by positivity) hd
  have hdq : (d : ℚ) ≠ 0 := by exact_mod_cast hd.ne'
  have hp : (2 : ℚ) ^ (-(a.exp + b.exp)).toNat ≠ 0 := by positivity
  have h2 : (2 : ℚ) ≠ 0 := by norm_num
  have hq : ((a.mant * b.mant * 2 ^ (a.exp + b.exp).toNat : ℕ) : ℚ) * (d : ℚ)
      = (n : ℚ) * ((2 ^ (-(a.exp + b.exp)).toNat : ℕ) : ℚ) := by
    unfold Dbl.toRat at h
    have h3 := two_zpow_toNat (a.exp + b.exp)
    rw [zpow_add₀ h2] at h3
    push_cast
    generalize (2 : ℚ) ^ (a.exp + b.exp).toNat = X at h3
    generalize (2 : ℚ) ^ (-(a.exp + b.exp)).toNat = Y at h3 hp
    have h4 : ((a.mant : ℚ) * (b.mant : ℚ) * X) / Y = (n : ℚ) / (d : ℚ) := by
      rw [mul_div_assoc, h3, ← h]
      ring
    exact (div_eq_div_iff hp hdq).mp h4
  exact_mod_cast hq

theorem margin_round (e : Nat) (hpos : 0 < e) (he : e < 2 ^ 48) :
    (roundRat (e * 4728779608739021) 4503599627370496).toRat
        ≤ (((e * 105 + 99) / 100 - 1 + 1 : ℕ) : ℚ) ∧
    ((((e * 105 + 99) / 100 - 1 : ℕ)) : ℚ)
      < (roundRat (e * 4728779608739021) 4503599627370496).toRat := by
  have hn : 0 < e * 4728779608739021 := by positivity
  have hd : 0 < 4503599627370496 := by norm_num
  have he' : e < 281474976710656 := by
    have : (2 : ℕ) ^ 48 = 281474976710656 := by norm_num
    omega
  have hb : binade (e * 4728779608739021) 4503599627370496 < 49 := by
    apply binade_lt_of_lt _ _ hn hd
    rw [div_lt_iff₀ (by norm_num)]
    have h1 : e * 4728779608739021 < 2 ^ 49 * 4503599627370496 := by
      have : (2 : ℕ) ^ 49 = 562949953421312 := by norm_num
      omega
    have h2 : ((e * 4728779608739021 : ℕ) : ℚ)
        < ((2 ^ 49 * 4503599627370496 : ℕ) : ℚ) := by exact_mod_cast h1
    have h3 : (2 : ℚ) ^ (49 : ℤ) = ((2 ^ 49 : ℕ) : ℚ) := by norm_num
    rw [h3]
    exact_mod_cast h1
  rw [roundRat_toRat _ _ hn]
  generalize hbdef : binade (e * 4728779608739021) 4503599627370496 = b at hb
  have hs : b - 52 ≤ 0 := by omega
  have hs0 : (b - 52).toNat = 0 := by omega
  have ht : 4 ≤ (-(b - 52)).toNat := by omega
  have hP16 : 16 ≤ 2 ^ (-(b - 52)).toNat := by
    calc 16 = 2 ^ 4 := by norm_num
      _ ≤ 2 ^ (-(b - 52)).toNat := Nat.pow_le_pow_right (by norm_num) ht
  have hupper : scaleNum (e * 4728779608739021) (b - 52)
      < 2 ^ 53 * scaleDen 4503599627370496 (b - 52) := by
    rw [scale_lt_iff _ _ _ _ hd]
    obtain ⟨_, hhi⟩ := binade_spec (e * 4728779608739021) 4503599627370496 hn hd
    rw [hbdef] at hhi
    have h2 : (2 : ℚ) ≠ 0 := by norm_num
    have hc : (((2 ^ 53 : ℕ) : ℚ)) * (2 : ℚ) ^ (b - 52) = (2 : ℚ) ^ (b + 1) := by
      have hc' : (((2 ^ 53 : ℕ) : ℚ)) = (2 : ℚ) ^ (53 : ℤ) := by norm_num
      rw [hc', ← zpow_add₀ h2]
      congr 1
      ring
    rw [hc]
    exact hhi
  have hden : scaleDen 4503599627370496 (b - 52) = 4503599627370496 := by
    unfold scaleDen
    rw [hs0]
    norm_num
  rw [hden] at hupper ⊢
  rw [zpow_of_neg_toNat _ hs]
  unfold scaleNum at hupper ⊢
  generalize 2 ^ (-(b - 52)).toNat = P at hP16 hupper ⊢
  have hPq : (0 : ℚ) < (P : ℚ) := by
    have : 0 < P := by omega
    exact_mod_cast this
  obtain ⟨A, hA⟩ : ∃ A, A = e * P := ⟨_, rfl⟩
  obtain ⟨c1, hc1⟩ : ∃ c1, c1 = (e * 105 + 99) / 100 - 1 := ⟨_, rfl⟩
  obtain ⟨C1, hC1⟩ : ∃ C1, C1 = c1 * P := ⟨_, rfl⟩
  have hnum : e * 4728779608739021 * P = 4728779608739021 * A := by rw [hA]; ring
  have h53 : (2 : ℕ) ^ 53 = 9007199254740992 := by norm_num
  rw [hnum, h53] at hupper
  rw [hnum, ← hc1]
  have hlo : 21 * e ≤ 20 * (c1 + 1) := by omega
  have hhi : 20 * (c1 + 1) ≤ 21 * e + 19 := by omega
  have hlo' : 21 * A ≤ 20 * C1 + 20 * P := by
    have := Nat.mul_le_mul_right P hlo
    have e1 : 21 * e * P = 21 * A := by rw [hA]; ring
    have e2 : 20 * (c1 + 1) * P = 20 * C1 + 20 * P := by rw [hC1]; ring
    omega
  have hhi' : 20 * C1 + 20 * P ≤ 21 * A + 19 * P := by
    have := Nat.mul_le_mul_right P hhi
    have e1 : (21 * e + 19) * P = 21 * A + 19 * P := by rw [hA]; ring
    have e2 : 20 * (c1 + 1) * P = 20 * C1 + 20 * P := by rw [hC1]; ring
    omega
  have hU : roundHalfEven (4728779608739021 * A) 4503599627370496 ≤ C1 + P := by
    apply roundHalfEven_le_of
    omega
  have hL : C1 + 1 ≤ roundHalfEven (4728779608739021 * A) 4503599627370496 := by
    apply roundHalfEven_ge_of _ _ _ hd
    omega
  generalize roundHalfEven (4728779608739021 * A) 4503599627370496 = m at hU hL
  constructor
  · rw [mul_one_div, div_le_iff₀ hPq]
    have : m ≤ (c1 + 1) * P := by
      have e2 : (c1 + 1) * P = C1 + P := by rw [hC1]; ring
      omega
    exact_mod_cast this
  · rw [mul_one_div, lt_div_iff₀ hPq]
    have : c1 * P < m := by
      rw [← hC1]
      omega
    exact_mod_cast this

theorem contractGasLimit_eq (e : Nat) (he : e < 2 ^ 48) :
    Dbl.ceil (Dbl.mul (Dbl.ofNat e) lit_1_05) = (e * 105 + 99) / 100 := by
  rcases Nat.eq_zero_or_pos e with h0 | hpos
  · rw [h0]
    decide
  · have he53 : e < 2 ^ 53 := lt_trans he (by norm_num)
    have hmul : (Dbl.mul (Dbl.ofNat e) lit_1_05).toRat
        = (roundRat (e * 4728779608739021) 4503599627370496).toRat := by
      apply mul_toRat _ _ _ _ (by norm_num)
      rw [ofNat_toRat e he53, lit_1_05_toRat]
      push_cast
      ring
    obtain ⟨hle, hgt⟩ := margin_round e hpos he
    rw [← hmul] at hle hgt
    have hc : (e * 105 + 99) / 100 = (e * 105 + 99) / 100 - 1 + 1 := by omega
    rw [hc]
    exact ceil_eq_of_bounds _ _ hle hgt

theorem ceil_margin (e : Nat) : ⌈(e : ℚ) * 105 / 100⌉₊ = (e * 105 + 99) / 100 := by
  rcases Nat.eq_zero_or_pos e with h0 | hpos
  · rw [h0]
    simp
  · have hne : (e * 105 + 99) / 100 ≠ 0 := by omega
    rw [Nat.ceil_eq_iff hne]
    constructor
    · rw [lt_div_iff₀ (by norm_num)]
      have h : ((e * 105 + 99) / 100 - 1) * 100 < e * 105 := by omega
      exact_mod_cast h
    · rw [div_le_iff₀ (by norm_num)]
      have h : e * 105 ≤ (e * 105 + 99) / 100 * 100 := by omega
      exact_mod_cast h

theorem estimateContractGas_of_estimate (w : World) (web3 fromAddress functionData : String)
    (hdata : ZamaFauct.generateFunctionData w fromAddress = some functionData)
    (result : Option Nat)
    (hest : w.estimateGas web3 fromAddress ZamaFauct.CONTRACT_ADDRESS 0 (some functionData)
      = result) :
    (ZamaFauct.estimateContractGas w web3 fromAddress).value
      = match result with
        | some e => Dbl.ceil (Dbl.mul (Dbl.ofNat e) lit_1_05)
        | none => 100000 := by
  unfold ZamaFauct.estimateContractGas
  rw [hdata]
  simp only [Run.value_bind, hest]
  cases result <;> rfl

set_option maxRecDepth 20000 in
/-- C11 (as stated, refuted for a large estimate): in `hugeGasWorld` the
estimate is `e = 2 ^ 50 + 17 = 1125899906842641`; `estimateContractGas` returns
1182194902184773, whereas `ceil(e × 105 / 100)` is 1182194902184774. -/
theorem c11_margin_rounds_below_exact_ceiling :
    ZamaFauct.generateFunctionData hugeGasWorld "0x220511f4fd6d898125f79aa8d4cb91bffe9df6db"
      = some ("0x6a627842000000000000000000000000"
          ++ "220511f4fd6d898125f79aa8d4cb91bffe9df6db") ∧
    hugeGasWorld.estimateGas "rpc" "0x220511f4fd6d898125f79aa8d4cb91bffe9df6db"
      ZamaFauct.CONTRACT_ADDRESS 0
      (some ("0x6a627842000000000000000000000000"
          ++ "220511f4fd6d898125f79aa8d4cb91bffe9df6db")) = some 1125899906842641 ∧
    (ZamaFauct.estimateContractGas hugeGasWorld "rpc"
      "0x220511f4fd6d898125f79aa8d4cb91bffe9df6db").value = 1182194902184773 ∧
    (1125899906842641 * 105 + 99) / 100 = 1182194902184774 ∧
    (ZamaFauct.estimateContractGas hugeGasWorld "rpc"
      "0x220511f4fd6d898125f79aa8d4cb91bffe9df6db").value
        ≠ (1125899906842641 * 105 + 99) / 100 :=
  ⟨by decide, by decide, by decide, by decide, by decide⟩

/-- C11 (amended): for every successful estimate `e`, `estimateContractGas`
returns `Math.ceil(Number(e) * 1.05)` computed in double precision; for every
successful estimate `e` below `2 ^ 48` this is the estimate increased by the 5%
margin and rounded up to an integer, `ceil(e × 105 / 100)`, so it is at least
`e`; when the estimate request raises, or `generateFunctionData` rejects the
address, the returned gas limit is the default 100000 with no margin (and in the
second case no request is sent). -/
theorem estimateContractGas_margin (w : World) (web3 fromAddress : String) :
    (∀ functionData e,
      ZamaFauct.generateFunctionData w fromAddress = some functionData →
      w.estimateGas web3 fromAddress ZamaFauct.CONTRACT_ADDRESS 0 (some functionData)
        = some e →
        (ZamaFauct.estimateContractGas w web3 fromAddress).value
          = Dbl.ceil (Dbl.mul (Dbl.ofNat e) lit_1_05) ∧
        (e < 2 ^ 48 →
          (ZamaFauct.estimateContractGas w web3 fromAddress).value = (e * 105 + 99) / 100 ∧
          (ZamaFauct.estimateContractGas w web3 fromAddress).value
            = ⌈(e : ℚ) * 105 / 100⌉₊ ∧
          e ≤ (ZamaFauct.estimateContractGas w web3 fromAddress).value)) ∧
    (∀ functionData,
      ZamaFauct.generateFunctionData w fromAddress = some functionData →
      w.estimateGas web3 fromAddress ZamaFauct.CONTRACT_ADDRESS 0 (some functionData) = none →
        (ZamaFauct.estimateContractGas w web3 fromAddress).value = 100000) ∧
    (ZamaFauct.generateFunctionData w fromAddress = none →
      ZamaFauct.estimateContractGas w web3 fromAddress = ⟨100000, []⟩) := by
  refine ⟨?_, ?_, ?_⟩
  · intro functionData e hdata hest
    have hval := estimateContractGas_of_estimate w web3 fromAddress functionData hdata
      (some e) hest
    refine ⟨hval, ?_⟩
    intro he
    have hc := contractGasLimit_eq e he
    rw [hval]
    simp only
    refine ⟨hc, ?_, ?_⟩
    · rw [hc, ceil_margin]
    · rw [hc]
      omega
  · intro functionData hdata hest
    exact estimateContractGas_of_estimate w web3 fromAddress functionData hdata none hest
  · intro hdata
    unfold ZamaFauct.estimateContractGas
    rw [hdata]
    rfl

/-- C11 at concrete inputs: in `marginWorld` the estimate 21000 gives the gas
limit 22050; in `deadWorld` the address is rejected and the limit is 100000. -/
theorem estimateContractGas_margin_witness :
    ((ZamaFauct.estimateContractGas marginWorld "rpc"
        "0x220511f4fd6d898125f79aa8d4cb91bffe9df6db").value = (21000 * 105 + 99) / 100 ∧
      (ZamaFauct.estimateContractGas marginWorld "rpc"
        "0x220511f4fd6d898125f79aa8d4cb91bffe9df6db").value
          = ⌈((21000 : ℕ) : ℚ) * 105 / 100⌉₊ ∧
      21000 ≤ (ZamaFauct.estimateContractGas marginWorld "rpc"
        "0x220511f4fd6d898125f79aa8d4cb91bffe9df6db").value) ∧
    (21000 * 105 + 99) / 100 = 22050 ∧
    ZamaFauct.estimateContractGas deadWorld "rpc" "0x220511f4fd6d898125f79aa8d4cb91bffe9df6db"
      = ⟨100000, []⟩ :=
  ⟨((estimateContractGas_margin marginWorld "rpc"
        "0x220511f4fd6d898125f79aa8d4cb91bffe9df6db").1
      ("0x6a627842000000000000000000000000" ++ "220511f4fd6d898125f79aa8d4cb91bffe9df6db")
      21000 (by decide) (by decide)).2 (by decide),
    by decide,
    (estimateContractGas_margin deadWorld "rpc"
      "0x220511f4fd6d898125f79aa8d4cb91bffe9df6db").2.2 (by decide)⟩

/-! ## The loops, iteration by iteration -/

namespace Run

theorem bind_assoc {α β γ : Type} (x : Run α) (f : α → Run β) (g : β → Run γ) :
    (x >>= f) >>= g = x >>= fun a => f a >>= g := by
  apply Run.ext
  · simp
  · simp [List.append_assoc]

theorem pure_bind {α β : Type} (a : α) (f : α → Run β) : (pure a : Run α) >>= f = f a := by
  apply Run.ext <;> simp

end Run

theorem sweep_processKeys_append (w : World) (web3 : String) (p : Nat) (l1 l2 : List String) :
    ∀ s, GetEthBalance.processKeys w web3 p s (l1 ++ l2)
      = GetEthBalance.processKeys w web3 p s l1 >>= fun s1 =>
          GetEthBalance.processKeys w web3 p s1 l2 := by
  induction l1 with
  | nil => intro s; simp [GetEthBalance.processKeys, Run.pure_bind]
  | cons k ks ih =>
    intro s
    simp only [List.cons_append, GetEthBalance.processKeys, Run.bind_assoc]
    congr 1
    funext s1
    exact ih s1

theorem fauct_processKeys_append (w : World) (web3 : String) (total : Nat)
    (l1 l2 : List String) :
    ∀ i s, ZamaFauct.processKeys w web3 total i s (l1 ++ l2)
      = ZamaFauct.processKeys w web3 total i s l1 >>= fun s1 =>
          ZamaFauct.processKeys w web3 total (i + l1.length) s1 l2 := by
  induction l1 with
  | nil => intro i s; simp [ZamaFauct.processKeys, Run.pure_bind]
  | cons k ks ih =>
    intro i s
    simp only [List.cons_append, ZamaFauct.processKeys, Run.bind_assoc, List.length_cons]
    congr 1
    funext s1
    have h := ih (i + 1) s1
    rw [show i + (ks.length + 1) = i + 1 + ks.length by omega]
    exact h

theorem usdc_processKeys_append (w : World) (web3 : String)
    (tokenInfo : ZamaUsdcTokenBalance.TokenInfo) (total : Nat) (l1 l2 : List String) :
    ∀ i s, ZamaUsdcTokenBalance.processKeys w web3 tokenInfo total i s (l1 ++ l2)
      = ZamaUsdcTokenBalance.processKeys w web3 tokenInfo total i s l1 >>= fun s1 =>
          ZamaUsdcTokenBalance.processKeys w web3 tokenInfo total (i + l1.length) s1 l2 := by
  induction l1 with
  | nil => intro i s; simp [ZamaUsdcTokenBalance.processKeys, Run.pure_bind]
  | cons k ks ih =>
    intro i s
    simp only [List.cons_append, ZamaUsdcTokenBalance.processKeys, Run.bind_assoc,
      List.length_cons]
    congr 1
    funext s1
    have h := ih (i + 1) s1
    rw [show i + (ks.length + 1) = i + 1 + ks.length by omega]
    exact h

theorem sweep_processKey_malformed (w : World) (web3 : String) (p : Nat)
    (s : GetEthBalance.Summary) (key : String) (hbad : w.privateKeyToAccount key = none) :
    GetEthBalance.processKey w web3 p s key = ⟨s, [Effect.privateKeyToAccount key]⟩ := by
  apply Run.ext <;>
    simp [GetEthBalance.processKey, GetEthBalance.getAddressFromPrivateKey, hbad]

theorem fauct_processKey_malformed (w : World) (web3 : String) (total i : Nat)
    (s : ZamaFauct.Summary) (key : String) (hbad : w.privateKeyToAccount key = none) :
    ZamaFauct.processKey w web3 total i s key = ⟨s, [Effect.privateKeyToAccount key]⟩ := by
  apply Run.ext <;>
    simp [ZamaFauct.processKey, ZamaFauct.getAddressFromPrivateKey, hbad]

theorem usdc_processKey_malformed (w : World) (web3 : String)
    (tokenInfo : ZamaUsdcTokenBalance.TokenInfo) (total i : Nat)
    (s : ZamaUsdcTokenBalance.Summary) (key : String)
    (hbad : w.privateKeyToAccount key = none) :
    ZamaUsdcTokenBalance.processKey w web3 tokenInfo total i s key
      = ⟨s, [Effect.privateKeyToAccount key]⟩ := by
  apply Run.ext <;>
    simp [ZamaUsdcTokenBalance.processKey, ZamaUsdcTokenBalance.getAddressFromPrivateKey, hbad]

/-! ## Sweep: a failed balance request (C12) -/

theorem sweep_processKey_failed_balance (w : World) (web3 : String) (p : Nat)
    (s : GetEthBalance.Summary) (key address : String)
    (hk : w.privateKeyToAccount key = some address) (hne : address ≠ "")
    (hfail : w.getBalance web3 address = none) :
    GetEthBalance.processKey w web3 p s key
      = ⟨{ s with validAddresses := s.validAddresses + 1 },
          [Effect.privateKeyToAccount key, Effect.getBalance web3 address,
            Effect.setTimeout 500]⟩ := by
  have hzero : Dbl.lt Dbl.zero (parseFloatEther 0) = false := by decide
  have hbal : GetEthBalance.getETHBalance w web3 address
      = ⟨⟨0, 0⟩, [Effect.getBalance web3 address]⟩ := by
    apply Run.ext <;> simp [GetEthBalance.getETHBalance, hfail]
  apply Run.ext <;>
    simp [GetEthBalance.processKey, GetEthBalance.getAddressFromPrivateKey, hk, hne, hbal,
      hzero]

/-- C12: in the sweep script, when the balance request for an address raises,
`getETHBalance` returns the zero balance (`balanceWei` `'0'`, `balanceEth`
`'0'`) with that request as its only effect; the iteration of `main` for a key
that derives this address then consists of the derivation, the failed balance
request and the delay (no gas estimate, no transaction count, no signature, no
submission), it counts the address as valid, and the keys after it are
processed next. -/
theorem failed_balance_is_no_funds (w : World) (web3 key address : String)
    (hk : w.privateKeyToAccount key = some address) (hne : address ≠ "")
    (hfail : w.getBalance web3 address = none) :
    GetEthBalance.getETHBalance w web3 address
      = ⟨⟨0, 0⟩, [Effect.getBalance web3 address]⟩ ∧
    (∀ (p : Nat) (s : GetEthBalance.Summary),
      GetEthBalance.processKey w web3 p s key
        = ⟨{ s with validAddresses := s.validAddresses + 1 },
            [Effect.privateKeyToAccount key, Effect.getBalance web3 address,
              Effect.setTimeout 500]⟩) ∧
    (∀ (p : Nat) (s : GetEthBalance.Summary) (before after : List String),
      (GetEthBalance.processKeys w web3 p s (before ++ key :: after)).effects
        = (GetEthBalance.processKeys w web3 p s before).effects
          ++ [Effect.privateKeyToAccount key, Effect.getBalance web3 address,
            Effect.setTimeout 500]
          ++ (GetEthBalance.processKeys w web3 p
              { (GetEthBalance.processKeys w web3 p s before).value with
                validAddresses :=
                  (GetEthBalance.processKeys w web3 p s before).value.validAddresses + 1 }
              after).effects) := by
  refine ⟨?_, ?_, ?_⟩
  · apply Run.ext <;> simp [GetEthBalance.getETHBalance, hfail]
  · intro p s
    exact sweep_processKey_failed_balance w web3 p s key address hk hne hfail
  · intro p s before after
    rw [sweep_processKeys_append]
    simp [GetEthBalance.processKeys,
      sweep_processKey_failed_balance w web3 p _ key address hk hne hfail]

/-- C12 at a concrete input: in `noBalanceWorld` the balance request for `A1`
raises and `getETHBalance` returns the zero balance. -/
theorem failed_balance_is_no_funds_witness :
    noBalanceWorld.privateKeyToAccount "K1" = some "A1" ∧
    noBalanceWorld.getBalance "rpc" "A1" = none ∧
    GetEthBalance.getETHBalance noBalanceWorld "rpc" "A1"
      = ⟨⟨0, 0⟩, [Effect.getBalance "rpc" "A1"]⟩ ∧
    GetEthBalance.processKey noBalanceWorld "rpc" 40000000000 ⟨Dbl.zero, 0, 0, Dbl.zero⟩ "K1"
      = ⟨⟨Dbl.zero, 1, 0, Dbl.zero⟩,
          [Effect.privateKeyToAccount "K1", Effect.getBalance "rpc" "A1",
            Effect.setTimeout 500]⟩ :=
  ⟨by decide, by decide,
    (failed_balance_is_no_funds noBalanceWorld "rpc" "K1" "A1" (by decide) (by decide)
      (by decide)).1,
    (failed_balance_is_no_funds noBalanceWorld "rpc" "K1" "A1" (by decide) (by decide)
      (by decide)).2.1 40000000000 ⟨Dbl.zero, 0, 0, Dbl.zero⟩⟩

/-! ## Malformed keys (C13) -/

/-- C13: in the three key-based scripts `getAddressFromPrivateKey` returns
`null` exactly when the library derivation raises and the derived address
otherwise, with the derivation as its only effect; and for a key whose
derivation raises, wherever it stands in the key list, its iteration performs
that one library call and nothing else (no balance, gas or transaction request,
no delay), leaves the counters as they are, and the keys after it are processed
next, in file order. -/
theorem malformed_key_is_skipped (w : World) (web3 : String) (key : String)
    (hbad : w.privateKeyToAccount key = none) :
    (∀ k : String,
      GetEthBalance.getAddressFromPrivateKey w k
        = ⟨w.privateKeyToAccount k, [Effect.privateKeyToAccount k]⟩ ∧
      ZamaFauct.getAddressFromPrivateKey w k
        = ⟨w.privateKeyToAccount k, [Effect.privateKeyToAccount k]⟩ ∧
      ZamaUsdcTokenBalance.getAddressFromPrivateKey w k
        = ⟨w.privateKeyToAccount k, [Effect.privateKeyToAccount k]⟩) ∧
    (∀ (p : Nat) (s : GetEthBalance.Summary) (before after : List String),
      (GetEthBalance.processKeys w web3 p s (before ++ key :: after)).effects
        = (GetEthBalance.processKeys w web3 p s before).effects
          ++ [Effect.privateKeyToAccount key]
          ++ (GetEthBalance.processKeys w web3 p
              (GetEthBalance.processKeys w web3 p s before).value after).effects ∧
      (GetEthBalance.processKeys w web3 p s (before ++ key :: after)).value
        = (GetEthBalance.processKeys w web3 p
            (GetEthBalance.processKeys w web3 p s before).value after).value) ∧
    (∀ (total i : Nat) (s : ZamaFauct.Summary) (before after : List String),
      (ZamaFauct.processKeys w web3 total i s (before ++ key :: after)).effects
        = (ZamaFauct.processKeys w web3 total i s before).effects
          ++ [Effect.privateKeyToAccount key]
          ++ (ZamaFauct.processKeys w web3 total (i + before.length + 1)
              (ZamaFauct.processKeys w web3 total i s before).value after).effects ∧
      (ZamaFauct.processKeys w web3 total i s (before ++ key :: after)).value
        = (ZamaFauct.processKeys w web3 total (i + before.length + 1)
            (ZamaFauct.processKeys w web3 total i s before).value after).value) ∧
    (∀ (tokenInfo : ZamaUsdcTokenBalance.TokenInfo) (total i : Nat)
      (s : ZamaUsdcTokenBalance.Summary) (before after : List String),
      (ZamaUsdcTokenBalance.processKeys w web3 tokenInfo total i s
          (before ++ key :: after)).effects
        = (ZamaUsdcTokenBalance.processKeys w web3 tokenInfo total i s before).effects
          ++ [Effect.privateKeyToAccount key]
          ++ (ZamaUsdcTokenBalance.processKeys w web3 tokenInfo total (i + before.length + 1)
              (ZamaUsdcTokenBalance.processKeys w web3 tokenInfo total i s before).value
              after).effects ∧
      (ZamaUsdcTokenBalance.processKeys w web3 tokenInfo total i s
          (before ++ key :: after)).value
        = (ZamaUsdcTokenBalance.processKeys w web3 tokenInfo total (i + before.length + 1)
            (ZamaUsdcTokenBalance.processKeys w web3 tokenInfo total i s before).value
            after).value) := by
  refine ⟨?_, ?_, ?_, ?_⟩
  · intro k
    refine ⟨?_, ?_, ?_⟩
    · apply Run.ext <;>
        cases h : w.privateKeyToAccount k <;>
        simp [GetEthBalance.getAddressFromPrivateKey, h]
    · apply Run.ext <;>
        cases h : w.privateKeyToAccount k <;>
        simp [ZamaFauct.getAddressFromPrivateKey, h]
    · apply Run.ext <;>
        cases h : w.privateKeyToAccount k <;>
        simp [ZamaUsdcTokenBalance.getAddressFromPrivateKey, h]
  · intro p s before after
    rw [sweep_processKeys_append]
    simp [GetEthBalance.processKeys, sweep_processKey_malformed w web3 p _ key hbad]
  · intro total i s before after
    rw [fauct_processKeys_append]
    simp [ZamaFauct.processKeys, fauct_processKey_malformed w web3 total _ _ key hbad]
  · intro tokenInfo total i s before after
    rw [usdc_processKeys_append]
    simp [ZamaUsdcTokenBalance.processKeys,
      usdc_processKey_malformed w web3 tokenInfo total _ _ key hbad]

/-- C13 at a concrete input: in `sweepWorld` the key `bad` has no address; the
loop over `K1`, `bad`, `K2` does the iteration of `K1`, the derivation of `bad`,
and then the iteration of `K2`. -/
theorem malformed_key_is_skipped_witness :
    sweepWorld.privateKeyToAccount "bad" = none ∧
    (GetEthBalance.processKeys sweepWorld "rpc" 40000000000 ⟨Dbl.zero, 0, 0, Dbl.zero⟩
        (["K1"] ++ "bad" :: ["K2"])).effects
      = (GetEthBalance.processKeys sweepWorld "rpc" 40000000000 ⟨Dbl.zero, 0, 0, Dbl.zero⟩
          ["K1"]).effects
        ++ [Effect.privateKeyToAccount "bad"]
        ++ (GetEthBalance.processKeys sweepWorld "rpc" 40000000000
            (GetEthBalance.processKeys sweepWorld "rpc" 40000000000
              ⟨Dbl.zero, 0, 0, Dbl.zero⟩ ["K1"]).value ["K2"]).effects :=
  ⟨by decide,
    ((malformed_key_is_skipped sweepWorld "rpc" "bad" (by decide)).2.1 40000000000
      ⟨Dbl.zero, 0, 0, Dbl.zero⟩ ["K1"] ["K2"]).1⟩

/-! ## The delay between iterations (C14) -/

theorem transferETH_no_delay (w : World) (web3 : String) (p : Nat)
    (privateKey fromAddress toAddress : String) (amount : Int) :
    ∀ ev ∈ (GetEthBalance.transferETH w web3 p privateKey fromAddress toAddress
      amount).effects, ev.isSetTimeout = false := by
  unfold GetEthBalance.transferETH
  simp only [Run.effects_bind, Run.effects_emit, Run.value_bind]
  split
  · simp [Effect.isSetTimeout]
  · simp only [Run.effects_bind, Run.effects_emit, Run.value_bind, Run.value_pure,
      Run.effects_pure, estimateTransferGas_effects]
    split
    · simp [Effect.isSetTimeout]
    · simp only [Run.effects_bind, Run.effects_emit, Run.value_bind]
      split <;> simp [Effect.isSetTimeout]

theorem sweep_no_delay (w : World) (web3 : String) (p : Nat) (s : GetEthBalance.Summary)
    (privateKey address : String) (bal : GetEthBalance.Balance) :
    ∀ ev ∈ (GetEthBalance.sweep w web3 p s privateKey address bal).effects,
      ev.isSetTimeout = false := by
  unfold GetEthBalance.sweep
  simp only [Run.effects_bind, Run.value_bind, estimateTransferGas_effects]
  rw [List.forall_mem_append]
  constructor
  · simp [Effect.isSetTimeout]
  · split
    · split
      · simp only [Run.effects_bind, Run.value_bind]
        rw [List.forall_mem_append]
        constructor
        · exact transferETH_no_delay w web3 p privateKey address _ _
        · split <;> simp
      · simp
    · simp

theorem fauct_estimateContractGas_no_delay (w : World) (web3 fromAddress : String) :
    ∀ ev ∈ (ZamaFauct.estimateContractGas w web3 fromAddress).effects,
      ev.isSetTimeout = false := by
  unfold ZamaFauct.estimateContractGas
  split
  · simp
  · simp only [Run.effects_bind, Run.effects_emit]
    split <;> simp [Effect.isSetTimeout]

theorem interactWithContract_no_delay (w : World) (web3 privateKey fromAddress : String) :
    ∀ ev ∈ (ZamaFauct.interactWithContract w web3 privateKey fromAddress).effects,
      ev.isSetTimeout = false := by
  have hest := fauct_estimateContractGas_no_delay w web3 fromAddress
  unfold ZamaFauct.interactWithContract
  simp only [Run.effects_bind, Run.effects_emit, Run.value_bind]
  split
  · simp [Effect.isSetTimeout]
  · simp only [Run.effects_bind, Run.effects_emit, Run.value_bind]
    split
    · simp [Effect.isSetTimeout]
    · simp only [Run.effects_bind, Run.effects_emit, Run.value_bind,
        fauct_getCurrentGasPrice_effects, fauct_getETHBalance_effects]
      split
      · simp only [Run.effects_pure, List.append_nil, List.forall_mem_append,
          List.forall_mem_cons]
        refine ⟨by simp [Effect.isSetTimeout], by simp [Effect.isSetTimeout],
          by simp [Effect.isSetTimeout], hest, by simp [Effect.isSetTimeout]⟩
      · simp only [Run.effects_bind, Run.effects_emit, Run.value_bind]
        split
        · simp only [Run.effects_pure, List.append_nil, List.forall_mem_append,
            List.forall_mem_cons]
          refine ⟨by simp [Effect.isSetTimeout], by simp [Effect.isSetTimeout],
            by simp [Effect.isSetTimeout], hest, by simp [Effect.isSetTimeout],
            by simp [Effect.isSetTimeout]⟩
        · simp only [Run.effects_bind, Run.effects_emit, Run.value_bind]
          split <;>
            simp only [Run.effects_pure, List.append_nil, List.forall_mem_append,
              List.forall_mem_cons] <;>
            refine ⟨by simp [Effect.isSetTimeout], by simp [Effect.isSetTimeout],
              by simp [Effect.isSetTimeout], hest, by simp [Effect.isSetTimeout],
              by simp [Effect.isSetTimeout], by simp [Effect.isSetTimeout]⟩

theorem sweep_processKey_completed (w : World) (web3 : String) (p : Nat)
    (s : GetEthBalance.Summary) (key address : String)
    (hk : w.privateKeyToAccount key = some address) (hne : address ≠ "") :
    ∃ body, (∀ ev ∈ body, ev.isSetTimeout = false) ∧
      (GetEthBalance.processKey w web3 p s key).effects = body ++ [Effect.setTimeout 500] := by
  by_cases hlt : Dbl.lt Dbl.zero (parseFloatEther
      (GetEthBalance.getETHBalance w web3 address).value.balanceEthWei) = true
  · refine ⟨[Effect.privateKeyToAccount key, Effect.getBalance web3 address]
      ++ (GetEthBalance.sweep w web3 p s key address
          (GetEthBalance.getETHBalance w web3 address).value).effects, ?_, ?_⟩
    · rw [List.forall_mem_append]
      exact ⟨by simp [Effect.isSetTimeout], sweep_no_delay w web3 p s key address _⟩
    · simp [GetEthBalance.processKey, GetEthBalance.getAddressFromPrivateKey, hk, hne, hlt,
        sweep_getETHBalance_effects]
  · refine ⟨[Effect.privateKeyToAccount key, Effect.getBalance web3 address], ?_, ?_⟩
    · simp [Effect.isSetTimeout]
    · simp [GetEthBalance.processKey, GetEthBalance.getAddressFromPrivateKey, hk, hne, hlt,
        sweep_getETHBalance_effects]

theorem sweep_processKey_skipped (w : World) (web3 : String) (p : Nat)
    (s : GetEthBalance.Summary) (key : String)
    (hk : w.privateKeyToAccount key = none ∨ w.privateKeyToAccount key = some "") :
    (GetEthBalance.processKey w web3 p s key).effects = [Effect.privateKeyToAccount key] := by
  rcases hk with hk | hk <;>
    simp [GetEthBalance.processKey, GetEthBalance.getAddressFromPrivateKey, hk]

theorem fauct_processKey_completed (w : World) (web3 : String) (total i : Nat)
    (s : ZamaFauct.Summary) (key address : String)
    (hk : w.privateKeyToAccount key = some address) (hne : address ≠ "")
    (hbal : Dbl.lt (ZamaFauct.getETHBalance w web3 address).value.balanceEth lit_0_001 = false)
    (hlen : jsLength address = 42) :
    ∃ body, (∀ ev ∈ body, ev.isSetTimeout = false) ∧
      (ZamaFauct.processKey w web3 total i s key).effects
        = body ++ (if i < total - 1 then [Effect.setTimeout 2000] else []) := by
  have hint := interactWithContract_no_delay w web3 key address
  cases hr : (ZamaFauct.interactWithContract w web3 key address).value with
  | none =>
    refine ⟨[Effect.privateKeyToAccount key, Effect.getBalance web3 address]
      ++ (ZamaFauct.interactWithContract w web3 key address).effects, ?_, ?_⟩
    · rw [List.forall_mem_append]
      exact ⟨by simp [Effect.isSetTimeout], hint⟩
    · simp only [ZamaFauct.processKey, ZamaFauct.getAddressFromPrivateKey, Run.effects_bind,
        Run.value_bind, Run.effects_emit, Run.value_emit, Run.effects_pure, Run.value_pure,
        hk, fauct_getETHBalance_effects]
      rw [if_neg hne]
      simp only [Run.effects_bind, Run.value_bind, fauct_getETHBalance_effects]
      rw [hbal]
      simp only [Bool.false_eq_true, if_false, hlen, ne_eq, not_true_eq_false,
        Run.effects_bind, Run.value_bind, hr, Run.effects_pure, Run.value_pure]
      split <;> simp
  | some receipt =>
    refine ⟨[Effect.privateKeyToAccount key, Effect.getBalance web3 address]
      ++ (ZamaFauct.interactWithContract w web3 key address).effects
      ++ [Effect.getGasPrice web3], ?_, ?_⟩
    · simp only [List.forall_mem_append]
      exact ⟨⟨by simp [Effect.isSetTimeout], hint⟩, by simp [Effect.isSetTimeout]⟩
    · simp only [ZamaFauct.processKey, ZamaFauct.getAddressFromPrivateKey, Run.effects_bind,
        Run.value_bind, Run.effects_emit, Run.value_emit, Run.effects_pure, Run.value_pure,
        hk, fauct_getETHBalance_effects]
      rw [if_neg hne]
      simp only [Run.effects_bind, Run.value_bind, fauct_getETHBalance_effects]
      rw [hbal]
      simp only [Bool.false_eq_true, if_false, hlen, ne_eq, not_true_eq_false,
        Run.effects_bind, Run.value_bind, hr, Run.effects_pure, Run.value_pure,
        fauct_getCurrentGasPrice_effects]
      split <;> simp

theorem fauct_processKey_skipped (w : World) (web3 : String) (total i : Nat)
    (s : ZamaFauct.Summary) (key : String)
    (hk : w.privateKeyToAccount key = none ∨ w.privateKeyToAccount key = some "" ∨
      ∃ address, w.privateKeyToAccount key = some address ∧
        (Dbl.lt (ZamaFauct.getETHBalance w web3 address).value.balanceEth lit_0_001 = true ∨
          jsLength address ≠ 42)) :
    ∀ ev ∈ (ZamaFauct.processKey w web3 total i s key).effects, ev.isSetTimeout = false := by
  rcases hk with hk | hk | ⟨address, hk, hskip⟩
  · simp [ZamaFauct.processKey, ZamaFauct.getAddressFromPrivateKey, hk, Effect.isSetTimeout]
  · simp [ZamaFauct.processKey, ZamaFauct.getAddressFromPrivateKey, hk, Effect.isSetTimeout]
  · simp only [ZamaFauct.processKey, ZamaFauct.getAddressFromPrivateKey, Run.effects_bind,
      Run.value_bind, Run.effects_emit, Run.value_emit, Run.effects_pure, Run.value_pure,
      hk, fauct_getETHBalance_effects]
    by_cases hne : address = ""
    · rw [if_pos hne]
      simp [Effect.isSetTimeout]
    · rw [if_neg hne]
      simp only [Run.effects_bind, Run.value_bind, fauct_getETHBalance_effects]
      rcases hskip with hlt | hlen
      · rw [hlt]
        simp [Effect.isSetTimeout]
      · cases hb : Dbl.lt (ZamaFauct.getETHBalance w web3 address).value.balanceEth lit_0_001
        · rw [if_neg (by simp), if_pos hlen]
          simp [Effect.isSetTimeout]
        · simp [Effect.isSetTimeout]

theorem usdc_getETHBalance_effects (w : World) (web3 address : String) :
    (ZamaUsdcTokenBalance.getETHBalance w web3 address).effects
      = [Effect.getBalance web3 address] := by
  unfold ZamaUsdcTokenBalance.getETHBalance
  simp only [Run.effects_bind, Run.effects_emit]
  split <;> simp

theorem usdc_processKey_completed (w : World) (web3 : String)
    (tokenInfo : ZamaUsdcTokenBalance.TokenInfo) (total i : Nat)
    (s : ZamaUsdcTokenBalance.Summary) (key address : String)
    (hk : w.privateKeyToAccount key = some address) (hne : address ≠ "") :
    (ZamaUsdcTokenBalance.processKey w web3 tokenInfo total i s key).effects
      = [Effect.privateKeyToAccount key, Effect.getBalance web3 address,
          Effect.call web3 ZamaUsdcTokenBalance.TOKEN_CONTRACT
            (ZamaUsdcTokenBalance.balanceOfCallData address)]
        ++ (if i < total - 1 then [Effect.setTimeout 500] else []) := by
  simp only [ZamaUsdcTokenBalance.processKey, ZamaUsdcTokenBalance.getAddressFromPrivateKey,
    Run.effects_bind, Run.value_bind, Run.effects_emit, Run.value_emit, Run.effects_pure,
    Run.value_pure, hk]
  rw [if_neg hne]
  simp only [Run.effects_bind, Run.value_bind, usdc_getETHBalance_effects,
    getTokenBalance_effects]
  split <;> simp

theorem usdc_processKey_skipped (w : World) (web3 : String)
    (tokenInfo : ZamaUsdcTokenBalance.TokenInfo) (total i : Nat)
    (s : ZamaUsdcTokenBalance.Summary) (key : String)
    (hk : w.privateKeyToAccount key = none ∨ w.privateKeyToAccount key = some "") :
    (ZamaUsdcTokenBalance.processKey w web3 tokenInfo total i s key).effects
      = [Effect.privateKeyToAccount key] := by
  rcases hk with hk | hk <;>
    simp [ZamaUsdcTokenBalance.processKey, ZamaUsdcTokenBalance.getAddressFromPrivateKey, hk]

theorem info_processAddress_completed (w : World) (total i : Nat) (entry : String)
    (hok : w.isAddress (jsTrim entry) = true) :
    (GetEthInfo.processAddress w total i entry).effects
      = [Effect.getBalance GetEthInfo.web3 (jsTrim entry),
          Effect.getTransactionCountLatest GetEthInfo.web3 (jsTrim entry)]
        ++ (if i < total - 1 then [Effect.setTimeout 100] else []) := by
  have hb : (GetEthInfo.getBalance w (jsTrim entry)).effects
      = [Effect.getBalance GetEthInfo.web3 (jsTrim entry)] := by
    unfold GetEthInfo.getBalance
    simp only [Run.effects_bind, Run.effects_emit]
    split <;> simp
  have ht : (GetEthInfo.getTransactionCount w (jsTrim entry)).effects
      = [Effect.getTransactionCountLatest GetEthInfo.web3 (jsTrim entry)] := by
    unfold GetEthInfo.getTransactionCount
    simp only [Run.effects_bind, Run.effects_emit]
    split <;> simp
  simp only [GetEthInfo.processAddress, hok, Bool.not_true, Bool.false_eq_true, if_false,
    Run.effects_bind, Run.value_bind, hb, ht]
  split <;> simp

theorem info_processAddress_skipped (w : World) (total i : Nat) (entry : String)
    (hbad : w.isAddress (jsTrim entry) = false) :
    (GetEthInfo.processAddress w total i entry).effects = [] := by
  simp [GetEthInfo.processAddress, hbad]

theorem info_processAddresses_append (w : World) (total : Nat) (l1 l2 : List String) :
    ∀ i, (GetEthInfo.processAddresses w total i (l1 ++ l2)).effects
      = (GetEthInfo.processAddresses w total i l1).effects
        ++ (GetEthInfo.processAddresses w total (i + l1.length) l2).effects := by
  induction l1 with
  | nil => intro i; simp [GetEthInfo.processAddresses]
  | cons k ks ih =>
    intro i
    simp only [List.cons_append, GetEthInfo.processAddresses, Run.effects_bind,
      List.length_cons, List.append_assoc]
    have h := ih (i + 1)
    rw [show i + (ks.length + 1) = i + 1 + ks.length by omega]
    exact congrArg _ h

theorem not_last_iff (before after : List String) (key : String) :
    before.length < (before ++ key :: after).length - 1 ↔ after ≠ [] := by
  cases after with
  | nil => simp
  | cons a rest => simp

theorem sweep_main_effects_eq (w : World) (endpoints : List String) (web3 : String)
    (hconn : (GetEthBalance.initializeWeb3 w endpoints).value = some web3)
    (hne : (GetEthBalance.readPrivateKeys w "evm_private.txt").value ≠ []) :
    (GetEthBalance.main w endpoints).effects
      = (GetEthBalance.initializeWeb3 w endpoints).effects
        ++ [Effect.getGasPrice web3, Effect.readFileSync "evm_private.txt"]
        ++ (GetEthBalance.processKeys w web3 (GetEthBalance.getCurrentGasPrice w web3).value
            ⟨Dbl.zero, 0, 0, Dbl.zero⟩
            (GetEthBalance.readPrivateKeys w "evm_private.txt").value).effects := by
  have hgas : (GetEthBalance.getCurrentGasPrice w web3).effects = [Effect.getGasPrice web3] := by
    unfold GetEthBalance.getCurrentGasPrice
    simp only [Run.effects_bind, Run.effects_emit]
    split <;> simp
  have hread : (GetEthBalance.readPrivateKeys w "evm_private.txt").effects
      = [Effect.readFileSync "evm_private.txt"] := by
    unfold GetEthBalance.readPrivateKeys
    simp only [Run.effects_bind, Run.effects_emit]
    split <;> simp
  have hlen : ¬ (GetEthBalance.readPrivateKeys w "evm_private.txt").value.length = 0 := by
    intro h
    exact hne (List.length_eq_zero.mp h)
  simp only [GetEthBalance.main, Run.effects_bind, Run.value_bind, hconn, hgas, hread]
  rw [if_neg hlen]
  simp [List.append_assoc]

theorem fauct_main_effects_eq (w : World) (endpoints : List String) (web3 : String)
    (hconn : (ZamaFauct.initializeWeb3 w endpoints).value = some web3)
    (hne : (ZamaFauct.readPrivateKeys w "evm_private.txt").value ≠ []) :
    (ZamaFauct.main w endpoints).effects
      = (ZamaFauct.initializeWeb3 w endpoints).effects
        ++ [Effect.readFileSync "evm_private.txt"]
        ++ (ZamaFauct.processKeys w web3
            (ZamaFauct.readPrivateKeys w "evm_private.txt").value.length 0
            ⟨0, Dbl.zero, Dbl.zero⟩
            (ZamaFauct.readPrivateKeys w "evm_private.txt").value).effects := by
  have hlen : ¬ (ZamaFauct.readPrivateKeys w "evm_private.txt").value.length = 0 := by
    intro h
    exact hne (List.length_eq_zero.mp h)
  simp only [ZamaFauct.main, Run.effects_bind, Run.value_bind, hconn,
    fauct_readPrivateKeys_effects]
  rw [if_neg hlen]
  simp [List.append_assoc]

theorem usdc_main_effects_eq (w : World) (endpoints : List String) (web3 : String)
    (hconn : (ZamaUsdcTokenBalance.initializeWeb3 w endpoints).value = some web3)
    (hne : (ZamaUsdcTokenBalance.readPrivateKeys w "evm_private.txt").value ≠ []) :
    (ZamaUsdcTokenBalance.main w endpoints).effects
      = (ZamaUsdcTokenBalance.initializeWeb3 w endpoints).effects
        ++ (ZamaUsdcTokenBalance.getTokenInfo w web3
            ZamaUsdcTokenBalance.TOKEN_CONTRACT).effects
        ++ [Effect.readFileSync "evm_private.txt"]
        ++ (ZamaUsdcTokenBalance.processKeys w web3
            (ZamaUsdcTokenBalance.getTokenInfo w web3
              ZamaUsdcTokenBalance.TOKEN_CONTRACT).value
            (ZamaUsdcTokenBalance.readPrivateKeys w "evm_private.txt").value.length 0
            ⟨JsNumber.zero, Dbl.zero, 0, [], []⟩
            (ZamaUsdcTokenBalance.readPrivateKeys w "evm_private.txt").value).effects := by
  have hread : (ZamaUsdcTokenBalance.readPrivateKeys w "evm_private.txt").effects
      = [Effect.readFileSync "evm_private.txt"] := by
    unfold ZamaUsdcTokenBalance.readPrivateKeys
    simp only [Run.effects_bind, Run.effects_emit]
    split <;> simp
  have hlen : ¬ (ZamaUsdcTokenBalance.readPrivateKeys w "evm_private.txt").value.length = 0 := by
    intro h
    exact hne (List.length_eq_zero.mp h)
  simp only [ZamaUsdcTokenBalance.main, Run.effects_bind, Run.value_bind, hconn, hread]
  rw [if_neg hlen]
  simp [List.append_assoc]

theorem info_main_effects_eq (w : World)
    (hne : (GetEthInfo.readAddressesFromFile w "EVM.txt").value ≠ []) :
    (GetEthInfo.main w).effects
      = [Effect.readFileSync "EVM.txt"]
        ++ (GetEthInfo.processAddresses w
            (GetEthInfo.readAddressesFromFile w "EVM.txt").value.length 0
            (GetEthInfo.readAddressesFromFile w "EVM.txt").value).effects := by
  have hread : (GetEthInfo.readAddressesFromFile w "EVM.txt").effects
      = [Effect.readFileSync "EVM.txt"] := by
    unfold GetEthInfo.readAddressesFromFile
    simp only [Run.effects_bind, Run.effects_emit]
    split <;> simp
  have hlen : ¬ (GetEthInfo.readAddressesFromFile w "EVM.txt").value.length = 0 := by
    intro h
    exact hne (List.length_eq_zero.mp h)
  simp only [GetEthInfo.main, Run.effects_bind, Run.value_bind, hread]
  rw [if_neg hlen]

theorem sweep_main_iteration (w : World) (endpoints : List String) (web3 : String)
    (before after : List String) (key : String) (p : Nat) (sB : GetEthBalance.Summary)
    (hconn : (GetEthBalance.initializeWeb3 w endpoints).value = some web3)
    (hkeys : (GetEthBalance.readPrivateKeys w "evm_private.txt").value = before ++ key :: after)
    (hp : p = (GetEthBalance.getCurrentGasPrice w web3).value)
    (hsB : sB = (GetEthBalance.processKeys w web3 p ⟨Dbl.zero, 0, 0, Dbl.zero⟩ before).value) :
    (GetEthBalance.main w endpoints).effects
      = (GetEthBalance.initializeWeb3 w endpoints).effects
        ++ [Effect.getGasPrice web3, Effect.readFileSync "evm_private.txt"]
        ++ (GetEthBalance.processKeys w web3 p ⟨Dbl.zero, 0, 0, Dbl.zero⟩ before).effects
        ++ (GetEthBalance.processKey w web3 p sB key).effects
        ++ (GetEthBalance.processKeys w web3 p
            (GetEthBalance.processKey w web3 p sB key).value after).effects := by
  have hne : (GetEthBalance.readPrivateKeys w "evm_private.txt").value ≠ [] := by
    rw [hkeys]
    simp
  rw [sweep_main_effects_eq w endpoints web3 hconn hne, hkeys, ← hp, sweep_processKeys_append]
  subst hsB
  simp [GetEthBalance.processKeys, List.append_assoc]

theorem fauct_main_iteration (w : World) (endpoints : List String) (web3 : String)
    (before after : List String) (key : String) (total : Nat) (sB : ZamaFauct.Summary)
    (hconn : (ZamaFauct.initializeWeb3 w endpoints).value = some web3)
    (hkeys : (ZamaFauct.readPrivateKeys w "evm_private.txt").value = before ++ key :: after)
    (htotal : total = (before ++ key :: after).length)
    (hsB : sB = (ZamaFauct.processKeys w web3 total 0 ⟨0, Dbl.zero, Dbl.zero⟩ before).value) :
    (ZamaFauct.main w endpoints).effects
      = (ZamaFauct.initializeWeb3 w endpoints).effects
        ++ [Effect.readFileSync "evm_private.txt"]
        ++ (ZamaFauct.processKeys w web3 total 0 ⟨0, Dbl.zero, Dbl.zero⟩ before).effects
        ++ (ZamaFauct.processKey w web3 total before.length sB key).effects
        ++ (ZamaFauct.processKeys w web3 total (before.length + 1)
            (ZamaFauct.processKey w web3 total before.length sB key).value after).effects ∧
    ((w.privateKeyToAccount key = none ∨ w.privateKeyToAccount key = some "" ∨
        ∃ address, w.privateKeyToAccount key = some address ∧
          (Dbl.lt (ZamaFauct.getETHBalance w web3 address).value.balanceEth lit_0_001 = true ∨
            jsLength address ≠ 42)) →
      ∀ ev ∈ (ZamaFauct.processKey w web3 total before.length sB key).effects,
        ev.isSetTimeout = false) ∧
    (∀ address, w.privateKeyToAccount key = some address → address ≠ "" →
      Dbl.lt (ZamaFauct.getETHBalance w web3 address).value.balanceEth lit_0_001 = false →
      jsLength address = 42 →
      ∃ body, (∀ ev ∈ body, ev.isSetTimeout = false) ∧
        (ZamaFauct.processKey w web3 total before.length sB key).effects
          = body ++ (if after = [] then [] else [Effect.setTimeout 2000])) := by
  have hne : (ZamaFauct.readPrivateKeys w "evm_private.txt").value ≠ [] := by
    rw [hkeys]
    simp
  refine ⟨?_, fauct_processKey_skipped w web3 total before.length sB key, ?_⟩
  · rw [fauct_main_effects_eq w endpoints web3 hconn hne, hkeys, ← htotal,
      fauct_processKeys_append]
    subst hsB
    simp [ZamaFauct.processKeys, List.append_assoc]
  · intro address hk hnea hbal hlen
    obtain ⟨body, hbody, heq⟩ :=
      fauct_processKey_completed w web3 total before.length sB key address hk hnea hbal hlen
    refine ⟨body, hbody, ?_⟩
    rw [heq, htotal]
    by_cases ha : after = []
    · rw [if_neg (fun h => ((not_last_iff before after key).mp h) ha), if_pos ha]
    · rw [if_pos ((not_last_iff before after key).mpr ha), if_neg ha]

theorem usdc_main_iteration (w : World) (endpoints : List String) (web3 : String)
    (before after : List String) (key : String) (total : Nat)
    (tokenInfo : ZamaUsdcTokenBalance.TokenInfo) (sB : ZamaUsdcTokenBalance.Summary)
    (hconn : (ZamaUsdcTokenBalance.initializeWeb3 w endpoints).value = some web3)
    (hkeys : (ZamaUsdcTokenBalance.readPrivateKeys w "evm_private.txt").value
      = before ++ key :: after)
    (htotal : total = (before ++ key :: after).length)
    (hinfo : tokenInfo
      = (ZamaUsdcTokenBalance.getTokenInfo w web3 ZamaUsdcTokenBalance.TOKEN_CONTRACT).value)
    (hsB : sB = (ZamaUsdcTokenBalance.processKeys w web3 tokenInfo total 0
      ⟨JsNumber.zero, Dbl.zero, 0, [], []⟩ before).value) :
    (ZamaUsdcTokenBalance.main w endpoints).effects
      = (ZamaUsdcTokenBalance.initializeWeb3 w endpoints).effects
        ++ (ZamaUsdcTokenBalance.getTokenInfo w web3
            ZamaUsdcTokenBalance.TOKEN_CONTRACT).effects
        ++ [Effect.readFileSync "evm_private.txt"]
        ++ (ZamaUsdcTokenBalance.processKeys w web3 tokenInfo total 0
            ⟨JsNumber.zero, Dbl.zero, 0, [], []⟩ before).effects
        ++ (ZamaUsdcTokenBalance.processKey w web3 tokenInfo total before.length sB key).effects
        ++ (ZamaUsdcTokenBalance.processKeys w web3 tokenInfo total (before.length + 1)
            (ZamaUsdcTokenBalance.processKey w web3 tokenInfo total before.length sB key).value
            after).effects ∧
    ((w.privateKeyToAccount key = none ∨ w.privateKeyToAccount key = some "") →
      (ZamaUsdcTokenBalance.processKey w web3 tokenInfo total before.length sB key).effects
        = [Effect.privateKeyToAccount key]) ∧
    (∀ address, w.privateKeyToAccount key = some address → address ≠ "" →
      (ZamaUsdcTokenBalance.processKey w web3 tokenInfo total before.length sB key).effects
        = [Effect.privateKeyToAccount key, Effect.getBalance web3 address,
            Effect.call web3 ZamaUsdcTokenBalance.TOKEN_CONTRACT
              (ZamaUsdcTokenBalance.balanceOfCallData address)]
          ++ (if after = [] then [] else [Effect.setTimeout 500])) := by
  have hne : (ZamaUsdcTokenBalance.readPrivateKeys w "evm_private.txt").value ≠ [] := by
    rw [hkeys]
    simp
  refine ⟨?_, usdc_processKey_skipped w web3 tokenInfo total before.length sB key, ?_⟩
  · rw [usdc_main_effects_eq w endpoints web3 hconn hne, hkeys, ← htotal, ← hinfo,
      usdc_processKeys_append]
    subst hsB
    simp [ZamaUsdcTokenBalance.processKeys, List.append_assoc]
  · intro address hk hnea
    rw [usdc_processKey_completed w web3 tokenInfo total before.length sB key address hk hnea,
      htotal]
    by_cases ha : after = []
    · rw [if_neg (fun h => ((not_last_iff before after key).mp h) ha), if_pos ha]
    · rw [if_pos ((not_last_iff before after key).mpr ha), if_neg ha]

theorem info_main_iteration (w : World) (before after : List String) (entry : String)
    (total : Nat)
    (hkeys : (GetEthInfo.readAddressesFromFile w "EVM.txt").value = before ++ entry :: after)
    (htotal : total = (before ++ entry :: after).length) :
    (GetEthInfo.main w).effects
      = [Effect.readFileSync "EVM.txt"]
        ++ (GetEthInfo.processAddresses w total 0 before).effects
        ++ (GetEthInfo.processAddress w total before.length entry).effects
        ++ (GetEthInfo.processAddresses w total (before.length + 1) after).effects ∧
    (w.isAddress (jsTrim entry) = false →
      (GetEthInfo.processAddress w total before.length entry).effects = []) ∧
    (w.isAddress (jsTrim entry) = true →
      (GetEthInfo.processAddress w total before.length entry).effects
        = [Effect.getBalance GetEthInfo.web3 (jsTrim entry),
            Effect.getTransactionCountLatest GetEthInfo.web3 (jsTrim entry)]
          ++ (if after = [] then [] else [Effect.setTimeout 100])) := by
  have hne : (GetEthInfo.readAddressesFromFile w "EVM.txt").value ≠ [] := by
    rw [hkeys]
    simp
  refine ⟨?_, info_processAddress_skipped w total before.length entry, ?_⟩
  · rw [info_main_effects_eq w hne, hkeys, ← htotal, info_processAddresses_append]
    simp [GetEthInfo.processAddresses, List.append_assoc]
  · intro hok
    rw [info_processAddress_completed w total before.length entry hok, htotal]
    by_cases ha : after = []
    · rw [if_neg (fun h => ((not_last_iff before after entry).mp h) ha), if_pos ha]
    · rw [if_pos ((not_last_iff before after entry).mpr ha), if_neg ha]

/-- C14 (as stated, refuted): no delay follows an item that is skipped.  In
`skipWorld` the sweep script goes from the malformed key `bad` straight to the
derivation of `K1`; in `poorWorld` the faucet script skips both wallets for their
too-small balance and executes no delay at all; in `rejectingWorld` the address
script rejects both entries and executes no delay. -/
theorem c14_no_delay_after_skipped_item :
    (GetEthBalance.main skipWorld ["rpc"]).effects
      = [Effect.getBlockNumber "rpc", Effect.getGasPrice "rpc",
          Effect.readFileSync "evm_private.txt",
          Effect.privateKeyToAccount "bad",
          Effect.privateKeyToAccount "K1", Effect.getBalance "rpc" "A1",
          Effect.setTimeout 500] ∧
    (ZamaFauct.main poorWorld ["rpc"]).effects
      = [Effect.getBlockNumber "rpc", Effect.getChainId "rpc",
          Effect.readFileSync "evm_private.txt",
          Effect.privateKeyToAccount "K",
          Effect.getBalance "rpc" "0x220511f4fd6d898125f79aa8d4cb91bffe9df6db",
          Effect.privateKeyToAccount "K",
          Effect.getBalance "rpc" "0x220511f4fd6d898125f79aa8d4cb91bffe9df6db"] ∧
    (GetEthInfo.readAddressesFromFile rejectingWorld "EVM.txt").value = ["x", "y"] ∧
    (GetEthInfo.main rejectingWorld).effects = [Effect.readFileSync "EVM.txt"] :=
  ⟨by decide, by decide, by decide, by decide⟩

/-- C14 (amended): in the batch loop of each of the four scripts, an iteration
that runs to its end executes the fixed delay as its last step and nowhere else:
in `get-eth-balance.js` always (500 ms, also after the last item), in
`zama-fauct.js` (2000 ms), `zama-usdc-token-balance.js` (500 ms) and
`get-eth-info.js` (100 ms) unless the item is the last one (`i < total - 1`);
an iteration that is left by `continue` (a key whose derivation gives no
address, in `zama-fauct.js` also a balance below 0.001 ETH or an address that is
not 42 characters long, in `get-eth-info.js` an entry that `isAddress` rejects)
executes no delay; and the effects of the loop are those of the iterations, one
after the other in list order.  In a run of `main` of each script, with the
list read from the file split as `before ++ item :: after`, the effects of the
run are those before the loop, those of the items of `before`, those of the
iteration of `item` and those of the items of `after`; in the three guarded
scripts a completed iteration of `item` ends with the delay exactly when `after`
is not empty. -/
theorem delay_follows_completed_iterations (w : World) :
    (∀ (web3 : String) (p : Nat) (s : GetEthBalance.Summary) (key : String),
      ((w.privateKeyToAccount key = none ∨ w.privateKeyToAccount key = some "") →
        (GetEthBalance.processKey w web3 p s key).effects
          = [Effect.privateKeyToAccount key]) ∧
      (∀ address, w.privateKeyToAccount key = some address → address ≠ "" →
        ∃ body, (∀ ev ∈ body, ev.isSetTimeout = false) ∧
          (GetEthBalance.processKey w web3 p s key).effects
            = body ++ [Effect.setTimeout 500]) ∧
      (∀ before after : List String,
        (GetEthBalance.processKeys w web3 p s (before ++ key :: after)).effects
          = (GetEthBalance.processKeys w web3 p s before).effects
            ++ (GetEthBalance.processKey w web3 p
                (GetEthBalance.processKeys w web3 p s before).value key).effects
            ++ (GetEthBalance.processKeys w web3 p
                (GetEthBalance.processKey w web3 p
                  (GetEthBalance.processKeys w web3 p s before).value key).value
                after).effects)) ∧
    (∀ (web3 : String) (total i : Nat) (s : ZamaFauct.Summary) (key : String),
      ((w.privateKeyToAccount key = none ∨ w.privateKeyToAccount key = some "" ∨
          ∃ address, w.privateKeyToAccount key = some address ∧
            (Dbl.lt (ZamaFauct.getETHBalance w web3 address).value.balanceEth lit_0_001
                = true ∨
              jsLength address ≠ 42)) →
        ∀ ev ∈ (ZamaFauct.processKey w web3 total i s key).effects,
          ev.isSetTimeout = false) ∧
      (∀ address, w.privateKeyToAccount key = some address → address ≠ "" →
        Dbl.lt (ZamaFauct.getETHBalance w web3 address).value.balanceEth lit_0_001 = false →
        jsLength address = 42 →
        ∃ body, (∀ ev ∈ body, ev.isSetTimeout = false) ∧
          (ZamaFauct.processKey w web3 total i s key).effects
            = body ++ (if i < total - 1 then [Effect.setTimeout 2000] else [])) ∧
      (∀ before after : List String,
        (ZamaFauct.processKeys w web3 total i s (before ++ key :: after)).effects
          = (ZamaFauct.processKeys w web3 total i s before).effects
            ++ (ZamaFauct.processKey w web3 total (i + before.length)
                (ZamaFauct.processKeys w web3 total i s before).value key).effects
            ++ (ZamaFauct.processKeys w web3 total (i + before.length + 1)
                (ZamaFauct.processKey w web3 total (i + before.length)
                  (ZamaFauct.processKeys w web3 total i s before).value key).value
                after).effects)) ∧
    (∀ (web3 : String) (tokenInfo : ZamaUsdcTokenBalance.TokenInfo) (total i : Nat)
      (s : ZamaUsdcTokenBalance.Summary) (key : String),
      ((w.privateKeyToAccount key = none ∨ w.privateKeyToAccount key = some "") →
        (ZamaUsdcTokenBalance.processKey w web3 tokenInfo total i s key).effects
          = [Effect.privateKeyToAccount key]) ∧
      (∀ address, w.privateKeyToAccount key = some address → address ≠ "" →
        (ZamaUsdcTokenBalance.processKey w web3 tokenInfo total i s key).effects
          = [Effect.privateKeyToAccount key, Effect.getBalance web3 address,
              Effect.call web3 ZamaUsdcTokenBalance.TOKEN_CONTRACT
                (ZamaUsdcTokenBalance.balanceOfCallData address)]
            ++ (if i < total - 1 then [Effect.setTimeout 500] else [])) ∧
      (∀ before after : List String,
        (ZamaUsdcTokenBalance.processKeys w web3 tokenInfo total i s
            (before ++ key :: after)).effects
          = (ZamaUsdcTokenBalance.processKeys w web3 tokenInfo total i s before).effects
            ++ (ZamaUsdcTokenBalance.processKey w web3 tokenInfo total (i + before.length)
                (ZamaUsdcTokenBalance.processKeys w web3 tokenInfo total i s before).value
                key).effects
            ++ (ZamaUsdcTokenBalance.processKeys w web3 tokenInfo total (i + before.length + 1)
                (ZamaUsdcTokenBalance.processKey w web3 tokenInfo total (i + before.length)
                  (ZamaUsdcTokenBalance.processKeys w web3 tokenInfo total i s before).value
                  key).value
                after).effects)) ∧
    (∀ (total i : Nat) (entry : String),
      (w.isAddress (jsTrim entry) = false →
        (GetEthInfo.processAddress w total i entry).effects = []) ∧
      (w.isAddress (jsTrim entry) = true →
        (GetEthInfo.processAddress w total i entry).effects
          = [Effect.getBalance GetEthInfo.web3 (jsTrim entry),
              Effect.getTransactionCountLatest GetEthInfo.web3 (jsTrim entry)]
            ++ (if i < total - 1 then [Effect.setTimeout 100] else [])) ∧
      (∀ before after : List String,
        (GetEthInfo.processAddresses w total i (before ++ entry :: after)).effects
          = (GetEthInfo.processAddresses w total i before).effects
            ++ (GetEthInfo.processAddress w total (i + before.length) entry).effects
            ++ (GetEthInfo.processAddresses w total (i + before.length + 1)
                after).effects)) ∧
    (∀ (endpoints : List String) (web3 : String) (before after : List String) (key : String)
      (p : Nat) (sB : GetEthBalance.Summary),
      (GetEthBalance.initializeWeb3 w endpoints).value = some web3 →
      (GetEthBalance.readPrivateKeys w "evm_private.txt").value = before ++ key :: after →
      p = (GetEthBalance.getCurrentGasPrice w web3).value →
      sB = (GetEthBalance.processKeys w web3 p ⟨Dbl.zero, 0, 0, Dbl.zero⟩ before).value →
      (GetEthBalance.main w endpoints).effects
        = (GetEthBalance.initializeWeb3 w endpoints).effects
          ++ [Effect.getGasPrice web3, Effect.readFileSync "evm_private.txt"]
          ++ (GetEthBalance.processKeys w web3 p ⟨Dbl.zero, 0, 0, Dbl.zero⟩ before).effects
          ++ (GetEthBalance.processKey w web3 p sB key).effects
          ++ (GetEthBalance.processKeys w web3 p
              (GetEthBalance.processKey w web3 p sB key).value after).effects) ∧
    (∀ (endpoints : List String) (web3 : String) (before after : List String) (key : String)
      (total : Nat) (sB : ZamaFauct.Summary),
      (ZamaFauct.initializeWeb3 w endpoints).value = some web3 →
      (ZamaFauct.readPrivateKeys w "evm_private.txt").value = before ++ key :: after →
      total = (before ++ key :: after).length →
      sB = (ZamaFauct.processKeys w web3 total 0 ⟨0, Dbl.zero, Dbl.zero⟩ before).value →
      (ZamaFauct.main w endpoints).effects
        = (ZamaFauct.initializeWeb3 w endpoints).effects
          ++ [Effect.readFileSync "evm_private.txt"]
          ++ (ZamaFauct.processKeys w web3 total 0 ⟨0, Dbl.zero, Dbl.zero⟩ before).effects
          ++ (ZamaFauct.processKey w web3 total before.length sB key).effects
          ++ (ZamaFauct.processKeys w web3 total (before.length + 1)
              (ZamaFauct.processKey w web3 total before.length sB key).value after).effects ∧
      ((w.privateKeyToAccount key = none ∨ w.privateKeyToAccount key = some "" ∨
          ∃ address, w.privateKeyToAccount key = some address ∧
            (Dbl.lt (ZamaFauct.getETHBalance w web3 address).value.balanceEth lit_0_001
                = true ∨
              jsLength address ≠ 42)) →
        ∀ ev ∈ (ZamaFauct.processKey w web3 total before.length sB key).effects,
          ev.isSetTimeout = false) ∧
      (∀ address, w.privateKeyToAccount key = some address → address ≠ "" →
        Dbl.lt (ZamaFauct.getETHBalance w web3 address).value.balanceEth lit_0_001 = false →
        jsLength address = 42 →
        ∃ body, (∀ ev ∈ body, ev.isSetTimeout = false) ∧
          (ZamaFauct.processKey w web3 total before.length sB key).effects
            = body ++ (if after = [] then [] else [Effect.setTimeout 2000]))) ∧
    (∀ (endpoints : List String) (web3 : String) (before after : List String) (key : String)
      (total : Nat) (tokenInfo : ZamaUsdcTokenBalance.TokenInfo)
      (sB : ZamaUsdcTokenBalance.Summary),
      (ZamaUsdcTokenBalance.initializeWeb3 w endpoints).value = some web3 →
      (ZamaUsdcTokenBalance.readPrivateKeys w "evm_private.txt").value
        = before ++ key :: after →
      total = (before ++ key :: after).length →
      tokenInfo
        = (ZamaUsdcTokenBalance.getTokenInfo w web3
            ZamaUsdcTokenBalance.TOKEN_CONTRACT).value →
      sB = (ZamaUsdcTokenBalance.processKeys w web3 tokenInfo total 0
        ⟨JsNumber.zero, Dbl.zero, 0, [], []⟩ before).value →
      (ZamaUsdcTokenBalance.main w endpoints).effects
        = (ZamaUsdcTokenBalance.initializeWeb3 w endpoints).effects
          ++ (ZamaUsdcTokenBalance.getTokenInfo w web3
              ZamaUsdcTokenBalance.TOKEN_CONTRACT).effects
          ++ [Effect.readFileSync "evm_private.txt"]
          ++ (ZamaUsdcTokenBalance.processKeys w web3 tokenInfo total 0
              ⟨JsNumber.zero, Dbl.zero, 0, [], []⟩ before).effects
          ++ (ZamaUsdcTokenBalance.processKey w web3 tokenInfo total before.length sB
              key).effects
          ++ (ZamaUsdcTokenBalance.processKeys w web3 tokenInfo total (before.length + 1)
              (ZamaUsdcTokenBalance.processKey w web3 tokenInfo total before.length sB
                key).value
              after).effects ∧
      ((w.privateKeyToAccount key = none ∨ w.privateKeyToAccount key = some "") →
        (ZamaUsdcTokenBalance.processKey w web3 tokenInfo total before.length sB key).effects
          = [Effect.privateKeyToAccount key]) ∧
      (∀ address, w.privateKeyToAccount key = some address → address ≠ "" →
        (ZamaUsdcTokenBalance.processKey w web3 tokenInfo total before.length sB key).effects
          = [Effect.privateKeyToAccount key, Effect.getBalance web3 address,
              Effect.call web3 ZamaUsdcTokenBalance.TOKEN_CONTRACT
                (ZamaUsdcTokenBalance.balanceOfCallData address)]
            ++ (if after = [] then [] else [Effect.setTimeout 500]))) ∧
    (∀ (before after : List String) (entry : String) (total : Nat),
      (GetEthInfo.readAddressesFromFile w "EVM.txt").value = before ++ entry :: after →
      total = (before ++ entry :: after).length →
      (GetEthInfo.main w).effects
        = [Effect.readFileSync "EVM.txt"]
          ++ (GetEthInfo.processAddresses w total 0 before).effects
          ++ (GetEthInfo.processAddress w total before.length entry).effects
          ++ (GetEthInfo.processAddresses w total (before.length + 1) after).effects ∧
      (w.isAddress (jsTrim entry) = false →
        (GetEthInfo.processAddress w total before.length entry).effects = []) ∧
      (w.isAddress (jsTrim entry) = true →
        (GetEthInfo.processAddress w total before.length entry).effects
          = [Effect.getBalance GetEthInfo.web3 (jsTrim entry),
              Effect.getTransactionCountLatest GetEthInfo.web3 (jsTrim entry)]
            ++ (if after = [] then [] else [Effect.setTimeout 100]))) := by
  refine ⟨?_, ?_, ?_, ?_, ?_, ?_, ?_, ?_⟩
  · intro web3 p s key
    refine ⟨sweep_processKey_skipped w web3 p s key,
      fun address hk hne => sweep_processKey_completed w web3 p s key address hk hne, ?_⟩
    intro before after
    rw [sweep_processKeys_append]
    simp [GetEthBalance.processKeys, List.append_assoc]
  · intro web3 total i s key
    refine ⟨fauct_processKey_skipped w web3 total i s key,
      fun address hk hne hbal hlen =>
        fauct_processKey_completed w web3 total i s key address hk hne hbal hlen, ?_⟩
    intro before after
    rw [fauct_processKeys_append]
    simp [ZamaFauct.processKeys, List.append_assoc]
  · intro web3 tokenInfo total i s key
    refine ⟨usdc_processKey_skipped w web3 tokenInfo total i s key,
      fun address hk hne =>
        usdc_processKey_completed w web3 tokenInfo total i s key address hk hne, ?_⟩
    intro before after
    rw [usdc_processKeys_append]
    simp [ZamaUsdcTokenBalance.processKeys, List.append_assoc]
  · intro total i entry
    refine ⟨info_processAddress_skipped w total i entry,
      info_processAddress_completed w total i entry, ?_⟩
    intro before after
    rw [info_processAddresses_append]
    simp [GetEthInfo.processAddresses, List.append_assoc]
  · intro endpoints web3 before after key p sB hconn hkeys hp hsB
    exact sweep_main_iteration w endpoints web3 before after key p sB hconn hkeys hp hsB
  · intro endpoints web3 before after key total sB hconn hkeys htotal hsB
    exact fauct_main_iteration w endpoints web3 before after key total sB hconn hkeys htotal
      hsB
  · intro endpoints web3 before after key total tokenInfo sB hconn hkeys htotal hinfo hsB
    exact usdc_main_iteration w endpoints web3 before after key total tokenInfo sB hconn
      hkeys htotal hinfo hsB
  · intro before after entry total hkeys htotal
    exact info_main_iteration w before after entry total hkeys htotal

/-- C14 at concrete inputs: in `sweepWorld` the iteration of the malformed key
`bad` is the derivation alone, and the iteration of `K1` ends with the delay;
in `deadWorld` the address script does nothing for a rejected entry; in
`twoAddressWorld` the run of the address script delays after the first of its
two entries and not after the second. -/
theorem delay_follows_completed_iterations_witness :
    (GetEthBalance.processKey sweepWorld "rpc" 40000000000 ⟨Dbl.zero, 0, 0, Dbl.zero⟩
        "bad").effects = [Effect.privateKeyToAccount "bad"] ∧
    (∃ body, (∀ ev ∈ body, ev.isSetTimeout = false) ∧
      (GetEthBalance.processKey sweepWorld "rpc" 40000000000 ⟨Dbl.zero, 0, 0, Dbl.zero⟩
          "K1").effects = body ++ [Effect.setTimeout 500]) ∧
    (GetEthInfo.processAddress deadWorld 2 0 "x").effects = [] ∧
    (GetEthInfo.processAddress twoAddressWorld 2 ([] : List String).length "a").effects
      = [Effect.getBalance GetEthInfo.web3 (jsTrim "a"),
          Effect.getTransactionCountLatest GetEthInfo.web3 (jsTrim "a")]
        ++ (if ["b"] = [] then [] else [Effect.setTimeout 100]) ∧
    (GetEthInfo.processAddress twoAddressWorld 2 ["a"].length "b").effects
      = [Effect.getBalance GetEthInfo.web3 (jsTrim "b"),
          Effect.getTransactionCountLatest GetEthInfo.web3 (jsTrim "b")]
        ++ (if ([] : List String) = [] then [] else [Effect.setTimeout 100]) :=
  ⟨((delay_follows_completed_iterations sweepWorld).1 "rpc" 40000000000
      ⟨Dbl.zero, 0, 0, Dbl.zero⟩ "bad").1 (Or.inl (by decide)),
    ((delay_follows_completed_iterations sweepWorld).1 "rpc" 40000000000
      ⟨Dbl.zero, 0, 0, Dbl.zero⟩ "K1").2.1 "A1" (by decide) (by decide),
    ((delay_follows_completed_iterations deadWorld).2.2.2.1 2 0 "x").1 (by decide),
    ((delay_follows_completed_iterations twoAddressWorld).2.2.2.2.2.2.2 [] ["b"] "a" 2
      (by decide) (by decide)).2.2 (by decide),
    ((delay_follows_completed_iterations twoAddressWorld).2.2.2.2.2.2.2 ["a"] [] "b" 2
      (by decide) (by decide)).2.2 (by decide)⟩

/-! ## Sweep: the two gas estimates (C15) -/

theorem estimateTransferGas_cost (w : World) (web3 : String) (p : Nat)
    (fromAddress toAddress : String) (amount : Int) :
    (GetEthBalance.estimateTransferGas w web3 p fromAddress toAddress amount).value.totalGasCost
      = (GetEthBalance.estimateTransferGas w web3 p fromAddress toAddress
          amount).value.gasLimit * p := by
  unfold GetEthBalance.estimateTransferGas
  cases h : w.estimateGas web3 fromAddress toAddress amount none <;> simp

theorem transferETH_tx_ok (w : World) (web3 : String) (p : Nat)
    (privateKey address : String) (amount : Int)
    (hamt : amount = (Spec.sweepBalance w web3 address : Int)
      - (Spec.probeGasLimit w web3 p address : Int) * (p : Int)) :
    ∀ ev ∈ (GetEthBalance.transferETH w web3 p privateKey address
      GetEthBalance.TARGET_ADDRESS amount).effects, Spec.SweepTxOk w web3 p ev := by
  have hfields : ∀ nonce : Nat, Spec.SweepTxFields w web3 p
      ⟨address, GetEthBalance.TARGET_ADDRESS, amount,
        (GetEthBalance.estimateTransferGas w web3 p address GetEthBalance.TARGET_ADDRESS
          amount).value.gasLimit, p, nonce, none⟩ := by
    intro nonce
    exact ⟨hamt, rfl, rfl⟩
  unfold GetEthBalance.transferETH
  simp only [Run.effects_bind, Run.effects_emit, Run.value_bind]
  split
  · simp [Spec.SweepTxOk]
  · rename_i nonce _
    simp only [Run.effects_bind, Run.effects_emit, Run.value_bind, Run.value_pure,
      Run.effects_pure, estimateTransferGas_effects]
    split
    · simp [Spec.SweepTxOk, hfields]
    · rename_i raw hsig
      simp only [Run.effects_bind, Run.effects_emit, Run.value_bind]
      split <;> simp [Spec.SweepTxOk, hfields] <;> exact ⟨_, ⟨_, hsig⟩, hfields nonce⟩

theorem sweep_tx_ok (w : World) (web3 : String) (p : Nat) (s : GetEthBalance.Summary)
    (privateKey address : String) :
    ∀ ev ∈ (GetEthBalance.sweep w web3 p s privateKey address
      (GetEthBalance.getETHBalance w web3 address).value).effects,
      Spec.SweepTxOk w web3 p ev := by
  unfold GetEthBalance.sweep
  simp only [Run.effects_bind, Run.value_bind, estimateTransferGas_effects]
  rw [List.forall_mem_append]
  constructor
  · simp [Spec.SweepTxOk]
  · split
    · split
      · simp only [Run.effects_bind, Run.value_bind]
        rw [List.forall_mem_append]
        constructor
        · apply transferETH_tx_ok w web3 p privateKey address _
          rw [estimateTransferGas_cost]
          simp [Spec.sweepBalance, Spec.probeGasLimit]
        · split <;> simp
      · simp
    · simp

theorem sweep_processKey_tx_ok (w : World) (web3 : String) (p : Nat)
    (s : GetEthBalance.Summary) (privateKey : String) :
    ∀ ev ∈ (GetEthBalance.processKey w web3 p s privateKey).effects,
      Spec.SweepTxOk w web3 p ev := by
  cases hk : w.privateKeyToAccount privateKey with
  | none =>
    simp [GetEthBalance.processKey, GetEthBalance.getAddressFromPrivateKey, hk,
      Spec.SweepTxOk]
  | some address =>
    by_cases ha : address = ""
    · simp [GetEthBalance.processKey, GetEthBalance.getAddressFromPrivateKey, hk, ha,
        Spec.SweepTxOk]
    · by_cases hlt : Dbl.lt Dbl.zero (parseFloatEther
          (GetEthBalance.getETHBalance w web3 address).value.balanceEthWei) = true
      · have hsw := sweep_tx_ok w web3 p s privateKey address
        simp only [GetEthBalance.processKey, GetEthBalance.getAddressFromPrivateKey, hk, ha,
          hlt, Run.effects_bind, Run.value_bind, Run.effects_emit, Run.effects_pure,
          Run.value_pure, sweep_getETHBalance_effects, if_true, if_false,
          List.forall_mem_append, List.forall_mem_cons, List.append_nil]
        refine ⟨by simp [Spec.SweepTxOk], by simp [Spec.SweepTxOk], hsw, ?_⟩
        simp [Spec.SweepTxOk]
      · simp [GetEthBalance.processKey, GetEthBalance.getAddressFromPrivateKey, hk, ha,
          hlt, sweep_getETHBalance_effects, Spec.SweepTxOk]

theorem sweep_processKeys_tx_ok (w : World) (web3 : String) (p : Nat)
    (privateKeys : List String) :
    ∀ (s : GetEthBalance.Summary),
      ∀ ev ∈ (GetEthBalance.processKeys w web3 p s privateKeys).effects,
        Spec.SweepTxOk w web3 p ev := by
  induction privateKeys with
  | nil => intro s; simp [GetEthBalance.processKeys]
  | cons k ks ih =>
    intro s
    simp only [GetEthBalance.processKeys, Run.effects_bind, Run.value_bind,
      List.forall_mem_append]
    exact ⟨sweep_processKey_tx_ok w web3 p s k, ih _⟩

theorem sweep_main_tx_ok (w : World) (endpoints : List String) (web3 : String)
    (hconn : (GetEthBalance.initializeWeb3 w endpoints).value = some web3) :
    ∀ ev ∈ (GetEthBalance.main w endpoints).effects,
      Spec.SweepTxOk w web3 (GetEthBalance.getCurrentGasPrice w web3).value ev := by
  have hinit : ∀ ev ∈ (GetEthBalance.initializeWeb3 w endpoints).effects,
      Spec.SweepTxOk w web3 (GetEthBalance.getCurrentGasPrice w web3).value ev := by
    intro ev hev
    obtain ⟨e, rfl⟩ := sweep_initializeWeb3_probes_only w endpoints ev hev
    simp [Spec.SweepTxOk]
  have hgas : (GetEthBalance.getCurrentGasPrice w web3).effects = [Effect.getGasPrice web3] := by
    unfold GetEthBalance.getCurrentGasPrice
    simp only [Run.effects_bind, Run.effects_emit]
    split <;> simp
  have hread : (GetEthBalance.readPrivateKeys w "evm_private.txt").effects
      = [Effect.readFileSync "evm_private.txt"] := by
    unfold GetEthBalance.readPrivateKeys
    simp only [Run.effects_bind, Run.effects_emit]
    split <;> simp
  simp only [GetEthBalance.main, Run.effects_bind, Run.value_bind, hconn, hgas, hread,
    List.forall_mem_append, List.forall_mem_cons]
  refine ⟨hinit, ⟨by simp [Spec.SweepTxOk], by simp⟩,
    ⟨by simp [Spec.SweepTxOk], by simp⟩, ?_⟩
  split
  · simp
  · simp only [Run.effects_bind, Run.value_bind, Run.effects_pure, List.append_nil]
    exact sweep_processKeys_tx_ok w web3 _ _ _

theorem gas_mismatch_arithmetic (b L0 L1 p : Nat) (value : Int)
    (hv : value = (b : Int) - (L0 : Int) * (p : Int)) :
    value + (L1 : Int) * (p : Int) = (b : Int) + ((L1 : Int) - (L0 : Int)) * (p : Int) ∧
    (L1 < L0 → (b : Int) - (value + (L1 : Int) * (p : Int))
      = ((L0 : Int) - (L1 : Int)) * (p : Int)) ∧
    (0 < p →
      (value + (L1 : Int) * (p : Int) = (b : Int) ↔ L1 = L0) ∧
      (L0 < L1 → (b : Int) < value + (L1 : Int) * (p : Int))) := by
  subst hv
  refine ⟨by ring, fun _ => by ring, ?_⟩
  intro hp
  have hp' : (0 : Int) < (p : Int) := by exact_mod_cast hp
  constructor
  · constructor
    · intro h
      have h1 : ((L1 : Int) - (L0 : Int)) * (p : Int) = 0 := by linarith
      rcases mul_eq_zero.mp h1 with h2 | h2
      · have : (L1 : Int) = (L0 : Int) := by linarith
        exact_mod_cast this
      · omega
    · intro h
      rw [h]
      ring
  · intro h
    have h1 : (0 : Int) < ((L1 : Int) - (L0 : Int)) * (p : Int) := by
      apply mul_pos _ hp'
      have : (L0 : Int) < (L1 : Int) := by exact_mod_cast h
      linarith
    linarith

theorem sweep_tx_fields_arithmetic (w : World) (web3 : String) (tx : Transaction)
    (p b L0 L1 : Nat) (hf : Spec.SweepTxFields w web3 p tx)
    (hb : b = Spec.sweepBalance w web3 tx.fromAddress)
    (h0 : L0 = Spec.probeGasLimit w web3 p tx.fromAddress)
    (h1 : L1 = Spec.realGasLimit w web3 p tx.fromAddress tx.value) :
    tx.value = (b : Int) - (L0 : Int) * (p : Int) ∧ tx.gas = L1 ∧ tx.gasPrice = p ∧
    tx.value + (tx.gas : Int) * (tx.gasPrice : Int)
      = (b : Int) + ((L1 : Int) - (L0 : Int)) * (p : Int) ∧
    (L1 < L0 → (b : Int) - (tx.value + (tx.gas : Int) * (tx.gasPrice : Int))
      = ((L0 : Int) - (L1 : Int)) * (p : Int)) ∧
    (0 < p →
      (tx.value + (tx.gas : Int) * (tx.gasPrice : Int) = (b : Int) ↔ L1 = L0) ∧
      (L0 < L1 → (b : Int) < tx.value + (tx.gas : Int) * (tx.gasPrice : Int))) := by
  obtain ⟨hv, hg, hp⟩ := hf
  have hv' : tx.value = (b : Int) - (L0 : Int) * (p : Int) := by rw [hb, h0]; exact hv
  have hg' : tx.gas = L1 := by rw [h1]; exact hg
  refine ⟨hv', hg', hp, ?_⟩
  rw [hg', hp]
  exact gas_mismatch_arithmetic b L0 L1 p tx.value hv'

/-- C15 (as stated, refuted at gas price 0): in `freeGasWorld` the gas price is
0, the zero-value probe gives `L0 = 21000` and the estimate for the real amount
`L1 = 30000`; the run signs and submits the transaction with value 5 and gas
30000 from `A`, whose balance is `b = 5`: `L1 > L0`, yet
`value + gas × gasPrice = 5 = b`, which does not exceed `b`. -/
theorem c15_zero_gas_price_no_excess :
    (GetEthBalance.initializeWeb3 freeGasWorld ["rpc"]).value = some "rpc" ∧
    (GetEthBalance.getCurrentGasPrice freeGasWorld "rpc").value = 0 ∧
    Spec.sweepBalance freeGasWorld "rpc" "A" = 5 ∧
    Spec.probeGasLimit freeGasWorld "rpc" 0 "A" = 21000 ∧
    Spec.realGasLimit freeGasWorld "rpc" 0 "A" 5 = 30000 ∧
    Effect.signTransaction ⟨"A", GetEthBalance.TARGET_ADDRESS, 5, 30000, 0, 0, none⟩ "K"
      ∈ (GetEthBalance.main freeGasWorld ["rpc"]).effects ∧
    Effect.sendSignedTransaction "rpc" "signed:A"
      ∈ (GetEthBalance.main freeGasWorld ["rpc"]).effects ∧
    freeGasWorld.signTransaction ⟨"A", GetEthBalance.TARGET_ADDRESS, 5, 30000, 0, 0, none⟩ "K"
      = some "signed:A" ∧
    ¬ ((5 : Int) < (5 : Int) + ((30000 : Nat) : Int) * ((0 : Nat) : Int)) ∧
    ((5 : Int) + ((30000 : Nat) : Int) * ((0 : Nat) : Int) = 5 ∧ (30000 : Nat) ≠ 21000) := by
  refine ⟨by decide, by decide, by decide, by decide, by decide, by decide, by decide,
    by decide, by decide, by decide, by decide⟩

/-- C15 (amended): in every run of the sweep script, every transaction that is
signed, and every raw transaction that is submitted (it is the signature of such
a transaction), has value `b − L0 × p`, gas `L1` and gas price `p`, where `b` is
the balance of the sender, `p` the current gas price, `L0` the gas limit of the
estimate requested with value `'0'` and `L1` the gas limit of the estimate
requested inside `transferETH` with the real amount.  Hence
`value + gas × gasPrice = b + (L1 − L0) × p`; when `L1 < L0` it leaves
`(L0 − L1) × p` wei behind; and when the gas price is positive it equals `b`
exactly when `L1 = L0` and exceeds `b` when `L1 > L0`. -/
theorem sweep_gas_mismatch (w : World) (endpoints : List String) (web3 : String)
    (hconn : (GetEthBalance.initializeWeb3 w endpoints).value = some web3) :
    (∀ tx privateKey (p b L0 L1 : Nat),
      Effect.signTransaction tx privateKey ∈ (GetEthBalance.main w endpoints).effects →
      p = (GetEthBalance.getCurrentGasPrice w web3).value →
      b = Spec.sweepBalance w web3 tx.fromAddress →
      L0 = Spec.probeGasLimit w web3 p tx.fromAddress →
      L1 = Spec.realGasLimit w web3 p tx.fromAddress tx.value →
        tx.value = (b : Int) - (L0 : Int) * (p : Int) ∧ tx.gas = L1 ∧ tx.gasPrice = p ∧
        tx.value + (tx.gas : Int) * (tx.gasPrice : Int)
          = (b : Int) + ((L1 : Int) - (L0 : Int)) * (p : Int) ∧
        (L1 < L0 → (b : Int) - (tx.value + (tx.gas : Int) * (tx.gasPrice : Int))
          = ((L0 : Int) - (L1 : Int)) * (p : Int)) ∧
        (0 < p →
          (tx.value + (tx.gas : Int) * (tx.gasPrice : Int) = (b : Int) ↔ L1 = L0) ∧
          (L0 < L1 → (b : Int) < tx.value + (tx.gas : Int) * (tx.gasPrice : Int)))) ∧
    (∀ connection raw,
      Effect.sendSignedTransaction connection raw ∈ (GetEthBalance.main w endpoints).effects →
      ∃ tx privateKey, w.signTransaction tx privateKey = some raw ∧
        ∀ (p b L0 L1 : Nat),
        p = (GetEthBalance.getCurrentGasPrice w web3).value →
        b = Spec.sweepBalance w web3 tx.fromAddress →
        L0 = Spec.probeGasLimit w web3 p tx.fromAddress →
        L1 = Spec.realGasLimit w web3 p tx.fromAddress tx.value →
          tx.value = (b : Int) - (L0 : Int) * (p : Int) ∧ tx.gas = L1 ∧ tx.gasPrice = p ∧
          tx.value + (tx.gas : Int) * (tx.gasPrice : Int)
            = (b : Int) + ((L1 : Int) - (L0 : Int)) * (p : Int) ∧
          (L1 < L0 → (b : Int) - (tx.value + (tx.gas : Int) * (tx.gasPrice : Int))
            = ((L0 : Int) - (L1 : Int)) * (p : Int)) ∧
          (0 < p →
            (tx.value + (tx.gas : Int) * (tx.gasPrice : Int) = (b : Int) ↔ L1 = L0) ∧
            (L0 < L1 → (b : Int) < tx.value + (tx.gas : Int) * (tx.gasPrice : Int)))) := by
  have hok := sweep_main_tx_ok w endpoints web3 hconn
  constructor
  · intro tx privateKey p b L0 L1 hmem hp hb h0 h1
    subst hp
    exact sweep_tx_fields_arithmetic w web3 tx _ b L0 L1 (hok _ hmem) hb h0 h1
  · intro connection raw hmem
    obtain ⟨tx, privateKey, hsig, hf⟩ := hok _ hmem
    refine ⟨tx, privateKey, hsig, ?_⟩
    intro p b L0 L1 hp hb h0 h1
    subst hp
    exact sweep_tx_fields_arithmetic w web3 tx _ b L0 L1 hf hb h0 h1

set_option maxRecDepth 8000 in
/-- C15 at a concrete input: in `stateGasWorld` (gas price 1, balance 50000,
`L0 = 21000`, `L1 = 30000`) the signed transaction has value 29000 and gas
30000, and `value + gas × gasPrice = 59000` exceeds the balance. -/
theorem sweep_gas_mismatch_witness :
    ((29000 : Int) = ((50000 : Nat) : Int) - ((21000 : Nat) : Int) * ((1 : Nat) : Int) ∧
      (30000 : Nat) = 30000 ∧ (1 : Nat) = 1) ∧
    ((50000 : Nat) : Int) < (29000 : Int) + ((30000 : Nat) : Int) * ((1 : Nat) : Int) :=
  have h := (sweep_gas_mismatch stateGasWorld ["rpc"] "rpc" (by decide)).1
    ⟨"A", GetEthBalance.TARGET_ADDRESS, 29000, 30000, 1, 0, none⟩ "K" 1 50000 21000 30000
    (by decide) (by decide) (by decide) (by decide) (by decide)
  ⟨⟨h.1, h.2.1, h.2.2.1⟩, (h.2.2.2.2.2 (by decide)).2 (by decide)⟩

/-! ## The two address encoders (C16) -/

/-- C16 (as stated, refuted): `0x220511F4fd6d898125f79aa8d4cb91bffe9df6db` is
`0x` followed by 40 hexadecimal digits, but it is mixed-case with a wrong
checksum and the validity check rejects it (`checksumWorld`):
`generateFunctionData` raises and returns no data, while the encoder of
`getTokenBalance` does produce its argument for it. -/
theorem c16_rejected_hex_address_has_no_data :
    "0x220511F4fd6d898125f79aa8d4cb91bffe9df6db"
      = "0x" ++ String.mk "220511F4fd6d898125f79aa8d4cb91bffe9df6db".data ∧
    "220511F4fd6d898125f79aa8d4cb91bffe9df6db".data.length = 40 ∧
    (∀ c ∈ "220511F4fd6d898125f79aa8d4cb91bffe9df6db".data,
      (hexDigitValue c).isSome = true) ∧
    checksumWorld.isAddress "0x220511F4fd6d898125f79aa8d4cb91bffe9df6db" = false ∧
    checksumWorld.isAddress "0x220511f4fd6d898125f79aa8d4cb91bffe9df6db" = true ∧
    ZamaFauct.generateFunctionData checksumWorld "0x220511F4fd6d898125f79aa8d4cb91bffe9df6db"
      = none ∧
    ZamaUsdcTokenBalance.balanceOfCallData "0x220511F4fd6d898125f79aa8d4cb91bffe9df6db"
      = "0x70a08231000000000000000000000000" ++ "220511f4fd6d898125f79aa8d4cb91bffe9df6db" :=
  ⟨by decide, by decide, by decide, by decide, by decide, by decide, by decide⟩

/-- C16 (amended): for every address `0x` followed by 40 hexadecimal digits,
the argument that `getTokenBalance` builds (`padStart(64, '0')` of the
lower-cased digits) is 24 zeros followed by the lower-cased digits, 64
characters; when the validity check accepts the address, `generateFunctionData`
builds the same argument (24 literal zeros in front of the lower-cased digits)
and returns `0x6a627842` followed by it, 74 characters in all; for an address
that the validity check rejects, of that form or not, it raises and returns no
data. -/
theorem address_encoders_agree (w : World) :
    (∀ ds : List Char, ds.length = 40 → (∀ c ∈ ds, (hexDigitValue c).isSome = true) →
      ZamaUsdcTokenBalance.balanceOfCallData ("0x" ++ String.mk ds)
        = "0x70a08231" ++ String.mk (List.replicate 24 (Char.ofNat 48) ++ ds.map Char.toLower) ∧
      (List.replicate 24 (Char.ofNat 48) ++ ds.map Char.toLower).length = 64 ∧
      (w.isAddress ("0x" ++ String.mk ds) = true →
        ZamaFauct.generateFunctionData w ("0x" ++ String.mk ds)
          = some ("0x6a627842" ++
              String.mk (List.replicate 24 (Char.ofNat 48) ++ ds.map Char.toLower)) ∧
        ("0x6a627842" ++
          String.mk (List.replicate 24 (Char.ofNat 48) ++ ds.map Char.toLower)).length = 74)) ∧
    (∀ address : String, w.isAddress address = false →
      ZamaFauct.generateFunctionData w address = none) := by
  constructor
  · intro ds hlen hhex
    have hdata : ("0x" ++ String.mk ds).data = "0x".data ++ ds := by simp
    have hbal : ZamaUsdcTokenBalance.balanceOfCallData ("0x" ++ String.mk ds)
        = "0x70a08231" ++
          String.mk (List.replicate 24 (Char.ofNat 48) ++ ds.map Char.toLower) := by
      unfold ZamaUsdcTokenBalance.balanceOfCallData padStart64
      rw [hdata, removeFirst0x_address, utf16Length_lower_hex ds hhex, hlen]
      rfl
    refine ⟨hbal, by simp [hlen], ?_⟩
    intro hacc
    constructor
    · unfold ZamaFauct.generateFunctionData
      simp only [hacc, Bool.not_true, Bool.false_eq_true, if_false]
      rw [hdata, removeFirst0x_address]
      rfl
    · rw [String.length_append]
      have h10 : "0x6a627842".length = 10 := by decide
      rw [h10]
      show 10 + (List.replicate 24 (Char.ofNat 48) ++ ds.map Char.toLower).length = 74
      simp [hlen]
  · intro address hrej
    simp [ZamaFauct.generateFunctionData, hrej]

/-- C16 at concrete inputs: the target address of the sweep script, accepted in
one environment and rejected in another. -/
theorem address_encoders_agree_witness :
    ZamaFauct.generateFunctionData acceptingWorld
        ("0x" ++ String.mk "220511f4fd6d898125f79aa8d4cb91bffe9df6db".data)
      = some ("0x6a627842" ++ String.mk (List.replicate 24 (Char.ofNat 48) ++
          "220511f4fd6d898125f79aa8d4cb91bffe9df6db".data.map Char.toLower)) ∧
    ZamaFauct.generateFunctionData deadWorld "0x220511f4fd6d898125f79aa8d4cb91bffe9df6db"
      = none :=
  ⟨(((address_encoders_agree acceptingWorld).1 "220511f4fd6d898125f79aa8d4cb91bffe9df6db".data
      (by decide) (by decide)).2.2 (by decide)).1,
    (address_encoders_agree deadWorld).2 "0x220511f4fd6d898125f79aa8d4cb91bffe9df6db"
      (by decide)⟩

/-! ## The chain guard of the Sepolia scripts (C17) -/

theorem fauct_initializeWeb3_selected (w : World) (endpoints : List String) (e : String)
    (h : (ZamaFauct.initializeWeb3 w endpoints).value = some e) :
    e ∈ endpoints ∧ (w.getBlockNumber e).isSome = true ∧ w.getChainId e = some 11155111 := by
  induction endpoints with
  | nil => simp [ZamaFauct.initializeWeb3] at h
  | cons x xs ih =>
    simp only [ZamaFauct.initializeWeb3, Run.value_bind] at h
    cases hb : w.getBlockNumber x with
    | none =>
      rw [hb] at h
      obtain ⟨h1, h2, h3⟩ := ih h
      exact ⟨List.mem_cons_of_mem _ h1, h2, h3⟩
    | some b =>
      rw [hb] at h
      simp only [Run.value_bind] at h
      cases hc : w.getChainId x with
      | none =>
        rw [hc] at h
        obtain ⟨h1, h2, h3⟩ := ih h
        exact ⟨List.mem_cons_of_mem _ h1, h2, h3⟩
      | some c =>
        rw [hc] at h
        by_cases hne : c = 11155111
        · simp only [hne, ne_eq, not_true_eq_false, if_false, Run.value_pure,
            Option.some.injEq] at h
          subst h
          exact ⟨List.mem_cons_self _ _, by simp [hb], by rw [hc, hne]⟩
        · simp only [ne_eq, hne, not_false_eq_true, if_true] at h
          obtain ⟨h1, h2, h3⟩ := ih h
          exact ⟨List.mem_cons_of_mem _ h1, h2, h3⟩

theorem usdc_initializeWeb3_selected (w : World) (endpoints : List String) (e : String)
    (h : (ZamaUsdcTokenBalance.initializeWeb3 w endpoints).value = some e) :
    e ∈ endpoints ∧ (w.getBlockNumber e).isSome = true ∧ w.getChainId e = some 11155111 := by
  induction endpoints with
  | nil => simp [ZamaUsdcTokenBalance.initializeWeb3] at h
  | cons x xs ih =>
    simp only [ZamaUsdcTokenBalance.initializeWeb3, Run.value_bind] at h
    cases hb : w.getBlockNumber x with
    | none =>
      rw [hb] at h
      obtain ⟨h1, h2, h3⟩ := ih h
      exact ⟨List.mem_cons_of_mem _ h1, h2, h3⟩
    | some b =>
      rw [hb] at h
      simp only [Run.value_bind] at h
      cases hc : w.getChainId x with
      | none =>
        rw [hc] at h
        obtain ⟨h1, h2, h3⟩ := ih h
        exact ⟨List.mem_cons_of_mem _ h1, h2, h3⟩
      | some c =>
        rw [hc] at h
        by_cases hne : c = 11155111
        · simp only [hne, ne_eq, not_true_eq_false, if_false, Run.value_pure,
            Option.some.injEq] at h
          subst h
          exact ⟨List.mem_cons_self _ _, by simp [hb], by rw [hc, hne]⟩
        · simp only [ne_eq, hne, not_false_eq_true, if_true] at h
          obtain ⟨h1, h2, h3⟩ := ih h
          exact ⟨List.mem_cons_of_mem _ h1, h2, h3⟩

/-- C17: in `zama-fauct.js` and `zama-usdc-token-balance.js`, whenever
`initializeWeb3` returns `true`, the selected endpoint is one of the list, it
answered the block-height probe and it reported chain ID 11155111 (so an
endpoint that reports another chain ID is never the selected one); and an
endpoint that answers the probe but reports another chain ID is passed over:
after its two requests the function goes on with the rest of the list, whose
first endpoint is probed next. -/
theorem chain_guard_of_sepolia_scripts (w : World) :
    (∀ (endpoints : List String) (e : String),
      ((ZamaFauct.initializeWeb3 w endpoints).value = some e →
        e ∈ endpoints ∧ (w.getBlockNumber e).isSome = true ∧
          w.getChainId e = some 11155111) ∧
      ((ZamaUsdcTokenBalance.initializeWeb3 w endpoints).value = some e →
        e ∈ endpoints ∧ (w.getBlockNumber e).isSome = true ∧
          w.getChainId e = some 11155111)) ∧
    (∀ (e : String) (rest : List String) (b c : Nat),
      w.getBlockNumber e = some b → w.getChainId e = some c → c ≠ 11155111 →
      ((ZamaFauct.initializeWeb3 w (e :: rest)).value
          = (ZamaFauct.initializeWeb3 w rest).value ∧
        (ZamaFauct.initializeWeb3 w (e :: rest)).effects
          = [Effect.getBlockNumber e, Effect.getChainId e]
            ++ (ZamaFauct.initializeWeb3 w rest).effects) ∧
      ((ZamaUsdcTokenBalance.initializeWeb3 w (e :: rest)).value
          = (ZamaUsdcTokenBalance.initializeWeb3 w rest).value ∧
        (ZamaUsdcTokenBalance.initializeWeb3 w (e :: rest)).effects
          = [Effect.getBlockNumber e, Effect.getChainId e]
            ++ (ZamaUsdcTokenBalance.initializeWeb3 w rest).effects)) := by
  refine ⟨fun endpoints e => ⟨fauct_initializeWeb3_selected w endpoints e,
    usdc_initializeWeb3_selected w endpoints e⟩, ?_⟩
  intro e rest b c hb hc hne
  refine ⟨⟨?_, ?_⟩, ⟨?_, ?_⟩⟩
  · simp [ZamaFauct.initializeWeb3, hb, hc, hne]
  · simp [ZamaFauct.initializeWeb3, hb, hc, hne]
  · simp [ZamaUsdcTokenBalance.initializeWeb3, hb, hc, hne]
  · simp [ZamaUsdcTokenBalance.initializeWeb3, hb, hc, hne]

/-- C17 at a concrete input: in `probeWorld` the endpoint `a` answers on chain
1 and `b` on Sepolia. -/
theorem chain_guard_of_sepolia_scripts_witness :
    ("b" ∈ ["x", "a", "b"] ∧ (probeWorld.getBlockNumber "b").isSome = true ∧
      probeWorld.getChainId "b" = some 11155111) ∧
    (ZamaFauct.initializeWeb3 probeWorld ["a", "b"]).effects
      = [Effect.getBlockNumber "a", Effect.getChainId "a"]
        ++ (ZamaFauct.initializeWeb3 probeWorld ["b"]).effects :=
  ⟨((chain_guard_of_sepolia_scripts probeWorld).1 ["x", "a", "b"] "b").1 (by decide),
    (((chain_guard_of_sepolia_scripts probeWorld).2 "a" ["b"] 7 1 (by decide) (by decide)
      (by decide)).1).2⟩

end Faucet
